import Mathlib

/-!
OBD-II / GPS string decoding of the connected-mobility device software.

A shallow embedding of `drivers/obd/source/obd_library.c` and
`drivers/gps/source/gps_library.c`.

Conventions.
* A C string / `char *` is the list of the memory cells from the pointer
  onwards (`List Nat`, a cell holds a byte value `0..255`).  The functions
  test for the terminating NUL themselves, exactly where the C code does;
  reading past the end of the modelled memory yields `0`.
* `p + k` is `p.drop k`, `*p` is `deref p`.
* Unsigned machine integers are `Nat` reduced `% 2 ^ w` where the C code
  converts, signed ones are `Int` wrapped by `wrapInt32` / `wrapInt16`.
-/

namespace Obd

/-! ## Memory and libc primitives -/

/-- The bytes of an ASCII literal. -/
def ascii (s : String) : List Nat := s.toList.map Char.toNat

/-- The cell a pointer points at, `*p`. -/
def deref (p : List Nat) : Nat := p.headD 0

/-- The C string stored at `p`: the cells before the first NUL. -/
def cstring (p : List Nat) : List Nat := p.takeWhile (fun c => c != 0)

/-- The libc function `strstr( hay, needle )`: the suffix of `hay` starting at the first
occurrence of `needle` inside the string at `hay`, or `none` (NULL). -/
def strstr : List Nat → List Nat → Option (List Nat)
  | [], needle => if needle.isPrefixOf [] then some [] else none
  | c :: rest, needle =>
    if needle.isPrefixOf (c :: rest) then some (c :: rest)
    else if c = 0 then none
    else strstr rest needle

/-- Wrap to `int32_t` (two's complement, arithmetic modulo `2 ^ 32`). -/
def wrapInt32 (x : Int) : Int := (x + 2147483648) % 4294967296 - 2147483648

/-- Wrap to `int16_t`. -/
def wrapInt16 (x : Int) : Int := (x + 32768) % 65536 - 32768

/-! ## HexCodec (`obd_library.c`) -/

/-- The `if / else if` ladder both nibbles of `hex2uint8` go through:
`'A'..'F'` is lowered by 7, `'a'..'f'` by 39, a decimal digit is kept, and
anything else makes the function `return 0` (`none`). -/
def hexAdjust (c : Nat) : Option Nat :=
  if 65 ≤ c ∧ c ≤ 70 then some (c - 7)
  else if 97 ≤ c ∧ c ≤ 102 then some (c - 39)
  else if c < 48 ∨ c > 57 then none
  else some c

/-- Source: `static uint8_t hex2uint8( const char * p )` -/
def hex2uint8 (p : List Nat) : Nat :=
  let c1 := deref p
  let c2 := deref (p.drop 1)
  match hexAdjust c1 with
  | none => 0
  | some c1 =>
    if c2 = 0 then c1 &&& 15
    else
      match hexAdjust c2 with
      | none => 0
      | some c2 => ((c1 <<< 4) ||| (c2 &&& 15)) % 256

/-- The `for` loop of `hex2uint16`: `p` is the read position (`c = *p`), `n`
the number of digits taken so far and `i` the accumulated `uint16_t`. -/
def hex2uint16Loop : List Nat → Nat → Nat → Nat
  | [], _, i => i
  | c :: rest, n, i =>
    if c = 0 ∨ ¬ n < 4 then i
    else if 65 ≤ c ∧ c ≤ 70 then
      hex2uint16Loop rest (n + 1) (((i <<< 4) ||| ((c - 7) &&& 15)) % 65536)
    else if 97 ≤ c ∧ c ≤ 102 then
      hex2uint16Loop rest (n + 1) (((i <<< 4) ||| ((c - 39) &&& 15)) % 65536)
    else if c = 32 ∧ n = 2 then hex2uint16Loop rest n i
    else if c < 48 ∨ c > 57 then i
    else hex2uint16Loop rest (n + 1) (((i <<< 4) ||| (c &&& 15)) % 65536)

/-- Source: `static uint16_t hex2uint16( const char * p )` -/
def hex2uint16 (p : List Nat) : Nat := hex2uint16Loop p 0 0

/-! ## PidDecodeTable (`obd_library.c`) -/

/-- The PID numbers `normalizeData` switches on.  They are `#define`d in
`obd_pid.h`, which is not part of the sources at hand, so the decode table
takes them as a parameter. -/
structure PidTable where
  PID_RPM : Nat
  PID_EVAP_SYS_VAPOR_PRESSURE : Nat
  PID_FUEL_PRESSURE : Nat
  PID_COOLANT_TEMP : Nat
  PID_INTAKE_TEMP : Nat
  PID_AMBIENT_TEMP : Nat
  PID_ENGINE_OIL_TEMP : Nat
  PID_THROTTLE : Nat
  PID_COMMANDED_EGR : Nat
  PID_COMMANDED_EVAPORATIVE_PURGE : Nat
  PID_FUEL_LEVEL : Nat
  PID_RELATIVE_THROTTLE_POS : Nat
  PID_ABSOLUTE_THROTTLE_POS_B : Nat
  PID_ABSOLUTE_THROTTLE_POS_C : Nat
  PID_ACC_PEDAL_POS_D : Nat
  PID_ACC_PEDAL_POS_E : Nat
  PID_ACC_PEDAL_POS_F : Nat
  PID_COMMANDED_THROTTLE_ACTUATOR : Nat
  PID_ENGINE_LOAD : Nat
  PID_ABSOLUTE_ENGINE_LOAD : Nat
  PID_ETHANOL_FUEL : Nat
  PID_HYBRID_BATTERY_PERCENTAGE : Nat
  PID_MAF_FLOW : Nat
  PID_TIMING_ADVANCE : Nat
  PID_DISTANCE : Nat
  PID_DISTANCE_WITH_MIL : Nat
  PID_TIME_WITH_MIL : Nat
  PID_TIME_SINCE_CODES_CLEARED : Nat
  PID_RUNTIME : Nat
  PID_FUEL_RAIL_PRESSURE : Nat
  PID_ENGINE_REF_TORQUE : Nat
  PID_CONTROL_MODULE_VOLTAGE : Nat
  PID_ENGINE_FUEL_RATE : Nat
  PID_ENGINE_TORQUE_DEMANDED : Nat
  PID_ENGINE_TORQUE_PERCENTAGE : Nat
  PID_SHORT_TERM_FUEL_TRIM_1 : Nat
  PID_LONG_TERM_FUEL_TRIM_1 : Nat
  PID_SHORT_TERM_FUEL_TRIM_2 : Nat
  PID_LONG_TERM_FUEL_TRIM_2 : Nat
  PID_EGR_ERROR : Nat
  PID_FUEL_INJECTION_TIMING : Nat
  PID_CATALYST_TEMP_B1S1 : Nat
  PID_CATALYST_TEMP_B2S1 : Nat
  PID_CATALYST_TEMP_B1S2 : Nat
  PID_CATALYST_TEMP_B2S2 : Nat
  PID_AIR_FUEL_EQUIV_RATIO : Nat

/-- The `case` labels of the `switch` in `normalizeData`, in source order. -/
def PidTable.caseLabels (K : PidTable) : List Nat :=
  [K.PID_RPM, K.PID_EVAP_SYS_VAPOR_PRESSURE, K.PID_FUEL_PRESSURE,
   K.PID_COOLANT_TEMP, K.PID_INTAKE_TEMP, K.PID_AMBIENT_TEMP, K.PID_ENGINE_OIL_TEMP,
   K.PID_THROTTLE, K.PID_COMMANDED_EGR, K.PID_COMMANDED_EVAPORATIVE_PURGE,
   K.PID_FUEL_LEVEL, K.PID_RELATIVE_THROTTLE_POS, K.PID_ABSOLUTE_THROTTLE_POS_B,
   K.PID_ABSOLUTE_THROTTLE_POS_C, K.PID_ACC_PEDAL_POS_D, K.PID_ACC_PEDAL_POS_E,
   K.PID_ACC_PEDAL_POS_F, K.PID_COMMANDED_THROTTLE_ACTUATOR, K.PID_ENGINE_LOAD,
   K.PID_ABSOLUTE_ENGINE_LOAD, K.PID_ETHANOL_FUEL, K.PID_HYBRID_BATTERY_PERCENTAGE,
   K.PID_MAF_FLOW, K.PID_TIMING_ADVANCE,
   K.PID_DISTANCE, K.PID_DISTANCE_WITH_MIL, K.PID_TIME_WITH_MIL,
   K.PID_TIME_SINCE_CODES_CLEARED, K.PID_RUNTIME, K.PID_FUEL_RAIL_PRESSURE,
   K.PID_ENGINE_REF_TORQUE, K.PID_CONTROL_MODULE_VOLTAGE, K.PID_ENGINE_FUEL_RATE,
   K.PID_ENGINE_TORQUE_DEMANDED, K.PID_ENGINE_TORQUE_PERCENTAGE,
   K.PID_SHORT_TERM_FUEL_TRIM_1, K.PID_LONG_TERM_FUEL_TRIM_1,
   K.PID_SHORT_TERM_FUEL_TRIM_2, K.PID_LONG_TERM_FUEL_TRIM_2, K.PID_EGR_ERROR,
   K.PID_FUEL_INJECTION_TIMING,
   K.PID_CATALYST_TEMP_B1S1, K.PID_CATALYST_TEMP_B2S1, K.PID_CATALYST_TEMP_B1S2,
   K.PID_CATALYST_TEMP_B2S2, PidTable.PID_AIR_FUEL_EQUIV_RATIO K]

/-- A concrete table: the PID numbers of OBD-II service 01 as standardised in
SAE J1979 (vehicle speed, which is not a `case` label, is `0x0D` there).
It instantiates the theorems that are stated for an arbitrary table. -/
def j1979 : PidTable where
  PID_RPM := 0x0C
  PID_EVAP_SYS_VAPOR_PRESSURE := 0x32
  PID_FUEL_PRESSURE := 0x0A
  PID_COOLANT_TEMP := 0x05
  PID_INTAKE_TEMP := 0x0F
  PID_AMBIENT_TEMP := 0x46
  PID_ENGINE_OIL_TEMP := 0x5C
  PID_THROTTLE := 0x11
  PID_COMMANDED_EGR := 0x2C
  PID_COMMANDED_EVAPORATIVE_PURGE := 0x2E
  PID_FUEL_LEVEL := 0x2F
  PID_RELATIVE_THROTTLE_POS := 0x45
  PID_ABSOLUTE_THROTTLE_POS_B := 0x47
  PID_ABSOLUTE_THROTTLE_POS_C := 0x48
  PID_ACC_PEDAL_POS_D := 0x49
  PID_ACC_PEDAL_POS_E := 0x4A
  PID_ACC_PEDAL_POS_F := 0x4B
  PID_COMMANDED_THROTTLE_ACTUATOR := 0x4C
  PID_ENGINE_LOAD := 0x04
  PID_ABSOLUTE_ENGINE_LOAD := 0x43
  PID_ETHANOL_FUEL := 0x52
  PID_HYBRID_BATTERY_PERCENTAGE := 0x5B
  PID_MAF_FLOW := 0x10
  PID_TIMING_ADVANCE := 0x0E
  PID_DISTANCE := 0x31
  PID_DISTANCE_WITH_MIL := 0x21
  PID_TIME_WITH_MIL := 0x4D
  PID_TIME_SINCE_CODES_CLEARED := 0x4E
  PID_RUNTIME := 0x1F
  PID_FUEL_RAIL_PRESSURE := 0x59
  PID_ENGINE_REF_TORQUE := 0x63
  PID_CONTROL_MODULE_VOLTAGE := 0x42
  PID_ENGINE_FUEL_RATE := 0x5E
  PID_ENGINE_TORQUE_DEMANDED := 0x61
  PID_ENGINE_TORQUE_PERCENTAGE := 0x62
  PID_SHORT_TERM_FUEL_TRIM_1 := 0x06
  PID_LONG_TERM_FUEL_TRIM_1 := 0x07
  PID_SHORT_TERM_FUEL_TRIM_2 := 0x08
  PID_LONG_TERM_FUEL_TRIM_2 := 0x09
  PID_EGR_ERROR := 0x2D
  PID_FUEL_INJECTION_TIMING := 0x5D
  PID_CATALYST_TEMP_B1S1 := 0x3C
  PID_CATALYST_TEMP_B2S1 := 0x3D
  PID_CATALYST_TEMP_B1S2 := 0x3E
  PID_CATALYST_TEMP_B2S2 := 0x3F
  PID_AIR_FUEL_EQUIV_RATIO := 0x44

/-- Source: `static uint8_t getPercentageValue( char * data )` -/
def getPercentageValue (data : List Nat) : Nat :=
  ((hex2uint8 data % 65536) * 100 / 255) % 256

/-- Source: `static uint16_t getLargeValue( char * data )` -/
def getLargeValue (data : List Nat) : Nat := hex2uint16 data

/-- Source: `static uint8_t getSmallValue( char * data )` -/
def getSmallValue (data : List Nat) : Nat := hex2uint8 data

/-- Source: `static int16_t getTemperatureValue( char * data )` -/
def getTemperatureValue (data : List Nat) : Int :=
  wrapInt16 ((hex2uint8 data : Int) - 40)

/-- Source: `static int normalizeData( uint8_t pid, char * data )`.  The `switch` is
the chain of its `case` groups in source order; `/` on `int` is C division
(`Int.tdiv`, truncation toward zero). -/
def normalizeData (K : PidTable) (pid : Nat) (data : List Nat) : Int :=
  if pid = K.PID_RPM ∨ pid = K.PID_EVAP_SYS_VAPOR_PRESSURE then
    ((getLargeValue data >>> 2 : Nat) : Int)
  else if pid = K.PID_FUEL_PRESSURE then
    (getSmallValue data : Int) * 3
  else if pid = K.PID_COOLANT_TEMP ∨ pid = K.PID_INTAKE_TEMP
      ∨ pid = K.PID_AMBIENT_TEMP ∨ pid = K.PID_ENGINE_OIL_TEMP then
    getTemperatureValue data
  else if pid = K.PID_THROTTLE ∨ pid = K.PID_COMMANDED_EGR
      ∨ pid = K.PID_COMMANDED_EVAPORATIVE_PURGE ∨ pid = K.PID_FUEL_LEVEL
      ∨ pid = K.PID_RELATIVE_THROTTLE_POS ∨ pid = K.PID_ABSOLUTE_THROTTLE_POS_B
      ∨ pid = K.PID_ABSOLUTE_THROTTLE_POS_C ∨ pid = K.PID_ACC_PEDAL_POS_D
      ∨ pid = K.PID_ACC_PEDAL_POS_E ∨ pid = K.PID_ACC_PEDAL_POS_F
      ∨ pid = K.PID_COMMANDED_THROTTLE_ACTUATOR ∨ pid = K.PID_ENGINE_LOAD
      ∨ pid = K.PID_ABSOLUTE_ENGINE_LOAD ∨ pid = K.PID_ETHANOL_FUEL
      ∨ pid = K.PID_HYBRID_BATTERY_PERCENTAGE then
    (getPercentageValue data : Int)
  else if pid = K.PID_MAF_FLOW then
    Int.tdiv (getLargeValue data : Int) 100
  else if pid = K.PID_TIMING_ADVANCE then
    Int.tdiv (getSmallValue data : Int) 2 - 64
  else if pid = K.PID_DISTANCE ∨ pid = K.PID_DISTANCE_WITH_MIL
      ∨ pid = K.PID_TIME_WITH_MIL ∨ pid = K.PID_TIME_SINCE_CODES_CLEARED
      ∨ pid = K.PID_RUNTIME ∨ pid = K.PID_FUEL_RAIL_PRESSURE
      ∨ pid = K.PID_ENGINE_REF_TORQUE then
    (getLargeValue data : Int)
  else if pid = K.PID_CONTROL_MODULE_VOLTAGE then
    Int.tdiv (getLargeValue data : Int) 1000
  else if pid = K.PID_ENGINE_FUEL_RATE then
    Int.tdiv (getLargeValue data : Int) 20
  else if pid = K.PID_ENGINE_TORQUE_DEMANDED ∨ pid = K.PID_ENGINE_TORQUE_PERCENTAGE then
    (getSmallValue data : Int) - 125
  else if pid = K.PID_SHORT_TERM_FUEL_TRIM_1 ∨ pid = K.PID_LONG_TERM_FUEL_TRIM_1
      ∨ pid = K.PID_SHORT_TERM_FUEL_TRIM_2 ∨ pid = K.PID_LONG_TERM_FUEL_TRIM_2
      ∨ pid = K.PID_EGR_ERROR then
    Int.tdiv (((getSmallValue data : Int) - 128) * 100) 128
  else if pid = K.PID_FUEL_INJECTION_TIMING then
    Int.tdiv ((getLargeValue data : Int) - 26880) 128
  else if pid = K.PID_CATALYST_TEMP_B1S1 ∨ pid = K.PID_CATALYST_TEMP_B2S1
      ∨ pid = K.PID_CATALYST_TEMP_B1S2 ∨ pid = K.PID_CATALYST_TEMP_B2S2 then
    Int.tdiv (getLargeValue data : Int) 10 - 40
  else if pid = PidTable.PID_AIR_FUEL_EQUIV_RATIO K then
    Int.tdiv ((getLargeValue data : Int) * 200) 65536
  else
    (getSmallValue data : Int)

/-! ## ResponseClassifier (`obd_library.c`) -/

/-- Source: `const char * errmsg[] = { "UNABLE", "ERROR", "TIMEOUT", "NO DATA" }` -/
def errmsg : List (List Nat) :=
  [ascii "UNABLE", ascii "ERROR", ascii "TIMEOUT", ascii "NO DATA"]

/-- The `for` loop of `checkErrorMessage` over the tokens not yet tried;
`i` is the loop index. -/
def checkErrorLoop (buffer : List Nat) : List (List Nat) → Nat → Nat
  | [], _ => 0
  | msg :: more, i =>
    if (strstr buffer msg).isSome then (i + 1) % 256
    else checkErrorLoop buffer more (i + 1)

/-- Source: `static uint8_t checkErrorMessage( const char * buffer )` -/
def checkErrorMessage (buffer : List Nat) : Nat := checkErrorLoop buffer errmsg 0

/-! ## The diagnostic channel -/

/-- The peripheral behind `FreeRTOS_write` / `FreeRTOS_read`, seen from
`obd_library.c`: `written` logs the byte strings handed to `FreeRTOS_write`
(oldest first), `pending` lists what the successive `FreeRTOS_read` calls
will receive from the link. -/
structure ObdDevice where
  written : List (List Nat)
  pending : List (List Nat)
deriving DecidableEq

/-- Source: `FreeRTOS_write( obdDevice, pvBuffer, xBytes )`: the bytes go out on the link. -/
def FreeRTOS_write (dev : ObdDevice) (bytes : List Nat) : ObdDevice :=
  { dev with written := dev.written ++ [bytes] }

/-- The bytes the next `FreeRTOS_read` with a buffer of `xBytes` cells stores:
`Obd_Read` hands over to `uart_receive`, which stores at most `xBytes - 1`. -/
def ObdDevice.response (dev : ObdDevice) (xBytes : Nat) : List Nat :=
  (dev.pending.headD []).take (xBytes - 1)

/-- Source: `FreeRTOS_read( obdDevice, pvBuffer, xBytes )` on the OBD device
(`Obd_Read`, `uart_receive`): the `n` received bytes are stored at the start of
the buffer, followed by a NUL when `n > 0`; with `n = 0` the buffer is left as
it was.  Returns the device, `n` and the buffer. -/
def FreeRTOS_read (dev : ObdDevice) (buffer : List Nat) (xBytes : Nat) :
    ObdDevice × Nat × List Nat :=
  let data := dev.response xBytes
  let dev1 := { dev with pending := dev.pending.tail }
  if data.length = 0 then (dev1, 0, buffer)
  else (dev1, data.length, data ++ 0 :: buffer.drop (data.length + 1))

/-! ## DiagnosticSession: `OBDLib_ReadPID` (`obd_library.c`) -/

/-- Source: `static const uint32_t dataMode = 1;` -/
def dataMode : Nat := 1

/-- An upper-case hexadecimal digit as printed by `%X`. -/
def hexDigitUpper (d : Nat) : Nat := if d < 10 then 48 + d else 55 + d

/-- The two characters `sprintf( ..., "%02X", v )` prints for a value below 256. -/
def fmt02X (v : Nat) : List Nat := [hexDigitUpper (v / 16 % 16), hexDigitUpper (v % 16)]

/-- The loop `while( *p && *p != ' ' ) p++;` -/
def skipToSpace : List Nat → List Nat
  | [] => []
  | c :: rest => if c ≠ 0 ∧ c ≠ 32 then skipToSpace rest else c :: rest

/-- The loop `while( *p == ' ' ) p++;` -/
def skipSpaces : List Nat → List Nat
  | [] => []
  | c :: rest => if c = 32 then skipSpaces rest else c :: rest

/-- The `while( ( p = strstr( p, "41 " ) ) )` loop of `OBDLib_ReadPID`, started
at `p`; the result is `data` (`none` for NULL).  Every round moves `p` forward
by at least three cells, so `fuel` above the length of `p` is never used up. -/
def scanPid (pid : Nat) : Nat → List Nat → Option (List Nat)
  | 0, _ => none
  | fuel + 1, p =>
    match strstr p (ascii "41 ") with
    | none => none
    | some q =>
      let p := q.drop 3
      let curpid := hex2uint8 p
      if curpid = pid then
        let p := skipSpaces (skipToSpace p)
        if deref p ≠ 0 then some p
        else scanPid pid fuel p
      else scanPid pid fuel p

/-- Source: `bool OBDLib_ReadPID( obdDevice, pid, pResult )`.  `pResult` is the value
`*pResult` holds before the call; the result is the device afterwards, the
returned flag and the value of `*pResult` afterwards. -/
def OBDLib_ReadPID (K : PidTable) (dev : ObdDevice) (pid : Nat) (pResult : Int) :
    ObdDevice × Bool × Int :=
  let cmd := fmt02X dataMode ++ fmt02X pid ++ [13]
  let buffer := cmd ++ [0]
  let dev := FreeRTOS_write dev (cstring buffer)
  let (dev, retSendCommand, buffer) := FreeRTOS_read dev buffer 64
  let data :=
    if retSendCommand > 0 ∧ checkErrorMessage buffer = 0 then
      scanPid pid (buffer.length + 1) buffer
    else none
  match data with
  | none => (dev, false, pResult)
  | some data => (dev, true, normalizeData K pid data)

/-! ## Overflow-checked decimal parsing (`gps_library.c`) -/

/-- Source: `#define CONST_INT32_QUOTIENT_10 ( 214748364 )` -/
def CONST_INT32_QUOTIENT_10 : Int := 214748364

/-- Source: `#define CONST_INT32_REMAINDER_10 ( 7 )` -/
def CONST_INT32_REMAINDER_10 : Int := 7

/-- The `for( ; pStr[i] != 0; i++ )` loop of `prvGpsStrtoi` from position `i`
on (`p = pStr + i`), with the current `result`; returns `retStrtoi` and
`result` at loop exit.  `int32_t` arithmetic wraps modulo `2 ^ 32`. -/
def prvGpsStrtoiLoop (signFlag : Int) : List Nat → Int → Bool × Int
  | [], result => (true, result)
  | c :: rest, result =>
    if c = 0 then (true, result)
    else
      let tmpResult := result
      if 48 ≤ c ∧ c ≤ 57 then
        let digit : Int := (c : Int) - 48
        let result := wrapInt32 (result * 10 + digit)
        if tmpResult > CONST_INT32_QUOTIENT_10 then (false, result)
        else if tmpResult = CONST_INT32_QUOTIENT_10
            ∧ digit > CONST_INT32_REMAINDER_10 + signFlag then (false, result)
        else prvGpsStrtoiLoop signFlag rest result
      else (true, result)

/-- Source: `static int prvGpsStrtoi( const char * pStr, int32_t * pResult )`; `pStr`
is `none` for NULL, `pResult` the value `*pResult` holds before the call.
Returns `retStrtoi` and `*pResult` afterwards. -/
def prvGpsStrtoi (pStr : Option (List Nat)) (pResult : Int) : Bool × Int :=
  match pStr with
  | none => (false, pResult)
  | some s =>
    let signFlag : Int := if deref s = 45 then 1 else 0
    let i : Nat := if deref s = 45 then 1 else 0
    let (retStrtoi, result) := prvGpsStrtoiLoop signFlag (s.drop i) 0
    if retStrtoi = true then
      if signFlag = 1 then (true, wrapInt32 (result * (-1)))
      else (true, result)
    else (false, pResult)

/-- Source: `static int prvGpsAtoi( const char * pStr )` -/
def prvGpsAtoi (pStr : Option (List Nat)) : Int :=
  let (ok, retValue) := prvGpsStrtoi pStr 0
  if ok = false then 0 else retValue

/-! ## `OBDLib_SendCommand` and the multi-frame readers (`obd_library.c`) -/

/-- The libc function `strchr( p, c )` for a character `c` other than NUL: the
suffix starting at the first `c` in the string at `p`, or `none` (NULL). -/
def strchr : List Nat → Nat → Option (List Nat)
  | [], _ => none
  | x :: rest, c =>
    if x = c then some (x :: rest)
    else if x = 0 then none
    else strchr rest c

/-- Memory after storing `bytes` from the first cell of `mem` on. -/
def storeAt (mem bytes : List Nat) : List Nat := bytes ++ mem.drop bytes.length

/-- Source: `size_t OBDLib_SendCommand( obdDevice, pCmd, pBuf, bufSize, readTimeout )`
for a device that is open.  `FreeRTOS_write` returns the number of bytes put on
the link, `strlen( pCmd )`; the `ioctlOBD_READ_TIMEOUT` request is accepted by
`Obd_Ioctl` whenever `pvValue` is not NULL, so it never zeroes the result and
only sets the time the read may take, which the channel model does not track.
Returns the device, the returned size and the memory at `pBuf`. -/
def OBDLib_SendCommand (dev : ObdDevice) (pCmd pBuf : List Nat) (bufSize : Nat) :
    ObdDevice × Nat × List Nat :=
  if (cstring pCmd).length = 0 then (dev, 0, pBuf)
  else if bufSize = 0 then (dev, 0, pBuf)
  else
    let dev := FreeRTOS_write dev (cstring pCmd)
    let retSendCommand := (cstring pCmd).length
    if retSendCommand > 0 then FreeRTOS_read dev pBuf bufSize
    else (dev, retSendCommand, pBuf)

/-- The header `"0: 49 02 01"` of a VIN answer. -/
def vinHeader : List Nat := ascii "0: 49 02 01"

/-- The `for( ; ; )` loop inside the `do` loop of `ODBLib_GetVIN`, entered with
the read position `p`: the characters stored through `q` and the position at
the `break`.  Every round but a last one moves `p` forward, so `fuel` above the
length of `p` is never used up. -/
def vinLine : Nat → List Nat → List Nat × List Nat
  | 0, p => ([], p)
  | fuel + 1, p =>
    let c := hex2uint8 p
    let p := skipSpaces (skipToSpace p)
    if deref p = 0 ∨ deref p = 13 then ([c], p)
    else
      let r := vinLine fuel p
      (c :: r.1, r.2)

/-- The `do { ... } while( p )` loop of `ODBLib_GetVIN`, entered with the read
position `p`: the characters stored through `q`, in order.  Every round starts
at least one cell further on, so `fuel` above the length of `p` is never used
up. -/
def vinFrames : Nat → List Nat → List Nat
  | 0, _ => []
  | fuel + 1, p =>
    let p := skipSpaces (p.drop 1)
    let r := vinLine (p.length + 1) p
    match strchr r.2 58 with
    | none => r.1
    | some p => r.1 ++ vinFrames fuel p

/-- What one round of the attempt loop of `ODBLib_GetVIN` does with the answer
in `vinProcessBuffer`: `none` when the header is not found, else the characters
stored at `buffer` (the closing NUL not included) and the outcome of the test
`q - buffer == len - 3`. -/
def vinParse (vinProcessBuffer : List Nat) : Option (List Nat × Bool) :=
  let len : Int := (hex2uint16 vinProcessBuffer : Int)
  match strstr (vinProcessBuffer.drop 4) vinHeader with
  | none => none
  | some p =>
    let p := p.drop 11
    let chars := vinFrames (p.length + 1) p
    some (chars, decide ((chars.length : Int) = len - 3))

/-- The `for( n = 0; n < 2; n++ )` loop of `ODBLib_GetVIN` with `k` rounds to
go; `buffer` is the memory of the caller at `buffer`. -/
def getVinLoop : Nat → ObdDevice → List Nat → List Nat → ObdDevice × Bool × List Nat
  | 0, dev, _, buffer => (dev, false, buffer)
  | k + 1, dev, vinProcessBuffer, buffer =>
    match OBDLib_SendCommand dev (ascii "0902\r") vinProcessBuffer 128 with
    | (dev, retSendCommand, vinProcessBuffer) =>
      if retSendCommand ≠ 0 then
        match vinParse vinProcessBuffer with
        | some (chars, ok) =>
          let buffer := storeAt buffer (chars ++ [0])
          if ok = true then (dev, true, buffer)
          else getVinLoop k dev vinProcessBuffer buffer
        | none => getVinLoop k dev vinProcessBuffer buffer
      else getVinLoop k dev vinProcessBuffer buffer

/-- Source: `bool ODBLib_GetVIN( obdDevice, buffer, bufsize )`.  `buffer` is the
memory of the caller at `buffer` before the call; the result is the device, the
returned flag and that memory afterwards.  `vinProcessBuffer` starts as 128
zero cells. -/
def ODBLib_GetVIN (dev : ObdDevice) (buffer : List Nat) (_bufsize : Nat) :
    ObdDevice × Bool × List Nat :=
  getVinLoop 2 dev (List.replicate 128 0) buffer

/-- The command `sprintf( buffer, n == 0 ? "03\r" : "03%02X\r", n )` prints. -/
def dtcCommand (n : Nat) : List Nat :=
  if n = 0 then ascii "03\r" else ascii "03" ++ fmt02X n ++ [13]

/-- The `while( codesRead < maxCodes && *p )` loop of `OBDLib_ReadDTC`;
`room` is `maxCodes - codesRead`.  The result lists the stores
`codes[ index ] = code` in the order they are made. -/
def dtcDecode : Nat → Nat → List Nat → List (Nat × Nat)
  | 0, _, _ => []
  | room + 1, codesRead, p =>
    if deref p = 0 then []
    else
      let p := p.drop 6
      let next : Option (List Nat) :=
        if deref p = 13 then (strchr p 58).map (fun q => q.drop 2) else some p
      match next with
      | none => []
      | some p =>
        let code := hex2uint16 p
        if code = 0 then []
        else (codesRead, code) :: dtcDecode room (codesRead + 1) p

/-- The `for( int n = 0; n < 6; n++ )` loop of `OBDLib_ReadDTC` with `k` pages
to go, the next page being `n`.  `junk n` is the indeterminate content of the
local `buffer` when the round for page `n` starts; `stores` lists the stores
into `codes` made so far.  Returns the device, `codesRead` and the stores. -/
def readDtcPages (maxCodes : Nat) (junk : Nat → List Nat) :
    Nat → Nat → ObdDevice → Nat → List (Nat × Nat) → ObdDevice × Nat × List (Nat × Nat)
  | 0, _, dev, codesRead, stores => (dev, codesRead, stores)
  | k + 1, n, dev, codesRead, stores =>
    let buffer := storeAt (junk n) (dtcCommand n ++ [0])
    match OBDLib_SendCommand dev buffer buffer 128 with
    | (dev, retSendCommand, buffer) =>
      if retSendCommand > 0 then
        if (strstr buffer (ascii "NO DATA")).isNone then
          match strstr buffer (ascii "43") with
          | some p =>
            let found := dtcDecode (maxCodes - codesRead) codesRead p
            (dev, codesRead + found.length, stores ++ found)
          | none => (dev, codesRead, stores)
        else readDtcPages maxCodes junk k (n + 1) dev codesRead stores
      else readDtcPages maxCodes junk k (n + 1) dev codesRead stores

/-- Source: `int OBDLib_ReadDTC( obdDevice, codes, maxCodes )`.  Returns the
device, the returned count and the stores `codes[ index ] = code` it makes. -/
def OBDLib_ReadDTC (dev : ObdDevice) (maxCodes : Nat) (junk : Nat → List Nat) :
    ObdDevice × Nat × List (Nat × Nat) :=
  readDtcPages maxCodes junk 6 0 dev 0 []

/-! ## DiagnosticSession: `OBDLib_Init` (`obd_library.c`) -/

/-- The soft-reset loop `for( n = 0; n < 10; n++ )` of `OBDLib_Init` with `k`
rounds to go.  Returns the device, whether `stage` became 1, and `buffer`. -/
def initResetLoop : Nat → ObdDevice → List Nat → ObdDevice × Bool × List Nat
  | 0, dev, buffer => (dev, false, buffer)
  | k + 1, dev, buffer =>
    match OBDLib_SendCommand dev (ascii "ATZ\r") buffer 64 with
    | (dev, retSendCommand, buffer) =>
      if retSendCommand > 0 then (dev, true, buffer)
      else initResetLoop k dev buffer

/-- Source: `const char * initcmd[] = { "ATE0\r", "ATH0\r" }` -/
def initcmd : List (List Nat) := [ascii "ATE0\r", ascii "ATH0\r"]

/-- The loop over `initcmd` of `OBDLib_Init`: every command is sent and its
result dropped. -/
def initSendLoop : List (List Nat) → ObdDevice → List Nat → ObdDevice × List Nat
  | [], dev, buffer => (dev, buffer)
  | cmd :: more, dev, buffer =>
    match OBDLib_SendCommand dev cmd buffer 64 with
    | (dev, _, buffer) => initSendLoop more dev buffer

/-- The probe loop `for( n = 0; n < 5; n++ )` of `OBDLib_Init` with `k` rounds
to go.  Returns the device and whether `stage` became 3. -/
def initProbeLoop (K : PidTable) (PID_SPEED : Nat) : Nat → ObdDevice → Int → ObdDevice × Bool
  | 0, dev, _ => (dev, false)
  | k + 1, dev, value =>
    match OBDLib_ReadPID K dev PID_SPEED value with
    | (dev, ok, value) =>
      if ok = true then (dev, true)
      else initProbeLoop K PID_SPEED k dev value

/-- The loop `for( n = 0; n < 4 && *( p + n * 3 ) == ' '; n++ )` that fills the
four bytes of bank `i` of `pidmap`; `k` is `4 - n`. -/
def pidmapFill (i : Nat) (p : List Nat) : Nat → Nat → List Nat → List Nat
  | 0, _, pidmap => pidmap
  | k + 1, n, pidmap =>
    if deref (p.drop (n * 3)) = 32 then
      pidmapFill i p k (n + 1) (pidmap.set (i * 4 + n) (hex2uint8 (p.drop (n * 3 + 1))))
    else pidmap

/-- The loop `for( p = buffer; ( p = strstr( p, "41 " ) ); )` of the bank scan
of `OBDLib_Init`.  Every round moves `p` forward by at least three cells, so
`fuel` above the length of `p` is never used up. -/
def pidmapScan (pid i : Nat) : Nat → List Nat → List Nat → List Nat
  | 0, _, pidmap => pidmap
  | fuel + 1, p, pidmap =>
    match strstr p (ascii "41 ") with
    | none => pidmap
    | some q =>
      let p := q.drop 3
      if hex2uint8 p = pid then
        let p := p.drop 2
        pidmapScan pid i fuel p (pidmapFill i p 4 0 pidmap)
      else pidmapScan pid i fuel p pidmap

/-- The bank loop `for( i = 0; i < 8; i++ )` of `OBDLib_Init` over the banks
still to do.  The answer of the channel is not read (the call of
`FreeRTOS_read` is commented out in the source): `buffer` holds the command
just written when it is classified and scanned. -/
def initBankLoop : List Nat → ObdDevice → List Nat → List Nat → ObdDevice × List Nat × List Nat
  | [], dev, buffer, pidmap => (dev, buffer, pidmap)
  | i :: more, dev, buffer, pidmap =>
    let pid := (i * 0x20) % 256
    let buffer := storeAt buffer (fmt02X dataMode ++ fmt02X pid ++ [13] ++ [0])
    let dev := FreeRTOS_write dev (cstring buffer)
    if checkErrorMessage buffer ≠ 0 then initBankLoop more dev buffer pidmap
    else initBankLoop more dev buffer (pidmapScan pid i (buffer.length + 1) buffer pidmap)

/-- Source: `int OBDLib_Init( Peripheral_Descriptor_t obdDevice )`.  `PID_SPEED` is
the PID number of the vehicle speed, a `#define` of `obd_pid.h` like the
members of `PidTable`.  Returns the device, the returned code and the local
`pidmap` as it stands at the `return`. -/
def OBDLib_Init (K : PidTable) (PID_SPEED : Nat) (dev : ObdDevice) :
    ObdDevice × Int × List Nat :=
  let pidmap := List.replicate 32 0
  let reset := initResetLoop 10 dev []
  if reset.2.1 = true then
    let sent := initSendLoop initcmd reset.1 reset.2.2
    -- `stage = 2`, so the `else return -2` of the next test is never taken
    let probe := initProbeLoop K PID_SPEED 5 sent.1 0
    if probe.2 = true then
      let pidmap := List.replicate 32 0xff
      let banks := initBankLoop (List.range 8) probe.1 sent.2 pidmap
      (banks.1, 0, banks.2.2)
    else (probe.1, -3, pidmap)
  else (reset.1, -1, pidmap)

/-! ## ResponseReader: `uart_receive` (`obd_device.c`) -/

/-- Source: `#define OBD_TIMEOUT_LONG_MS ( 10000 )` -/
def OBD_TIMEOUT_LONG_MS : Nat := 10000

/-- What one call of `uart_read_bytes` brings: a negative result, or the bytes
the link has for this call. -/
inductive UartRead where
  | error
  | bytes (data : List Nat)
deriving DecidableEq

/-- One round of the loop of `uart_receive` as the environment decides it: the
value `esp_millis()` returns at the top of the round and the outcome of the
`uart_read_bytes` call of the round. -/
structure UartTick where
  now : Nat
  read : UartRead
deriving DecidableEq

/-- How the loop of `uart_receive` was left. -/
inductive RecvExit where
  | timedOut
  | full
  | readError
  | terminator
deriving DecidableEq

/-- The variables of `uart_receive`: the memory at `buffer`, the count `n`,
the current `timeout`, and how the loop was left. -/
structure RecvState where
  buffer : List Nat
  n : Nat
  timeout : Nat
  exit : RecvExit
deriving DecidableEq

/-- Memory after storing `bytes` from cell `offset` of `mem` on. -/
def storeFrom (mem : List Nat) (offset : Nat) (bytes : List Nat) : List Nat :=
  mem.take offset ++ bytes ++ mem.drop (offset + bytes.length)

/-- The `for( ; ; )` loop of `uart_receive` over the rounds `ticks`.  The
clock is 32 bits wide; `uart_read_bytes` stores at most the `bufsize - n - 1`
bytes it is asked for; `n` is an `unsigned char`.  A run that is still going
when the listed rounds are over ends like a round whose clock is past the
budget. -/
def uartReceiveLoop (bufsize : Nat) (startTime : Nat) : List UartTick → RecvState → RecvState
  | [], s => { s with exit := RecvExit.timedOut }
  | t :: rest, s =>
    let elapsed := (t.now + 4294967296 - startTime % 4294967296) % 4294967296
    if elapsed > s.timeout then { s with exit := RecvExit.timedOut }
    else if (s.n : Int) ≥ (bufsize : Int) - 1 then { s with exit := RecvExit.full }
    else
      match t.read with
      | UartRead.error => { s with exit := RecvExit.readError }
      | UartRead.bytes data =>
        let chunk := data.take (bufsize - s.n - 1)
        let len := chunk.length
        if len = 0 then uartReceiveLoop bufsize startTime rest s
        else
          let buffer := storeFrom s.buffer s.n (chunk ++ [0])
          if (strstr (buffer.drop s.n) (ascii "\r>")).isSome then
            { s with buffer := buffer, n := (s.n + len) % 256, exit := RecvExit.terminator }
          else
            let n := (s.n + len) % 256
            if (strstr buffer (ascii "...")).isSome then
              uartReceiveLoop bufsize startTime rest
                { s with buffer := storeFrom buffer 0 [0], n := 0,
                         timeout := (s.timeout + OBD_TIMEOUT_LONG_MS) % 4294967296 }
            else uartReceiveLoop bufsize startTime rest { s with buffer := buffer, n := n }

/-- Source: `static int uart_receive( char * buffer, int bufsize, unsigned int timeout )`.
`startTime` is the value of `esp_millis()` at entry, `ticks` the rounds of
the loop.  The returned value is the field `n` of the result. -/
def uart_receive (buffer : List Nat) (bufsize : Nat) (timeout : Nat) (startTime : Nat)
    (ticks : List UartTick) : RecvState :=
  uartReceiveLoop bufsize startTime ticks
    { buffer := buffer, n := 0, timeout := timeout, exit := RecvExit.timedOut }

/-- One round of the loop of `uart_receive`, with what it does to the world:
the variables at the top of the round, the elapsed time it computes, the size
it passes to `uart_read_bytes` (`none` when the round leaves the loop before
the call), the indices of the cells of `buffer` stored to (the bytes of the
read, the NUL behind them, and cell 0 when the text is discarded), whether
the resynchronisation on `"..."` fires, the variables at the end of the
round, and whether another round follows. -/
structure RecvRound where
  state : RecvState
  elapsed : Nat
  request : Option Nat
  stores : List Nat
  resync : Bool
  after : RecvState
  goesOn : Bool
deriving DecidableEq

/-- The body of the `for( ; ; )` loop of `uart_receive` for the round `t`,
entered with the variables `s`. -/
def uartRound (bufsize : Nat) (startTime : Nat) (t : UartTick) (s : RecvState) : RecvRound :=
  let elapsed := (t.now + 4294967296 - startTime % 4294967296) % 4294967296
  if elapsed > s.timeout then
    ⟨s, elapsed, none, [], false, { s with exit := RecvExit.timedOut }, false⟩
  else if (s.n : Int) ≥ (bufsize : Int) - 1 then
    ⟨s, elapsed, none, [], false, { s with exit := RecvExit.full }, false⟩
  else
    let request := bufsize - s.n - 1
    match t.read with
    | UartRead.error =>
      ⟨s, elapsed, some request, [], false, { s with exit := RecvExit.readError }, false⟩
    | UartRead.bytes data =>
      let chunk := data.take request
      let len := chunk.length
      if len = 0 then ⟨s, elapsed, some request, [], false, s, true⟩
      else
        let cells := (List.range len).map (fun i => s.n + i) ++ [s.n + len]
        let buffer := storeFrom s.buffer s.n (chunk ++ [0])
        if (strstr (buffer.drop s.n) (ascii "\r>")).isSome then
          ⟨s, elapsed, some request, cells, false,
            { s with buffer := buffer, n := (s.n + len) % 256, exit := RecvExit.terminator },
            false⟩
        else
          let n := (s.n + len) % 256
          if (strstr buffer (ascii "...")).isSome then
            ⟨s, elapsed, some request, cells ++ [0], true,
              { s with buffer := storeFrom buffer 0 [0], n := 0,
                       timeout := (s.timeout + OBD_TIMEOUT_LONG_MS) % 4294967296 }, true⟩
          else
            ⟨s, elapsed, some request, cells, false, { s with buffer := buffer, n := n }, true⟩

/-- The rounds of the loop of `uart_receive` over `ticks`, in order: every
round starts with the variables the round before left, and after a round
that leaves the loop there is no other. -/
def uartReceiveRounds (bufsize : Nat) (startTime : Nat) :
    List UartTick → RecvState → List RecvRound
  | [], _ => []
  | t :: rest, s =>
    if (uartRound bufsize startTime t s).goesOn = true then
      uartRound bufsize startTime t s
        :: uartReceiveRounds bufsize startTime rest (uartRound bufsize startTime t s).after
    else [uartRound bufsize startTime t s]

/-! ## Reference notions used to state the properties -/

/-- An ASCII hexadecimal digit: `0-9`, `A-F` or `a-f`. -/
def isHexDigit (c : Nat) : Bool :=
  (decide (48 ≤ c) && decide (c ≤ 57)) || (decide (65 ≤ c) && decide (c ≤ 70))
    || (decide (97 ≤ c) && decide (c ≤ 102))

/-- The value `0..15` of a hexadecimal digit character. -/
def hexValue (c : Nat) : Nat :=
  if c ≤ 57 then c - 48 else if c ≤ 70 then c - 55 else c - 87

/-- The number written by a run of hexadecimal digit characters, most
significant digit first. -/
def hexDigitsValue (ds : List Nat) : Nat :=
  ds.foldl (fun acc c => 16 * acc + hexValue c) 0

/-- The digits `hex2uint16` consumes according to the wording "skips a space
only when it occurs directly after the second digit": up to two leading
digits, then, if there were two, at most one space and up to two more digits. -/
def hexWordDigitsOneSpace (s : List Nat) : List Nat :=
  let hi := (s.takeWhile isHexDigit).take 2
  if hi.length < 2 then hi
  else
    let rest := match s.drop 2 with
      | 32 :: r => r
      | r => r
    hi ++ (rest.takeWhile isHexDigit).take 2

/-- The digits `hex2uint16` consumes when every space met after the second
digit is skipped: up to two leading digits, then, if there were two, the
spaces that follow and up to two more digits. -/
def hexWordDigits (s : List Nat) : List Nat :=
  let hi := (s.takeWhile isHexDigit).take 2
  if hi.length < 2 then hi
  else hi ++ (((s.drop 2).dropWhile (fun c => c == 32)).takeWhile isHexDigit).take 2

/-- A decimal digit character `0-9`. -/
def isDecDigit (c : Nat) : Bool := decide (48 ≤ c) && decide (c ≤ 57)

/-- The number written by a run of decimal digit characters, continuing from
the value `r` of the digits before it. -/
def decValueFrom (r : Int) (ds : List Nat) : Int :=
  ds.foldl (fun (acc : Int) (c : Nat) => acc * 10 + ((c : Int) - 48)) r

/-- The number written by a run of decimal digit characters. -/
def decValue (ds : List Nat) : Int := decValueFrom 0 ds

/-- The part of a string behind its optional leading `'-'`. -/
def afterSign (s : List Nat) : List Nat := if deref s = 45 then s.drop 1 else s

/-- What follows the PID byte of a frame: the text behind the token `rest`
starts with, skipping that token (up to the next space) and the spaces after it. -/
def payloadAfter (rest : List Nat) : List Nat :=
  (rest.dropWhile (fun c => c != 32)).dropWhile (fun c => c == 32)

/-- The text `s` contains a token `"41 "` followed by a hex byte equal to `pid`
and then a non-empty payload. -/
def HasPidFrame (pid : Nat) (s : List Nat) : Prop :=
  ∃ pre rest, s = pre ++ ascii "41 " ++ rest ∧ hex2uint8 rest = pid ∧ payloadAfter rest ≠ []

/-- The classification the specification describes: the 1-based position, in
the order of `errmsg`, of the first token that occurs somewhere in `text`, and
0 when none occurs. -/
def classifyRef (text : List Nat) : Nat :=
  match errmsg.findIdx? (fun tok => decide (tok <:+: text)) with
  | some i => i + 1
  | none => 0

/-- A page answer carries data: the read stores at least one byte and the text
does not contain `"NO DATA"`. -/
def pageHasData (answer : List Nat) : Bool :=
  decide (answer.take 127 ≠ []) && !decide (ascii "NO DATA" <:+: cstring (answer.take 127))

/-- The position of the first of the next `k` answers of the channel that
carries data, if there is one (an answer the channel does not give counts as
empty). -/
def dataPage (k : Nat) (pending : List (List Nat)) : Option Nat :=
  ((List.range k).map (fun i => pending.getD i [])).findIdx? pageHasData

/-- The number of DTC pages requested when up to `k` pages may be tried on a
channel that will answer with `pending`: one more than the position of the
first answer that carries data, and `k` when none of the first `k` does. -/
def pagesTried (k : Nat) (pending : List (List Nat)) : Nat :=
  match dataPage k pending with
  | some i => i + 1
  | none => k

/-- The stores `OBDLib_ReadDTC` makes from the answer to page `n`: what the
decoding loop yields from the first `"43"` in the buffer on. -/
def pageCodes (maxCodes : Nat) (junk : Nat → List Nat) (n : Nat) (answer : List Nat) :
    List (Nat × Nat) :=
  match strstr (storeAt (storeAt (junk n) (dtcCommand n ++ [0])) (answer.take 127 ++ [0]))
      (ascii "43") with
  | some p => dtcDecode maxCodes 0 p
  | none => []

/-- A probe `OBDLib_ReadPID( obdDevice, pid, &value )` succeeds on this answer
of the channel. -/
def probeOk (K : PidTable) (pid : Nat) (answer : List Nat) : Bool :=
  (OBDLib_ReadPID K ⟨[], [answer]⟩ pid 0).2.1

/-- The query `OBDLib_Init` writes for bank `i` of the PID map. -/
def bankCommand (i : Nat) : List Nat := fmt02X dataMode ++ fmt02X ((i * 0x20) % 256) ++ [13]

/-- The text `uart_receive` hands back: the string in the first `n` cells of
the buffer, `n` being the returned count. -/
def RecvState.text (s : RecvState) : List Nat := cstring (s.buffer.take s.n)

/-- The inner loop of `ODBLib_GetVIN` run from `p` with fuel to spare. -/
def vinLineRun (p : List Nat) : List Nat × List Nat := vinLine (p.length + 1) p

/-- The outer loop of `ODBLib_GetVIN` run from `p` with fuel to spare. -/
def vinFramesRun (p : List Nat) : List Nat := vinFrames (p.length + 1) p

/-- All the characters stored from the moment the inner loop is entered at `p`:
those of the inner loop, then those of the further rounds of the outer loop. -/
def vinRest (p : List Nat) : List Nat :=
  (vinLineRun p).1 ++
    (match strchr (vinLineRun p).2 58 with
     | none => []
     | some q => vinFramesRun q)

/-- The text of the payload bytes of one line of a VIN answer: every byte as a
space and two upper-case hexadecimal digits. -/
def vinBytesText : List Nat → List Nat
  | [] => []
  | b :: bs => 32 :: fmt02X b ++ vinBytesText bs

/-- The text of the lines that follow the header line: for every line its
index text, a colon, its payload bytes and the line boundary. -/
def vinLinesText (eol : List Nat) : List (List Nat × List Nat) → List Nat
  | [] => []
  | (idx, bs) :: more => idx ++ 58 :: vinBytesText bs ++ eol ++ vinLinesText eol more

/-- A multi-line VIN answer: `pre` precedes the header (the declared length
and a line boundary), `first` are the payload bytes on the header line, `more`
the further lines (index text and payload bytes), a line boundary is `spaces`
blanks, a carriage return and `nl`, and `post` follows the last boundary. -/
structure VinAnswer where
  pre : List Nat
  first : List Nat
  more : List (List Nat × List Nat)
  spaces : Nat
  nl : List Nat
  post : List Nat

/-- The line boundary of a VIN answer. -/
def VinAnswer.eol (a : VinAnswer) : List Nat := List.replicate a.spaces 32 ++ 13 :: a.nl

/-- The text of a VIN answer as it comes from the channel. -/
def VinAnswer.text (a : VinAnswer) : List Nat :=
  a.pre ++ vinHeader ++ vinBytesText a.first ++ a.eol ++ vinLinesText a.eol a.more ++ a.post

/-- The payload bytes of a VIN answer, in order. -/
def VinAnswer.payload (a : VinAnswer) : List Nat :=
  a.first ++ (a.more.map Prod.snd).flatten

/-- A character that is neither NUL, a blank nor a colon. -/
def plainChar (c : Nat) : Prop := c ≠ 0 ∧ c ≠ 32 ∧ c ≠ 58

/-- Well-formed VIN answers: at least four characters without NUL in front of
the header and no colon from the fifth on; at least one payload byte on every
line, every byte below 256; no NUL, blank or colon in the index texts, in the
line boundary behind the carriage return and behind the last boundary. -/
def VinAnswer.WellFormed (a : VinAnswer) : Prop :=
  4 ≤ a.pre.length ∧ (∀ c ∈ a.pre, c ≠ 0) ∧ (∀ c ∈ a.pre.drop 4, c ≠ 58)
  ∧ a.first ≠ [] ∧ (∀ b ∈ a.first, b < 256)
  ∧ (∀ l ∈ a.more, l.2 ≠ [] ∧ (∀ b ∈ l.2, b < 256) ∧ ∀ c ∈ l.1, plainChar c)
  ∧ (∀ c ∈ a.nl, plainChar c) ∧ (∀ c ∈ a.post, plainChar c)

instance plainChar.decidable (c : Nat) : Decidable (plainChar c) := by
  unfold plainChar
  exact inferInstance

instance VinAnswer.WellFormed.decidable (a : VinAnswer) : Decidable a.WellFormed := by
  unfold VinAnswer.WellFormed
  exact inferInstance

/-- The payload the description of `OBDLib_ReadPID` selects from the memory at
`p`, found position by position: at the first place before the NUL where the
token `"41 "` stands, followed by a hex byte equal to `pid` and, behind that
byte's token and the blanks after it, by a non-empty payload, the payload;
`none` when there is no such place. -/
def firstFrame (pid : Nat) : List Nat → Option (List Nat)
  | [] => none
  | c :: rest =>
    if c = 0 then none
    else if (ascii "41 ").isPrefixOf (c :: rest) = true ∧ hex2uint8 (rest.drop 2) = pid
        ∧ deref (skipSpaces (skipToSpace (rest.drop 2))) ≠ 0 then
      some (skipSpaces (skipToSpace (rest.drop 2)))
    else firstFrame pid rest

/-! ## Theorems -/

theorem isHexDigit_iff (c : Nat) :
    isHexDigit c = true ↔ (48 ≤ c ∧ c ≤ 57) ∨ (65 ≤ c ∧ c ≤ 70) ∨ (97 ≤ c ∧ c ≤ 102) := by
  simp [isHexDigit, or_assoc]

theorem isHexDigit_false_iff (c : Nat) :
    isHexDigit c = false ↔ ¬ ((48 ≤ c ∧ c ≤ 57) ∨ (65 ≤ c ∧ c ≤ 70) ∨ (97 ≤ c ∧ c ≤ 102)) := by
  rw [← isHexDigit_iff]; simp

theorem hexValue_lt (c : Nat) (h : isHexDigit c = true) : hexValue c < 16 := by
  rw [isHexDigit_iff] at h
  unfold hexValue
  split_ifs <;> omega

/-- The step `( i << 4 ) | ( c & 0xF )` is `16 * i + c % 16`. -/
theorem shl4_or_and15 (i c : Nat) : (i <<< 4) ||| (c &&& 15) = 16 * i + c % 16 := by
  have h1 : c &&& 15 = c % 16 := Nat.and_pow_two_sub_one_eq_mod c 4
  have h2 : i <<< 4 = 2 ^ 4 * i := by rw [Nat.shiftLeft_eq, Nat.mul_comm]
  have h3 : c % 16 < 2 ^ 4 := Nat.mod_lt _ (by norm_num)
  rw [h1, h2, ← Nat.mul_add_lt_is_or h3 i]

theorem hexAdjust_of_hex (c : Nat) (h : isHexDigit c = true) :
    ∃ a, hexAdjust c = some a ∧ a % 16 = hexValue c ∧ a < 64 := by
  rw [isHexDigit_iff] at h
  unfold hexAdjust hexValue
  rcases h with h | h | h
  · refine ⟨c, ?_, ?_, by omega⟩
    · rw [if_neg (by omega), if_neg (by omega), if_neg (by omega)]
    · rw [if_pos (by omega)]; omega
  · refine ⟨c - 7, ?_, ?_, by omega⟩
    · rw [if_pos (by omega)]
    · rw [if_neg (by omega), if_pos (by omega)]; omega
  · refine ⟨c - 39, ?_, ?_, by omega⟩
    · rw [if_neg (by omega), if_pos (by omega)]
    · rw [if_neg (by omega), if_neg (by omega)]; omega

theorem hexAdjust_of_not_hex (c : Nat) (h : isHexDigit c = false) : hexAdjust c = none := by
  rw [isHexDigit_false_iff] at h
  unfold hexAdjust
  rw [if_neg (by omega), if_neg (by omega), if_pos (by omega)]

theorem hex2uint8_lt (p : List Nat) : hex2uint8 p < 256 := by
  unfold hex2uint8
  simp only []
  cases h1 : hexAdjust (deref p) with
  | none => simp
  | some a =>
    simp only []
    split_ifs
    · have : a &&& 15 = a % 16 := Nat.and_pow_two_sub_one_eq_mod a 4
      omega
    · cases hexAdjust (deref (List.drop 1 p)) with
      | none => simp
      | some b => exact Nat.mod_lt _ (by norm_num)

/-- C6. `hex2uint8` decodes two hexadecimal digit characters of either case to
`16 * h + l`, a value within `0..255`, and returns 0 for every input whose
first character is not a hexadecimal digit. -/
theorem hex2uint8_decodes_pair :
    (∀ c1 c2 rest, isHexDigit c1 = true → isHexDigit c2 = true →
        hex2uint8 (c1 :: c2 :: rest) = 16 * hexValue c1 + hexValue c2
        ∧ hex2uint8 (c1 :: c2 :: rest) ≤ 255)
    ∧ (∀ p, isHexDigit (deref p) = false → hex2uint8 p = 0) := by
  constructor
  · intro c1 c2 rest h1 h2
    have key : hex2uint8 (c1 :: c2 :: rest) = 16 * hexValue c1 + hexValue c2 := by
      obtain ⟨a, ha, hav, _⟩ := hexAdjust_of_hex c1 h1
      obtain ⟨b, hb, hbv, _⟩ := hexAdjust_of_hex c2 h2
      have hc2 : c2 ≠ 0 := by
        rw [isHexDigit_iff] at h2; omega
      have hl1 := hexValue_lt c1 h1
      have hl2 := hexValue_lt c2 h2
      simp only [hex2uint8, deref, List.headD_cons, List.drop_succ_cons, List.drop_zero, ha, hb,
        if_neg hc2, shl4_or_and15]
      omega
    exact ⟨key, by have := hex2uint8_lt (c1 :: c2 :: rest); omega⟩
  · intro p h
    simp only [hex2uint8, hexAdjust_of_not_hex _ h]

/-- The instance of C6 at the pair `"7b"` and at the input `"G1"`. -/
theorem hex2uint8_decodes_pair_witness :
    (hex2uint8 (ascii "7b") = 16 * 7 + 11 ∧ hex2uint8 (ascii "7b") ≤ 255)
    ∧ hex2uint8 (ascii "G1") = 0 :=
  ⟨hex2uint8_decodes_pair.1 55 98 [] (by decide) (by decide),
   hex2uint8_decodes_pair.2 (ascii "G1") (by decide)⟩

/-- C7 as stated fails: the digit `'A'` (value 10) followed by a space, which
is not a hexadecimal digit, decodes to 0. -/
theorem hex2uint8_digit_then_space :
    hex2uint8 (ascii "A ") = 0
    ∧ ¬ (∀ c1 c2 rest, isHexDigit c1 = true → isHexDigit c2 = false →
          hex2uint8 (c1 :: c2 :: rest) = hexValue c1) := by
  refine ⟨by decide, fun h => ?_⟩
  have h1 := h 65 32 [] (by decide) (by decide)
  revert h1
  decide

/-- C7, amended. A hexadecimal digit of value `h` decodes to `h` when the
string terminator follows it, and to 0 when any other character that is not
a hexadecimal digit follows it. -/
theorem hex2uint8_single_nibble (c1 c2 : Nat) (rest : List Nat)
    (h1 : isHexDigit c1 = true) (h2 : isHexDigit c2 = false) :
    hex2uint8 [c1] = hexValue c1
    ∧ (c2 = 0 → hex2uint8 (c1 :: c2 :: rest) = hexValue c1)
    ∧ (c2 ≠ 0 → hex2uint8 (c1 :: c2 :: rest) = 0) := by
  obtain ⟨a, ha, hav, _⟩ := hexAdjust_of_hex c1 h1
  have hand : a &&& 15 = a % 16 := Nat.and_pow_two_sub_one_eq_mod a 4
  refine ⟨?_, ?_, ?_⟩
  · simp [hex2uint8, deref, ha, hand, hav]
  · intro h0
    simp [hex2uint8, deref, ha, hand, hav, h0]
  · intro h0
    simp [hex2uint8, deref, ha, h0, hexAdjust_of_not_hex _ h2]

/-- The instance of amended C7 at `'A'` followed by a carriage return. -/
theorem hex2uint8_single_nibble_witness :
    hex2uint8 [65] = 10 ∧ ((13 : Nat) = 0 → hex2uint8 [65, 13, 62] = 10)
    ∧ ((13 : Nat) ≠ 0 → hex2uint8 [65, 13, 62] = 0) :=
  hex2uint8_single_nibble 65 13 [62] (by decide) (by decide)

/-! ### `hex2uint16` -/

theorem hex2uint16Loop_digit (c : Nat) (rest : List Nat) (n i : Nat)
    (h : isHexDigit c = true) (hn : n < 4) :
    hex2uint16Loop (c :: rest) n i
      = hex2uint16Loop rest (n + 1) ((16 * i + hexValue c) % 65536) := by
  rw [isHexDigit_iff] at h
  unfold hexValue
  rw [hex2uint16Loop, if_neg (by omega)]
  rcases h with h | h | h
  · rw [if_neg (by omega), if_neg (by omega), if_neg (by omega), if_neg (by omega),
      shl4_or_and15, if_pos (by omega)]
    congr 2; omega
  · rw [if_pos (by omega), shl4_or_and15, if_neg (by omega), if_pos (by omega)]
    congr 2; omega
  · rw [if_neg (by omega), if_pos (by omega), shl4_or_and15, if_neg (by omega),
      if_neg (by omega)]
    congr 2; omega

theorem hex2uint16Loop_stop (c : Nat) (rest : List Nat) (n i : Nat)
    (h : isHexDigit c = false) (hs : ¬ (c = 32 ∧ n = 2)) :
    hex2uint16Loop (c :: rest) n i = i := by
  rw [isHexDigit_false_iff] at h
  rw [hex2uint16Loop]
  split_ifs <;> first | rfl | omega

theorem hex2uint16Loop_space (rest : List Nat) (i : Nat) :
    hex2uint16Loop (32 :: rest) 2 i = hex2uint16Loop rest 2 i := by
  rw [hex2uint16Loop]
  simp

theorem hex2uint16Loop_full (p : List Nat) (i : Nat) : hex2uint16Loop p 4 i = i := by
  cases p with
  | nil => rfl
  | cons c rest => rw [hex2uint16Loop]; simp

theorem hex2uint16Loop_spaces (p : List Nat) (i : Nat) :
    hex2uint16Loop p 2 i = hex2uint16Loop (p.dropWhile (fun c => c == 32)) 2 i := by
  induction p with
  | nil => rfl
  | cons c rest ih =>
    by_cases hc : c = 32
    · subst hc
      rw [hex2uint16Loop_space, ih]
      simp [List.dropWhile_cons]
    · simp [List.dropWhile_cons, hc]

/-- The second half of the word: from a position that is not a space, with two
digits read, the loop takes up to two more digits. -/
theorem hex2uint16Loop_low (q : List Nat) (i : Nat) (hq : deref q ≠ 32) :
    hex2uint16Loop q 2 i
      = ((q.takeWhile isHexDigit).take 2).foldl
          (fun acc c => (16 * acc + hexValue c) % 65536) i := by
  cases q with
  | nil => rfl
  | cons c r =>
    have hc : c ≠ 32 := by simpa [deref] using hq
    cases h : isHexDigit c with
    | false =>
      rw [hex2uint16Loop_stop c r 2 i h (by simp [hc])]
      simp [List.takeWhile_cons, h]
    | true =>
      rw [hex2uint16Loop_digit c r 2 i h (by norm_num)]
      cases r with
      | nil => simp [List.takeWhile_cons, h, hex2uint16Loop]
      | cons d r2 =>
        cases h2 : isHexDigit d with
        | false =>
          rw [hex2uint16Loop_stop d r2 3 _ h2 (by simp)]
          simp [List.takeWhile_cons, h, h2]
        | true =>
          rw [hex2uint16Loop_digit d r2 3 _ h2 (by norm_num), hex2uint16Loop_full]
          simp [List.takeWhile_cons, h, h2]

theorem deref_dropWhile_space (p : List Nat) :
    deref (p.dropWhile (fun c => c == 32)) ≠ 32 := by
  induction p with
  | nil => simp [deref]
  | cons c rest ih =>
    by_cases hc : c = 32
    · simpa [List.dropWhile_cons, hc] using ih
    · simp [List.dropWhile_cons, hc, deref]

/-- The loop of `hex2uint16`, with the reduction to `uint16_t` kept at every step. -/
theorem hex2uint16_eq_foldl (s : List Nat) :
    hex2uint16 s
      = (hexWordDigits s).foldl (fun acc c => (16 * acc + hexValue c) % 65536) 0 := by
  unfold hex2uint16 hexWordDigits
  cases s with
  | nil => rfl
  | cons c r =>
    cases h : isHexDigit c with
    | false =>
      rw [hex2uint16Loop_stop c r 0 0 h (by simp)]
      simp [List.takeWhile_cons, h]
    | true =>
      rw [hex2uint16Loop_digit c r 0 0 h (by norm_num)]
      cases r with
      | nil => simp [List.takeWhile_cons, h, hex2uint16Loop]
      | cons d r2 =>
        cases h2 : isHexDigit d with
        | false =>
          rw [hex2uint16Loop_stop d r2 1 _ h2 (by simp)]
          simp [List.takeWhile_cons, h, h2]
        | true =>
          rw [hex2uint16Loop_digit d r2 1 _ h2 (by norm_num), hex2uint16Loop_spaces,
            hex2uint16Loop_low _ _ (deref_dropWhile_space r2)]
          simp [List.takeWhile_cons, h, h2, List.foldl_append]

theorem hexWordDigits_hex (s : List Nat) : ∀ c ∈ hexWordDigits s, isHexDigit c = true := by
  intro c hc
  unfold hexWordDigits at hc
  simp only [] at hc
  split_ifs at hc
  · exact List.mem_takeWhile_imp (List.mem_of_mem_take hc)
  · rcases List.mem_append.1 hc with h | h
    · exact List.mem_takeWhile_imp (List.mem_of_mem_take h)
    · exact List.mem_takeWhile_imp (List.mem_of_mem_take h)

theorem hexWordDigits_length (s : List Nat) : (hexWordDigits s).length ≤ 4 := by
  unfold hexWordDigits
  simp only []
  split_ifs
  · rw [List.length_take]; omega
  · rw [List.length_append, List.length_take, List.length_take]; omega

/-- With at most four digits the reduction to `uint16_t` never cuts anything off. -/
theorem foldl_uint16_eq (ds : List Nat) (hl : ds.length ≤ 4)
    (hd : ∀ c ∈ ds, isHexDigit c = true) :
    ds.foldl (fun acc c => (16 * acc + hexValue c) % 65536) 0 = hexDigitsValue ds := by
  unfold hexDigitsValue
  match ds, hl, hd with
  | [], _, _ => rfl
  | [a], _, hd =>
    have := hexValue_lt a (hd a (by simp))
    simp only [List.foldl_cons, List.foldl_nil]
    omega
  | [a, b], _, hd =>
    have := hexValue_lt a (hd a (by simp))
    have := hexValue_lt b (hd b (by simp))
    simp only [List.foldl_cons, List.foldl_nil]
    omega
  | [a, b, c], _, hd =>
    have := hexValue_lt a (hd a (by simp))
    have := hexValue_lt b (hd b (by simp))
    have := hexValue_lt c (hd c (by simp))
    simp only [List.foldl_cons, List.foldl_nil]
    omega
  | [a, b, c, d], _, hd =>
    have := hexValue_lt a (hd a (by simp))
    have := hexValue_lt b (hd b (by simp))
    have := hexValue_lt c (hd c (by simp))
    have := hexValue_lt d (hd d (by simp))
    simp only [List.foldl_cons, List.foldl_nil]
    omega
  | _ :: _ :: _ :: _ :: _ :: _, hl, _ => simp at hl

theorem hex2uint16_eq_value (s : List Nat) : hex2uint16 s = hexDigitsValue (hexWordDigits s) := by
  rw [hex2uint16_eq_foldl, foldl_uint16_eq _ (hexWordDigits_length s) (hexWordDigits_hex s)]

theorem hex2uint16_lt (s : List Nat) : hex2uint16 s < 65536 := by
  rw [hex2uint16_eq_foldl]
  generalize hexWordDigits s = ds
  induction ds using List.reverseRecOn with
  | nil => simp
  | append_singleton l a _ =>
    rw [List.foldl_append]
    exact Nat.mod_lt _ (by norm_num)

/-- C5 as stated fails: with two spaces after the second digit the code still
reads all four digits, whereas skipping a space only directly after the second
digit stops at the second space with the value of the first two digits. -/
theorem hex2uint16_two_spaces :
    hex2uint16 (ascii "12  34") = 0x1234
    ∧ hexDigitsValue (hexWordDigitsOneSpace (ascii "12  34")) = 0x12
    ∧ ¬ (∀ s, hex2uint16 s = hexDigitsValue (hexWordDigitsOneSpace s)) := by
  refine ⟨by decide, by decide, fun h => ?_⟩
  have h1 := h (ascii "12  34")
  revert h1
  decide

/-- C5, amended. `hex2uint16` returns the value of the hexadecimal digits it
consumes: up to two leading digits and, when there are two, up to two more
digits after skipping every space that follows the second digit; it stops at
the end of the string or at the first other character.  Hence `"abcd"` and
`"ab cd"` both give `4096 a + 256 b + 16 c + d`, and `"1AF8"` gives 6904. -/
theorem hex2uint16_value :
    (∀ s, hex2uint16 s = hexDigitsValue (hexWordDigits s))
    ∧ (∀ a b c d rest, isHexDigit a = true → isHexDigit b = true →
        isHexDigit c = true → isHexDigit d = true →
        hex2uint16 (a :: b :: c :: d :: rest)
          = 4096 * hexValue a + 256 * hexValue b + 16 * hexValue c + hexValue d
        ∧ hex2uint16 (a :: b :: 32 :: c :: d :: rest)
          = 4096 * hexValue a + 256 * hexValue b + 16 * hexValue c + hexValue d)
    ∧ hex2uint16 (ascii "1AF8") = 6904 := by
  refine ⟨hex2uint16_eq_value, ?_, by decide⟩
  intro a b c d rest ha hb hc hd
  have hc32 : c ≠ 32 := by
    rw [isHexDigit_iff] at hc; omega
  constructor
  · rw [hex2uint16_eq_value]
    simp [hexWordDigits, List.takeWhile_cons, ha, hb, hc, hd, hc32, hexDigitsValue]
    ring
  · rw [hex2uint16_eq_value]
    simp [hexWordDigits, List.takeWhile_cons, ha, hb, hc, hd, hc32, hexDigitsValue]
    ring

/-- The instance of amended C5 at the digits `1`, `a`, `F`, `8`. -/
theorem hex2uint16_value_witness :
    hex2uint16 (ascii "1aF8\r") = 4096 * 1 + 256 * 10 + 16 * 15 + 8
    ∧ hex2uint16 (ascii "1a F8\r") = 4096 * 1 + 256 * 10 + 16 * 15 + 8 :=
  hex2uint16_value.2.1 49 97 70 56 [13] (by decide) (by decide) (by decide) (by decide)

/-! ### `normalizeData` -/

/-- A PID that is no `case` label takes the `default` branch. -/
theorem normalizeData_default (K : PidTable) (pid : Nat) (data : List Nat)
    (h : pid ∉ K.caseLabels) : normalizeData K pid data = (hex2uint8 data : Int) := by
  simp only [PidTable.caseLabels, List.mem_cons, List.mem_singleton, not_or,
    List.not_mem_nil, not_false_eq_true, and_true] at h
  simp only [normalizeData, h, or_self, if_false, getSmallValue]

theorem getTemperatureValue_eq (data : List Nat) :
    getTemperatureValue data = (hex2uint8 data : Int) - 40 := by
  have := hex2uint8_lt data
  unfold getTemperatureValue wrapInt16
  omega

/-- The labels in front of and in the temperature group are pairwise different
when the labels of the `switch` are. -/
theorem temperature_labels_distinct (K : PidTable) (hK : K.caseLabels.Nodup) :
    [K.PID_RPM, K.PID_EVAP_SYS_VAPOR_PRESSURE, K.PID_FUEL_PRESSURE, K.PID_COOLANT_TEMP,
      K.PID_INTAKE_TEMP, K.PID_AMBIENT_TEMP, K.PID_ENGINE_OIL_TEMP].Nodup := by
  have h := hK.sublist (List.take_sublist 7 K.caseLabels)
  simpa [PidTable.caseLabels] using h

/-- C3. For each temperature PID `normalizeData` returns the byte minus 40, a
value within `-40..215` (both ends are reached), and `"7B"` decodes to 83 for
the coolant temperature. -/
theorem normalizeData_temperature (K : PidTable) (hK : K.caseLabels.Nodup) (pid : Nat)
    (hp : pid ∈ [K.PID_COOLANT_TEMP, K.PID_INTAKE_TEMP, K.PID_AMBIENT_TEMP,
      K.PID_ENGINE_OIL_TEMP]) (data : List Nat) :
    normalizeData K pid data = (hex2uint8 data : Int) - 40
    ∧ -40 ≤ normalizeData K pid data ∧ normalizeData K pid data ≤ 215
    ∧ normalizeData K pid (ascii "00") = -40
    ∧ normalizeData K pid (ascii "FF") = 215
    ∧ normalizeData K K.PID_COOLANT_TEMP (ascii "7B") = 83 := by
  have hd := temperature_labels_distinct K hK
  simp only [List.nodup_cons, List.mem_cons, List.mem_singleton, not_or, List.not_mem_nil,
    not_false_eq_true, List.nodup_nil, and_true] at hd
  obtain ⟨⟨-, -, h03, h04, h05, h06⟩, ⟨-, h13, h14, h15, h16⟩, ⟨h23, h24, h25, h26⟩, -⟩ := hd
  have key : ∀ q, q ∈ [K.PID_COOLANT_TEMP, K.PID_INTAKE_TEMP, K.PID_AMBIENT_TEMP,
      K.PID_ENGINE_OIL_TEMP] → ∀ d, normalizeData K q d = (hex2uint8 d : Int) - 40 := by
    intro q hq d
    simp only [List.mem_cons, List.mem_singleton, List.not_mem_nil, or_false] at hq
    have n0 : ¬ (q = K.PID_RPM ∨ q = K.PID_EVAP_SYS_VAPOR_PRESSURE) := by
      rcases hq with rfl | rfl | rfl | rfl <;> simp [Ne.symm h03, Ne.symm h04, Ne.symm h05,
        Ne.symm h06, Ne.symm h13, Ne.symm h14, Ne.symm h15, Ne.symm h16]
    have n1 : ¬ q = K.PID_FUEL_PRESSURE := by
      rcases hq with rfl | rfl | rfl | rfl <;> simp [Ne.symm h23, Ne.symm h24, Ne.symm h25,
        Ne.symm h26]
    unfold normalizeData
    rw [if_neg n0, if_neg n1, if_pos hq, getTemperatureValue_eq]
  have hlt := hex2uint8_lt data
  refine ⟨key pid hp data, ?_, ?_, ?_, ?_, ?_⟩
  · rw [key pid hp data]; omega
  · rw [key pid hp data]; omega
  · rw [key pid hp]; decide
  · rw [key pid hp]; decide
  · rw [key _ (by simp)]; decide

/-- The instance of C3 at the SAE J1979 numbering and the ambient temperature. -/
theorem normalizeData_temperature_witness :
    normalizeData j1979 0x46 (ascii "7B\r") = ((hex2uint8 (ascii "7B\r") : Nat) : Int) - 40 :=
  (normalizeData_temperature j1979 (by decide) 0x46 (by decide) (ascii "7B\r")).1

/-- C4. For the engine speed and the evaporative-system vapour pressure
`normalizeData` returns the 16-bit word shifted right by two bits, that is the
word divided by 4 and rounded down; `"1AF8"` and its on-wire spelling `"1A F8"`
both decode to 1726. -/
theorem normalizeData_rpm (K : PidTable) (data : List Nat) :
    normalizeData K K.PID_RPM data = ((hex2uint16 data >>> 2 : Nat) : Int)
    ∧ normalizeData K K.PID_EVAP_SYS_VAPOR_PRESSURE data = ((hex2uint16 data >>> 2 : Nat) : Int)
    ∧ hex2uint16 data >>> 2 = hex2uint16 data / 4
    ∧ normalizeData K K.PID_RPM (ascii "1AF8") = 1726
    ∧ normalizeData K K.PID_RPM (ascii "1A F8") = 1726 := by
  have key : ∀ d, normalizeData K K.PID_RPM d = ((hex2uint16 d >>> 2 : Nat) : Int) := by
    intro d
    simp [normalizeData, getLargeValue]
  refine ⟨key data, ?_, ?_, ?_, ?_⟩
  · simp [normalizeData, getLargeValue]
  · exact Nat.shiftRight_eq_div_pow _ 2
  · rw [key]; decide
  · rw [key]; decide

/-! ### `prvGpsStrtoi` -/

theorem isDecDigit_iff (c : Nat) : isDecDigit c = true ↔ 48 ≤ c ∧ c ≤ 57 := by
  simp [isDecDigit]

theorem wrapInt32_of_range (x : Int) (h0 : 0 ≤ x) (h1 : x ≤ 2147483647) : wrapInt32 x = x := by
  unfold wrapInt32
  omega

theorem decValueFrom_cons (r : Int) (c : Nat) (ds : List Nat) :
    decValueFrom r (c :: ds) = decValueFrom (r * 10 + ((c : Int) - 48)) ds := rfl

theorem decValueFrom_ge (ds : List Nat) (hd : ∀ c ∈ ds, isDecDigit c = true) :
    ∀ r : Int, 0 ≤ r → r ≤ decValueFrom r ds := by
  induction ds with
  | nil => intro r _; exact le_refl r
  | cons c ds ih =>
    intro r hr
    have hc := (isDecDigit_iff c).1 (hd c (by simp))
    have h1 := ih (fun x hx => hd x (by simp [hx])) (r * 10 + ((c : Int) - 48)) (by omega)
    rw [decValueFrom_cons]
    omega

/-- The loop on a run of digits whose value fits `int32_t`, ended by a
character that is no digit: it runs to the end and returns the value. -/
theorem prvGpsStrtoiLoop_accepts (signFlag : Int) (hs : 0 ≤ signFlag) (rest : List Nat)
    (hrest : isDecDigit (deref rest) = false) (ds : List Nat)
    (hd : ∀ c ∈ ds, isDecDigit c = true) :
    ∀ r : Int, 0 ≤ r → decValueFrom r ds ≤ 2147483647 →
      prvGpsStrtoiLoop signFlag (ds ++ rest) r = (true, decValueFrom r ds) := by
  induction ds with
  | nil =>
    intro r _ _
    cases rest with
    | nil => rfl
    | cons c t =>
      have hc : ¬ (48 ≤ c ∧ c ≤ 57) := by
        rw [← isDecDigit_iff]; simpa [deref] using hrest
      simp only [List.nil_append, prvGpsStrtoiLoop, decValueFrom, List.foldl_nil]
      split_ifs <;> rfl
  | cons c ds ih =>
    intro r hr hv
    have hc := (isDecDigit_iff c).1 (hd c (by simp))
    have hd2 : ∀ x ∈ ds, isDecDigit x = true := fun x hx => hd x (by simp [hx])
    rw [decValueFrom_cons] at hv ⊢
    have hge := decValueFrom_ge ds hd2 (r * 10 + ((c : Int) - 48)) (by omega)
    have hw : wrapInt32 (r * 10 + ((c : Int) - 48)) = r * 10 + ((c : Int) - 48) :=
      wrapInt32_of_range _ (by omega) (by omega)
    simp only [List.cons_append, prvGpsStrtoiLoop, CONST_INT32_QUOTIENT_10,
      CONST_INT32_REMAINDER_10]
    rw [if_neg (by omega), if_pos hc, if_neg (by omega), if_neg (by omega), hw]
    exact ih hd2 _ (by omega) hv

/-- The loop on a run of digits whose value exceeds the limit (`2147483647`,
or `2147483648` with the sign flag set) stops with `retStrtoi = false`, as
long as the running value never is exactly `2147483648` on the way. -/
theorem prvGpsStrtoiLoop_rejects (signFlag : Int) (hs : signFlag = 0 ∨ signFlag = 1)
    (rest : List Nat) (ds : List Nat) (hd : ∀ c ∈ ds, isDecDigit c = true) :
    ∀ r : Int, 0 ≤ r → r ≤ 2147483647 → decValueFrom r ds > 2147483647 + signFlag →
      (signFlag = 1 → ∀ pre, pre <+: ds → decValueFrom r pre ≠ 2147483648) →
      ∃ x, prvGpsStrtoiLoop signFlag (ds ++ rest) r = (false, x) := by
  induction ds with
  | nil =>
    intro r _ h1 hv _
    simp only [decValueFrom, List.foldl_nil] at hv
    omega
  | cons c ds ih =>
    intro r hr h1 hv hpre
    have hc := (isDecDigit_iff c).1 (hd c (by simp))
    have hd2 : ∀ x ∈ ds, isDecDigit x = true := fun x hx => hd x (by simp [hx])
    rw [decValueFrom_cons] at hv
    simp only [List.cons_append, prvGpsStrtoiLoop, CONST_INT32_QUOTIENT_10,
      CONST_INT32_REMAINDER_10]
    rw [if_neg (by omega), if_pos hc]
    by_cases h2 : r > 214748364
    · rw [if_pos h2]; exact ⟨_, rfl⟩
    · rw [if_neg h2]
      by_cases h3 : r = 214748364 ∧ (c : Int) - 48 > 7 + signFlag
      · rw [if_pos h3]; exact ⟨_, rfl⟩
      · rw [if_neg h3]
        have hle : r * 10 + ((c : Int) - 48) ≤ 2147483647 := by
          rcases hs with h0 | h1
          · omega
          · have hne : r * 10 + ((c : Int) - 48) ≠ 2147483648 := by
              have := hpre h1 [c] (by simp)
              simpa [decValueFrom] using this
            omega
        rw [wrapInt32_of_range _ (by omega) hle]
        refine ih hd2 _ (by omega) hle hv ?_
        intro h1 pre hp
        have := hpre h1 (c :: pre) (by simpa using hp)
        rwa [decValueFrom_cons] at this

theorem deref_digits_append (ds rest : List Nat) (hne : ds ≠ [])
    (hd : ∀ c ∈ ds, isDecDigit c = true) : deref (ds ++ rest) ≠ 45 := by
  cases ds with
  | nil => exact absurd rfl hne
  | cons c t =>
    have hc := (isDecDigit_iff c).1 (hd c (by simp))
    simp only [List.cons_append, deref, List.headD_cons]
    omega

/-- C8 as stated fails: the magnitude of `"-2147483648"` exceeds `2147483647`,
yet the string is accepted (as `INT32_MIN`). -/
theorem prvGpsStrtoi_accepts_int32_min :
    prvGpsStrtoi (some (ascii "-2147483648")) 0 = (true, -2147483648)
    ∧ ¬ (∀ ds, (∀ c ∈ ds, isDecDigit c = true) → decValue ds > 2147483647 →
          (prvGpsStrtoi (some (45 :: ds)) 0).1 = false) := by
  refine ⟨by decide, fun h => ?_⟩
  have h1 := h (ascii "2147483648") (by decide) (by decide)
  revert h1
  decide

/-- Behind the digits of `INT32_MIN` the overflow check is blind: the wrapped
`result` is negative, so further digits are accepted and the value restarts
from 0. -/
theorem prvGpsStrtoi_wraps_behind_int32_min :
    prvGpsStrtoi (some (ascii "-21474836480")) 7 = (true, 0)
    ∧ prvGpsStrtoi (some (ascii "-21474836489")) 7 = (true, -9) := by decide

/-- C8, amended. Without a leading `'-'` every run of decimal digits whose
value exceeds `2147483647` is rejected, whatever follows it, and `*pResult` is
left alone; `"2147483648"` is rejected.  With a leading `'-'` the limit is
`2147483648`: `"-2147483648"` is accepted with the value `-2147483648`, and a
larger magnitude is rejected provided no prefix of the digits has the value
`2147483648`. -/
theorem prvGpsStrtoi_rejects_overflow (ds rest : List Nat) (pResult : Int)
    (hd : ∀ c ∈ ds, isDecDigit c = true) :
    (decValue ds > 2147483647 → prvGpsStrtoi (some (ds ++ rest)) pResult = (false, pResult))
    ∧ (decValue ds > 2147483648 → (∀ pre ∈ ds.inits, decValue pre ≠ 2147483648) →
        prvGpsStrtoi (some (45 :: (ds ++ rest))) pResult = (false, pResult))
    ∧ prvGpsStrtoi (some (ascii "2147483648")) pResult = (false, pResult)
    ∧ prvGpsStrtoi (some (ascii "-2147483648")) pResult = (true, -2147483648) := by
  refine ⟨?_, ?_, ?_, ?_⟩
  · intro hv
    have hne : ds ≠ [] := by
      rintro rfl
      simp [decValue, decValueFrom] at hv
    have h45 := deref_digits_append ds rest hne hd
    obtain ⟨x, hx⟩ := prvGpsStrtoiLoop_rejects 0 (Or.inl rfl) rest ds hd 0 (le_refl 0)
      (by norm_num) (by simpa [decValue] using hv) (fun h => absurd h (by norm_num))
    simp [prvGpsStrtoi, h45, hx]
  · intro hv hp
    obtain ⟨x, hx⟩ := prvGpsStrtoiLoop_rejects 1 (Or.inr rfl) rest ds hd 0 (le_refl 0)
      (by norm_num) (by simpa [decValue] using hv)
      (fun _ pre hpre => hp pre ((List.mem_inits pre ds).2 hpre))
    simp [prvGpsStrtoi, deref, hx]
  · simp [prvGpsStrtoi, show deref (ascii "2147483648") = 50 by decide,
      show prvGpsStrtoiLoop 0 (ascii "2147483648") 0 = (false, -2147483648) by decide]
  · have h1 : deref (ascii "-2147483648") = 45 := by decide
    have h2 : prvGpsStrtoiLoop 1 (List.drop 1 (ascii "-2147483648")) 0
        = (true, -2147483648) := by decide
    simp only [prvGpsStrtoi, h1, if_true, h2]
    rfl

/-- The instance of amended C8 at `"4294967296,"` and `"-4294967296,"`, whose
values wrap to 0 in 32 bits. -/
theorem prvGpsStrtoi_rejects_overflow_witness :
    prvGpsStrtoi (some (ascii "4294967296,")) 7 = (false, 7)
    ∧ prvGpsStrtoi (some (ascii "-4294967296,")) 7 = (false, 7) :=
  ⟨(prvGpsStrtoi_rejects_overflow (ascii "4294967296") (ascii ",") 7 (by decide)).1
      (by decide),
   (prvGpsStrtoi_rejects_overflow (ascii "4294967296") (ascii ",") 7 (by decide)).2.1
      (by decide) (by decide)⟩

/-- C9. A non-empty run of decimal digits of value `v ≤ 2147483647`, ended by
the terminator or any character that is no digit, is accepted with the value
`v`, and with `-v` behind a leading `'-'`; `"-123"` gives `-123`. -/
theorem prvGpsStrtoi_accepts (ds rest : List Nat) (pResult : Int) (hne : ds ≠ [])
    (hd : ∀ c ∈ ds, isDecDigit c = true) (hv : decValue ds ≤ 2147483647)
    (hrest : isDecDigit (deref rest) = false) :
    prvGpsStrtoi (some (ds ++ rest)) pResult = (true, decValue ds)
    ∧ prvGpsStrtoi (some (45 :: (ds ++ rest))) pResult = (true, - decValue ds)
    ∧ prvGpsStrtoi (some (ascii "-123")) pResult = (true, -123) := by
  have h45 := deref_digits_append ds rest hne hd
  have h0 := prvGpsStrtoiLoop_accepts 0 (le_refl 0) rest hrest ds hd 0 (le_refl 0) hv
  have h1 := prvGpsStrtoiLoop_accepts 1 (by norm_num) rest hrest ds hd 0 (le_refl 0) hv
  have hge : 0 ≤ decValue ds := decValueFrom_ge ds hd 0 (le_refl 0)
  refine ⟨?_, ?_, ?_⟩
  · simp [prvGpsStrtoi, h45, h0, decValue]
  · have hw : wrapInt32 (- decValue ds) = - decValue ds := by
      unfold wrapInt32; omega
    simp only [decValue] at hw
    simp [prvGpsStrtoi, deref, h1, decValue, hw]
  · have e1 : deref (ascii "-123") = 45 := by decide
    have e2 : prvGpsStrtoiLoop 1 (List.drop 1 (ascii "-123")) 0 = (true, 123) := by decide
    simp only [prvGpsStrtoi, e1, if_true, e2]
    rfl

/-- The instance of C9 at the GPS field `"123,"`. -/
theorem prvGpsStrtoi_accepts_witness :
    prvGpsStrtoi (some (ascii "123,")) 7 = (true, 123)
    ∧ prvGpsStrtoi (some (ascii "-123,")) 7 = (true, -123) :=
  ⟨(prvGpsStrtoi_accepts (ascii "123") (ascii ",") 7 (by decide) (by decide) (by decide)
      (by decide)).1,
   (prvGpsStrtoi_accepts (ascii "123") (ascii ",") 7 (by decide) (by decide) (by decide)
      (by decide)).2.1⟩

/-- C10 as stated fails: the empty string and the non-numeric `"abc"` are not
rejected, `prvGpsStrtoi` returns true for them. -/
theorem prvGpsStrtoi_empty_not_rejected :
    prvGpsStrtoi (some (ascii "")) 7 = (true, 0)
    ∧ prvGpsStrtoi (some (ascii "abc")) 7 = (true, 0)
    ∧ ¬ (∀ s, isDecDigit (deref (afterSign s)) = false →
          (prvGpsStrtoi (some s) 7).1 = false) := by
  refine ⟨by decide, by decide, fun h => ?_⟩
  have h1 := h (ascii "") (by decide)
  revert h1
  decide

/-- C10, amended. For the empty string and every string whose first character
after an optional `'-'` is no decimal digit `prvGpsStrtoi` returns true and
stores 0; it returns false, leaving `*pResult` alone, for the NULL pointer.
`prvGpsAtoi` yields 0 in all these cases. -/
theorem prvGpsStrtoi_non_numeric (s : List Nat) (pResult : Int)
    (h : isDecDigit (deref (afterSign s)) = false) :
    prvGpsStrtoi (some s) pResult = (true, 0)
    ∧ prvGpsAtoi (some s) = 0
    ∧ prvGpsStrtoi none pResult = (false, pResult)
    ∧ prvGpsAtoi none = 0 := by
  have key : ∀ q, prvGpsStrtoi (some s) q = (true, 0) := by
    intro q
    by_cases h45 : deref s = 45
    · have hl := prvGpsStrtoiLoop_accepts 1 (by norm_num) (s.drop 1)
        (by simpa [afterSign, h45] using h) [] (by simp) 0 (le_refl 0)
        (by simp [decValueFrom])
      simp only [List.nil_append, decValueFrom, List.foldl_nil] at hl
      simp only [prvGpsStrtoi, h45, if_true, hl]
      rfl
    · have hl := prvGpsStrtoiLoop_accepts 0 (le_refl 0) s
        (by simpa [afterSign, h45] using h) [] (by simp) 0 (le_refl 0)
        (by simp [decValueFrom])
      simp only [List.nil_append, decValueFrom, List.foldl_nil] at hl
      simp only [prvGpsStrtoi, h45, if_false, List.drop_zero, hl]
      rfl
  refine ⟨key pResult, ?_, rfl, rfl⟩
  simp [prvGpsAtoi, key 0]

/-- The instance of amended C10 at the field `"-N,"`. -/
theorem prvGpsStrtoi_non_numeric_witness :
    prvGpsStrtoi (some (ascii "-N,")) 7 = (true, 0) ∧ prvGpsAtoi (some (ascii "-N,")) = 0 :=
  ⟨(prvGpsStrtoi_non_numeric (ascii "-N,") 7 (by decide)).1,
   (prvGpsStrtoi_non_numeric (ascii "-N,") 7 (by decide)).2.1⟩

/-! ### C strings and `strstr` -/

theorem cstring_cons (c : Nat) (p : List Nat) :
    cstring (c :: p) = if c = 0 then [] else c :: cstring p := by
  by_cases h : c = 0 <;> simp [cstring, List.takeWhile_cons, h]

theorem deref_cstring (p : List Nat) : deref (cstring p) = deref p := by
  cases p with
  | nil => rfl
  | cons c t =>
    rw [cstring_cons]
    by_cases h : c = 0 <;> simp [deref, h]

theorem cstring_eq_nil_iff (p : List Nat) : cstring p = [] ↔ deref p = 0 := by
  cases p with
  | nil => simp [cstring, deref]
  | cons c t =>
    rw [cstring_cons]
    by_cases h : c = 0 <;> simp [deref, h]

/-- Storing a NUL behind the received bytes: the string in the buffer is the
string in the received bytes. -/
theorem cstring_append_nul (data tail : List Nat) :
    cstring (data ++ 0 :: tail) = cstring data := by
  induction data with
  | nil => simp [cstring]
  | cons c t ih =>
    rw [List.cons_append, cstring_cons, cstring_cons, ih]

theorem hex2uint8_cstring (p : List Nat) : hex2uint8 (cstring p) = hex2uint8 p := by
  cases p with
  | nil => rfl
  | cons c t =>
    by_cases h : c = 0
    · subst h
      simp [cstring_cons, hex2uint8, deref, hexAdjust]
    · have h2 : deref (List.drop 1 (cstring (c :: t))) = deref (List.drop 1 (c :: t)) := by
        rw [cstring_cons, if_neg h]
        simp only [List.drop_succ_cons, List.drop_zero]
        exact deref_cstring t
      unfold hex2uint8
      rw [deref_cstring, h2]

theorem cstring_skipToSpace (p : List Nat) :
    cstring (skipToSpace p) = (cstring p).dropWhile (fun c => c != 32) := by
  induction p with
  | nil => rfl
  | cons c t ih =>
    by_cases h0 : c = 0
    · subst h0
      simp [skipToSpace, cstring_cons]
    · by_cases h1 : c = 32
      · subst h1
        simp [skipToSpace, cstring_cons, List.dropWhile_cons]
      · simp [skipToSpace, cstring_cons, List.dropWhile_cons, h0, h1, ih]

theorem cstring_skipSpaces (p : List Nat) :
    cstring (skipSpaces p) = (cstring p).dropWhile (fun c => c == 32) := by
  induction p with
  | nil => rfl
  | cons c t ih =>
    by_cases h1 : c = 32
    · subst h1
      simp [skipSpaces, cstring_cons, List.dropWhile_cons, ih]
    · by_cases h0 : c = 0
      · subst h0
        simp [skipSpaces, cstring_cons]
      · simp [skipSpaces, cstring_cons, List.dropWhile_cons, h0, h1]

theorem cstring_payload (p : List Nat) :
    cstring (skipSpaces (skipToSpace p)) = payloadAfter (cstring p) := by
  rw [cstring_skipSpaces, cstring_skipToSpace, payloadAfter]

/-- The search `strstr` finds every needle that occurs in the string. -/
theorem strstr_isSome_of_infix (needle : List Nat) :
    ∀ hay : List Nat, needle <:+: cstring hay → (strstr hay needle).isSome = true := by
  intro hay
  induction hay with
  | nil =>
    intro h
    have : needle = [] := by simpa [cstring] using h
    subst this
    simp [strstr]
  | cons c t ih =>
    intro h
    rw [strstr]
    by_cases hp : needle.isPrefixOf (c :: t) = true
    · simp [hp]
    · rw [if_neg hp]
      have hnp : ¬ needle <+: c :: t := fun hh => hp (List.isPrefixOf_iff_prefix.2 hh)
      rw [cstring_cons] at h
      by_cases h0 : c = 0
      · rw [if_pos h0] at h
        have : needle = [] := by simpa using h
        exact absurd (this ▸ List.nil_prefix) hnp
      · rw [if_neg h0] at h ⊢
        rcases List.infix_cons_iff.1 h with h1 | h1
        · have hpre : c :: cstring t <+: c :: t := by
            have := List.takeWhile_prefix (l := t) (fun c => c != 0)
            exact (List.prefix_cons_inj c).2 this
          exact absurd (h1.trans hpre) hnp
        · exact ih h1

/-- What `strstr` returns starts with the needle and is a tail of the string. -/
theorem strstr_some (needle : List Nat) :
    ∀ (hay q : List Nat), strstr hay needle = some q →
      needle <+: q ∧ ∃ pre, cstring hay = pre ++ cstring q := by
  intro hay
  induction hay with
  | nil =>
    intro q h
    rw [strstr] at h
    split_ifs at h with hp
    cases h
    exact ⟨List.isPrefixOf_iff_prefix.1 hp, [], rfl⟩
  | cons c t ih =>
    intro q h
    rw [strstr] at h
    split_ifs at h with hp h0
    · cases h
      exact ⟨List.isPrefixOf_iff_prefix.1 hp, [], rfl⟩
    · obtain ⟨h1, pre, h2⟩ := ih q h
      refine ⟨h1, c :: pre, ?_⟩
      rw [cstring_cons, if_neg h0, h2, List.cons_append]

theorem strstr_length (needle : List Nat) :
    ∀ (hay q : List Nat), strstr hay needle = some q → q.length ≤ hay.length := by
  intro hay
  induction hay with
  | nil =>
    intro q h
    rw [strstr] at h
    split_ifs at h
    cases h
    exact le_refl _
  | cons c t ih =>
    intro q h
    rw [strstr] at h
    split_ifs at h
    · cases h
      exact le_refl _
    · have := ih q h
      simp only [List.length_cons]
      omega

theorem skipToSpace_length (p : List Nat) : (skipToSpace p).length ≤ p.length := by
  induction p with
  | nil => exact le_refl _
  | cons c t ih =>
    rw [skipToSpace]
    split_ifs
    · simp only [List.length_cons]; omega
    · exact le_refl _

theorem skipSpaces_length (p : List Nat) : (skipSpaces p).length ≤ p.length := by
  induction p with
  | nil => exact le_refl _
  | cons c t ih =>
    rw [skipSpaces]
    split_ifs
    · simp only [List.length_cons]; omega
    · exact le_refl _

/-! ### `OBDLib_ReadPID` -/

/-- What `strstr( p, "41 " )` returns is the token followed by `q.drop 3`. -/
theorem token_split (q : List Nat) (h : ascii "41 " <+: q) :
    q = ascii "41 " ++ q.drop 3 ∧ cstring q = ascii "41 " ++ cstring (q.drop 3) := by
  obtain ⟨t, rfl⟩ := h
  have hl : (ascii "41 ").length = 3 := by decide
  have hd : List.drop 3 (ascii "41 " ++ t) = t := by
    rw [← hl]; exact List.drop_left _ _
  rw [hd]
  refine ⟨rfl, ?_⟩
  have e : ascii "41 " = [52, 49, 32] := by decide
  rw [e]
  simp [cstring_cons]

/-- The fuel of `scanPid` is never used up: any two amounts above the length of
the text give the same result. -/
theorem scanPid_fuel (pid : Nat) :
    ∀ (fuel fuel2 : Nat) (p : List Nat), p.length < fuel → p.length < fuel2 →
      scanPid pid fuel p = scanPid pid fuel2 p := by
  intro fuel
  induction fuel with
  | zero => intro fuel2 p h; omega
  | succ n ih =>
    intro fuel2 p h1 h2
    cases fuel2 with
    | zero => omega
    | succ m =>
      rw [scanPid, scanPid]
      cases hs : strstr p (ascii "41 ") with
      | none => rfl
      | some q =>
        have hq := strstr_length _ p q hs
        have hsplit := (token_split q (strstr_some _ p q hs).1).1
        have hlen : (q.drop 3).length + 3 = q.length := by
          have := congrArg List.length hsplit
          rw [List.length_append] at this
          have hl : (ascii "41 ").length = 3 := by decide
          omega
        have hk1 := skipToSpace_length (q.drop 3)
        have hk2 := skipSpaces_length (skipToSpace (q.drop 3))
        simp only []
        split_ifs
        · rfl
        · exact ih m _ (by omega) (by omega)
        · exact ih m _ (by omega) (by omega)

theorem HasPidFrame_append (pid : Nat) (x s : List Nat) (h : HasPidFrame pid s) :
    HasPidFrame pid (x ++ s) := by
  obtain ⟨pre, rest, h1, h2, h3⟩ := h
  exact ⟨x ++ pre, rest, by rw [h1]; simp, h2, h3⟩

/-- Whatever `scanPid` returns lies behind a frame for the requested PID. -/
theorem scanPid_some (pid : Nat) :
    ∀ (fuel : Nat) (p d : List Nat), scanPid pid fuel p = some d →
      HasPidFrame pid (cstring p) := by
  intro fuel
  induction fuel with
  | zero => intro p d h; simp [scanPid] at h
  | succ n ih =>
    intro p d h
    rw [scanPid] at h
    cases hs : strstr p (ascii "41 ") with
    | none => simp [hs] at h
    | some q =>
      obtain ⟨hpre, pre, hp⟩ := strstr_some _ p q hs
      obtain ⟨-, hq⟩ := token_split q hpre
      simp only [hs] at h
      have hx : cstring p = (pre ++ ascii "41 ") ++ cstring (q.drop 3) := by
        rw [hp, hq]; simp
      split_ifs at h with hpid hdata
      · -- the frame found here
        refine ⟨pre, cstring (q.drop 3), hx, ?_, ?_⟩
        · rw [hex2uint8_cstring]; exact hpid
        · rw [← cstring_payload]
          intro hnil
          exact hdata ((cstring_eq_nil_iff _).1 hnil)
      · -- matching PID without payload: the scan goes on behind it
        have h1 := ih _ d h
        rw [cstring_payload] at h1
        obtain ⟨mid, hmid⟩ : payloadAfter (cstring (q.drop 3)) <:+ cstring (q.drop 3) :=
          (List.dropWhile_suffix _).trans (List.dropWhile_suffix _)
        rw [hx, ← hmid, ← List.append_assoc]
        exact HasPidFrame_append _ _ _ h1
      · -- another PID: the scan goes on behind the token
        rw [hx]
        exact HasPidFrame_append _ _ _ (ih _ d h)

theorem checkErrorMessage_ne_zero (buffer msg : List Nat) (hm : msg ∈ errmsg)
    (h : (strstr buffer msg).isSome = true) : checkErrorMessage buffer ≠ 0 := by
  simp only [errmsg, List.mem_cons, List.mem_singleton, List.not_mem_nil, or_false] at hm
  simp only [checkErrorMessage, checkErrorLoop, errmsg]
  rcases hm with rfl | rfl | rfl | rfl
  · rw [if_pos h]; norm_num
  · split_ifs <;> norm_num
  · split_ifs <;> norm_num
  · split_ifs <;> norm_num

theorem cstring_fmt (pid : Nat) :
    cstring (fmt02X dataMode ++ fmt02X pid ++ [13] ++ [0])
      = fmt02X dataMode ++ fmt02X pid ++ [13] := by
  have h : ∀ d, hexDigitUpper d ≠ 0 := by
    intro d; unfold hexDigitUpper; split_ifs <;> omega
  simp [fmt02X, cstring_cons, h]

/-- The function `OBDLib_ReadPID` spelled out: the command written, the read, and the three
tests the result depends on. -/
theorem OBDLib_ReadPID_eq (K : PidTable) (dev : ObdDevice) (pid : Nat) (pResult : Int) :
    OBDLib_ReadPID K dev pid pResult =
      let cmd := fmt02X dataMode ++ fmt02X pid ++ [13]
      let resp := dev.response 64
      let dev1 : ObdDevice := { written := dev.written ++ [cmd], pending := dev.pending.tail }
      let buffer := resp ++ 0 :: (cmd ++ [0]).drop (resp.length + 1)
      if resp.length = 0 then (dev1, false, pResult)
      else if checkErrorMessage buffer = 0 then
        match scanPid pid (buffer.length + 1) buffer with
        | none => (dev1, false, pResult)
        | some data => (dev1, true, normalizeData K pid data)
      else (dev1, false, pResult) := by
  unfold OBDLib_ReadPID FreeRTOS_read
  simp only [cstring_fmt]
  have hr : ∀ x, (FreeRTOS_write dev x).response 64 = dev.response 64 := fun _ => rfl
  have hw : ∀ x, ({ FreeRTOS_write dev x with pending := (FreeRTOS_write dev x).pending.tail }
      : ObdDevice) = { written := dev.written ++ [x], pending := dev.pending.tail } :=
    fun _ => rfl
  rw [hr, hw]
  generalize dev.response 64 = resp
  by_cases h0 : resp.length = 0
  · rw [if_pos h0, if_pos h0]
    simp
  · rw [if_neg h0, if_neg h0]
    have hpos : resp.length > 0 := Nat.pos_of_ne_zero h0
    by_cases h1 : checkErrorMessage (resp ++
        0 :: List.drop (resp.length + 1) (fmt02X dataMode ++ fmt02X pid ++ [13] ++ [0])) = 0
    · simp only [hpos, h1, and_self, if_true]
    · simp only [h1, and_false, if_false]

/-- C2. `OBDLib_ReadPID` returns false and leaves `*pResult` as it was when the
read yields zero bytes, when the response contains one of the error tokens,
or when the response holds no token `"41 "` followed by a hex byte equal to
`pid` and a non-empty payload. -/
theorem OBDLib_ReadPID_fails (K : PidTable) (dev : ObdDevice) (pid : Nat) (pResult : Int)
    (h : (dev.response 64).length = 0
      ∨ (∃ msg ∈ errmsg, msg <:+: cstring (dev.response 64))
      ∨ ¬ HasPidFrame pid (cstring (dev.response 64))) :
    (OBDLib_ReadPID K dev pid pResult).2 = (false, pResult) := by
  rw [OBDLib_ReadPID_eq]
  simp only []
  by_cases h0 : (dev.response 64).length = 0
  · rw [if_pos h0]
  · rw [if_neg h0]
    rcases h with h | ⟨msg, hm, hin⟩ | h
    · exact absurd h h0
    · rw [if_neg]
      apply checkErrorMessage_ne_zero _ msg hm
      apply strstr_isSome_of_infix
      rw [cstring_append_nul]
      exact hin
    · split_ifs
      · cases hs : scanPid pid _ _ with
        | none => rfl
        | some d =>
          have := scanPid_some pid _ _ d hs
          rw [cstring_append_nul] at this
          exact absurd this h
      · rfl

/-- The instance of C2 at the answer `"NO DATA"` to a speed request. -/
theorem OBDLib_ReadPID_fails_witness :
    (OBDLib_ReadPID j1979 ⟨[], [ascii "NO DATA\r\r>"]⟩ 0x0D 7).2 = (false, 7) :=
  OBDLib_ReadPID_fails j1979 ⟨[], [ascii "NO DATA\r\r>"]⟩ 0x0D 7
    (Or.inr (Or.inl ⟨ascii "NO DATA", by decide, ascii "", ascii "\r\r>", by decide⟩))

/-- C1. Reading the vehicle speed (PID `0x0D`): `OBDLib_ReadPID` writes exactly
`"010D\r"`, and when the channel then returns `"41 0D 32\r\r>"` it returns true
with `*pResult = 50`, the value the decode table gives for the payload `"32"`. -/
theorem OBDLib_ReadPID_speed (K : PidTable) (hK : 0x0D ∉ K.caseLabels) (dev : ObdDevice)
    (more : List (List Nat)) (pResult : Int)
    (hresp : dev.pending = ascii "41 0D 32\r\r>" :: more) :
    OBDLib_ReadPID K dev 0x0D pResult
      = ({ written := dev.written ++ [ascii "010D\r"], pending := more }, true, 50)
    ∧ normalizeData K 0x0D (ascii "32") = 50 := by
  have hr : dev.response 64 = ascii "41 0D 32\r\r>" := by
    rw [ObdDevice.response, hresp, List.headD_cons]
    decide
  have hcmd : fmt02X dataMode ++ fmt02X 0x0D ++ [13] = ascii "010D\r" := by decide
  have hbuf : ascii "41 0D 32\r\r>"
      ++ 0 :: List.drop ((ascii "41 0D 32\r\r>").length + 1) (ascii "010D\r" ++ [0])
      = ascii "41 0D 32\r\r>" ++ [0] := by decide
  have hlen : ¬ (ascii "41 0D 32\r\r>").length = 0 := by decide
  have herr : checkErrorMessage (ascii "41 0D 32\r\r>" ++ [0]) = 0 := by decide
  have hscan : scanPid 0x0D ((ascii "41 0D 32\r\r>" ++ [0]).length + 1)
      (ascii "41 0D 32\r\r>" ++ [0]) = some (ascii "32\r\r>" ++ [0]) := by decide
  have hval : hex2uint8 (ascii "32\r\r>" ++ [0]) = 50 := by decide
  have hval2 : hex2uint8 (ascii "32") = 50 := by decide
  constructor
  · rw [OBDLib_ReadPID_eq]
    simp only [hr, hcmd, hbuf, hresp, List.tail_cons, if_neg hlen, herr, if_true, hscan,
      normalizeData_default K _ _ hK, hval]
    rfl
  · rw [normalizeData_default K _ _ hK, hval2]
    rfl

/-- The instance of C1 at the SAE J1979 numbering and a fresh channel. -/
theorem OBDLib_ReadPID_speed_witness :
    OBDLib_ReadPID j1979 ⟨[], [ascii "41 0D 32\r\r>"]⟩ 0x0D 0
      = ({ written := [] ++ [ascii "010D\r"], pending := [] }, true, 50)
    ∧ normalizeData j1979 0x0D (ascii "32") = 50 :=
  OBDLib_ReadPID_speed j1979 (by decide) ⟨[], [ascii "41 0D 32\r\r>"]⟩ [] 0 rfl

/-! ### `checkErrorMessage` -/

theorem cstring_append_of_nonzero (a t : List Nat) (h : 0 ∉ a) :
    cstring (a ++ t) = a ++ cstring t := by
  induction a with
  | nil => rfl
  | cons c r ih =>
    have hc : c ≠ 0 := fun e => h (by simp [e])
    have hr : 0 ∉ r := fun e => h (by simp [e])
    rw [List.cons_append, cstring_cons, if_neg hc, ih hr, List.cons_append]

/-- The search `strstr` succeeds exactly when the needle, a string itself,
occurs in the string. -/
theorem strstr_isSome_iff (needle hay : List Nat) (h0 : 0 ∉ needle) :
    (strstr hay needle).isSome = true ↔ needle <:+: cstring hay := by
  constructor
  · intro h
    obtain ⟨q, hq⟩ := Option.isSome_iff_exists.1 h
    obtain ⟨⟨t, ht⟩, pre, hp⟩ := strstr_some needle hay q hq
    rw [hp, ← ht, cstring_append_of_nonzero _ _ h0]
    exact ⟨pre, cstring t, by simp⟩
  · exact strstr_isSome_of_infix needle hay

/-- C11. `checkErrorMessage` is the reference classification of the text in
the buffer: the 1-based position, in the order UNABLE, ERROR, TIMEOUT, NO DATA,
of the first token occurring anywhere in the text, and 0 exactly when none of
the four occurs; `"NO DATA"` gives 4 and `"41 0D 32"` gives 0. -/
theorem checkErrorMessage_eq_classifyRef :
    (∀ buffer, checkErrorMessage buffer = classifyRef (cstring buffer))
    ∧ (∀ buffer, checkErrorMessage buffer = 0 ↔ ∀ tok ∈ errmsg, ¬ tok <:+: cstring buffer)
    ∧ checkErrorMessage (ascii "NO DATA") = 4
    ∧ checkErrorMessage (ascii "41 0D 32") = 0 := by
  have h1 : (0 : Nat) ∉ ascii "UNABLE" := by decide
  have h2 : (0 : Nat) ∉ ascii "ERROR" := by decide
  have h3 : (0 : Nat) ∉ ascii "TIMEOUT" := by decide
  have h4 : (0 : Nat) ∉ ascii "NO DATA" := by decide
  have key : ∀ buffer, checkErrorMessage buffer = classifyRef (cstring buffer) := by
    intro buffer
    have e1 := strstr_isSome_iff (ascii "UNABLE") buffer h1
    have e2 := strstr_isSome_iff (ascii "ERROR") buffer h2
    have e3 := strstr_isSome_iff (ascii "TIMEOUT") buffer h3
    have e4 := strstr_isSome_iff (ascii "NO DATA") buffer h4
    simp only [checkErrorMessage, checkErrorLoop, classifyRef, errmsg, List.findIdx?_cons,
      List.findIdx?_nil, decide_eq_true_eq]
    by_cases c1 : ascii "UNABLE" <:+: cstring buffer
    · rw [if_pos (e1.2 c1), if_pos c1]
    · rw [if_neg (fun h => c1 (e1.1 h)), if_neg c1]
      by_cases c2 : ascii "ERROR" <:+: cstring buffer
      · rw [if_pos (e2.2 c2), if_pos c2]
      · rw [if_neg (fun h => c2 (e2.1 h)), if_neg c2]
        by_cases c3 : ascii "TIMEOUT" <:+: cstring buffer
        · rw [if_pos (e3.2 c3), if_pos c3]
        · rw [if_neg (fun h => c3 (e3.1 h)), if_neg c3]
          by_cases c4 : ascii "NO DATA" <:+: cstring buffer
          · rw [if_pos (e4.2 c4), if_pos c4]
          · rw [if_neg (fun h => c4 (e4.1 h)), if_neg c4]
  refine ⟨key, ?_, by decide, by decide⟩
  intro buffer
  rw [key]
  simp only [classifyRef, errmsg, List.findIdx?_cons, List.findIdx?_nil, decide_eq_true_eq,
    List.mem_cons, List.mem_singleton, List.not_mem_nil, or_false, forall_eq_or_imp, forall_eq]
  by_cases c1 : ascii "UNABLE" <:+: cstring buffer
  · simp [c1]
  · by_cases c2 : ascii "ERROR" <:+: cstring buffer
    · simp [c1, c2]
    · by_cases c3 : ascii "TIMEOUT" <:+: cstring buffer
      · simp [c1, c2, c3]
      · by_cases c4 : ascii "NO DATA" <:+: cstring buffer
        · simp [c1, c2, c3, c4]
        · simp [c1, c2, c3, c4]

/-! ### `OBDLib_SendCommand` -/

theorem storeAt_nul (mem data : List Nat) :
    storeAt mem (data ++ [0]) = data ++ 0 :: mem.drop (data.length + 1) := by
  simp [storeAt]

theorem cstring_storeAt_nul (mem data : List Nat) :
    cstring (storeAt mem (data ++ [0])) = cstring data := by
  rw [storeAt_nul, cstring_append_nul]

/-- The function `OBDLib_SendCommand` spelled out for a non-empty command and a
buffer of non-zero size: the command goes out, the next answer comes in. -/
theorem OBDLib_SendCommand_eq (dev : ObdDevice) (pCmd pBuf : List Nat) (bufSize : Nat)
    (hc : cstring pCmd ≠ []) (hb : bufSize ≠ 0) :
    OBDLib_SendCommand dev pCmd pBuf bufSize =
      (({ written := dev.written ++ [cstring pCmd], pending := dev.pending.tail } : ObdDevice),
        (dev.response bufSize).length,
        if (dev.response bufSize).length = 0 then pBuf
        else storeAt pBuf (dev.response bufSize ++ [0])) := by
  have hl : (cstring pCmd).length ≠ 0 := fun h => hc (List.length_eq_zero.1 h)
  have hpos : (cstring pCmd).length > 0 := Nat.pos_of_ne_zero hl
  have hr : ∀ x, (FreeRTOS_write dev x).response bufSize = dev.response bufSize := fun _ => rfl
  unfold OBDLib_SendCommand
  rw [if_neg hl, if_neg hb]
  simp only [hpos, if_true]
  unfold FreeRTOS_read
  simp only [hr]
  by_cases h0 : (dev.response bufSize).length = 0
  · rw [if_pos h0, if_pos h0, h0]
    rfl
  · rw [if_neg h0, if_neg h0, storeAt_nul]
    rfl

/-! ### `OBDLib_ReadDTC` -/

theorem hexDigitUpper_ne_zero (d : Nat) : hexDigitUpper d ≠ 0 := by
  unfold hexDigitUpper; split_ifs <;> omega

theorem dtcCommand_nonzero (n : Nat) : 0 ∉ dtcCommand n := by
  unfold dtcCommand
  split_ifs
  · decide
  · have h1 := hexDigitUpper_ne_zero (n / 16 % 16)
    have h2 := hexDigitUpper_ne_zero (n % 16)
    have e : ascii "03" = [48, 51] := by decide
    simp [fmt02X, e, Ne.symm h1, Ne.symm h2]

theorem dtcCommand_ne_nil (n : Nat) : dtcCommand n ≠ [] := by
  unfold dtcCommand
  split_ifs
  · decide
  · have e : ascii "03" = [48, 51] := by decide
    simp [e]

theorem cstring_dtcCommand (mem : List Nat) (n : Nat) :
    cstring (storeAt mem (dtcCommand n ++ [0])) = dtcCommand n := by
  rw [cstring_storeAt_nul]
  have := cstring_append_of_nonzero (dtcCommand n) [] (dtcCommand_nonzero n)
  simpa [cstring] using this

theorem pageHasData_iff (answer : List Nat) :
    pageHasData answer = true ↔
      answer.take 127 ≠ [] ∧ ¬ ascii "NO DATA" <:+: cstring (answer.take 127) := by
  simp [pageHasData]

/-- One round of the page loop of `OBDLib_ReadDTC`, spelled out by the answer
the channel gives. -/
theorem readDtcPages_step (maxCodes : Nat) (junk : Nat → List Nat) (k n : Nat)
    (dev : ObdDevice) (codesRead : Nat) (stores : List (Nat × Nat)) :
    readDtcPages maxCodes junk (k + 1) n dev codesRead stores =
      if pageHasData (dev.pending.headD []) = true then
        match strstr (storeAt (storeAt (junk n) (dtcCommand n ++ [0]))
            ((dev.pending.headD []).take 127 ++ [0])) (ascii "43") with
        | some p =>
          (({ written := dev.written ++ [dtcCommand n], pending := dev.pending.tail }
              : ObdDevice),
            codesRead + (dtcDecode (maxCodes - codesRead) codesRead p).length,
            stores ++ dtcDecode (maxCodes - codesRead) codesRead p)
        | none =>
          (({ written := dev.written ++ [dtcCommand n], pending := dev.pending.tail }
              : ObdDevice), codesRead, stores)
      else
        readDtcPages maxCodes junk k (n + 1)
          { written := dev.written ++ [dtcCommand n], pending := dev.pending.tail }
          codesRead stores := by
  have hc : cstring (storeAt (junk n) (dtcCommand n ++ [0])) ≠ [] := by
    rw [cstring_dtcCommand]; exact dtcCommand_ne_nil n
  have hresp : dev.response 128 = (dev.pending.headD []).take 127 := rfl
  rw [readDtcPages]
  rw [OBDLib_SendCommand_eq dev _ _ 128 hc (by norm_num), cstring_dtcCommand, hresp]
  have hpd := pageHasData_iff (dev.pending.headD [])
  generalize pageHasData (dev.pending.headD []) = d at hpd ⊢
  generalize List.take 127 (dev.pending.headD []) = r at hpd ⊢
  simp only []
  have hno : (0 : Nat) ∉ ascii "NO DATA" := by decide
  have hiff := strstr_isSome_iff (ascii "NO DATA")
    (storeAt (storeAt (junk n) (dtcCommand n ++ [0])) (r ++ [0])) hno
  rw [cstring_storeAt_nul] at hiff
  by_cases h0 : r.length = 0
  · have hnil : r = [] := List.length_eq_zero.1 h0
    have hd : d = false := by
      cases d with
      | false => rfl
      | true => exact absurd hnil (hpd.1 rfl).1
    rw [if_neg (by omega), hd]
    simp
  · have hne : r ≠ [] := fun h => h0 (by rw [h]; rfl)
    rw [if_pos (Nat.pos_of_ne_zero h0), if_neg h0]
    by_cases hnd : ascii "NO DATA" <:+: cstring r
    · have hs := hiff.2 hnd
      obtain ⟨q, hq⟩ := Option.isSome_iff_exists.1 hs
      have hd : d = false := by
        cases d with
        | false => rfl
        | true => exact absurd hnd (hpd.1 rfl).2
      rw [hd, hq]
      simp
    · have hs : strstr (storeAt (storeAt (junk n) (dtcCommand n ++ [0])) (r ++ [0]))
          (ascii "NO DATA") = none := by
        cases hh : strstr (storeAt (storeAt (junk n) (dtcCommand n ++ [0])) (r ++ [0]))
          (ascii "NO DATA") with
        | none => rfl
        | some q => exact absurd (hiff.1 (by rw [hh]; rfl)) hnd
      have hd : d = true := hpd.2 ⟨hne, hnd⟩
      rw [hd, hs]
      simp

/-- The stores of the decoding loop: at most `room` of them, into consecutive
cells from `codesRead` on, each a non-zero 16-bit value. -/
theorem dtcDecode_stores :
    ∀ (room codesRead : Nat) (p : List Nat),
      (dtcDecode room codesRead p).length ≤ room
      ∧ (dtcDecode room codesRead p).map Prod.fst
          = List.range' codesRead (dtcDecode room codesRead p).length
      ∧ ∀ w ∈ dtcDecode room codesRead p, w.2 ≠ 0 ∧ w.2 < 65536 := by
  intro room
  induction room with
  | zero => intro c p; simp [dtcDecode]
  | succ r ih =>
    intro c p
    rw [dtcDecode]
    by_cases h0 : deref p = 0
    · simp [h0]
    · rw [if_neg h0]
      simp only []
      cases hn : (if deref (List.drop 6 p) = 13 then
          Option.map (fun q => List.drop 2 q) (strchr (List.drop 6 p) 58)
          else some (List.drop 6 p)) with
      | none => simp
      | some q =>
        simp only []
        by_cases hz : hex2uint16 q = 0
        · simp [hz]
        · rw [if_neg hz]
          obtain ⟨i1, i2, i3⟩ := ih (c + 1) q
          refine ⟨?_, ?_, ?_⟩
          · simp only [List.length_cons]; omega
          · simp only [List.map_cons, List.length_cons, List.range'_succ, i2]
          · intro w hw
            rcases List.mem_cons.1 hw with rfl | hw
            · exact ⟨hz, hex2uint16_lt q⟩
            · exact i3 w hw

/-- The page loop keeps the stores in step with the count. -/
theorem readDtcPages_stores (maxCodes : Nat) (junk : Nat → List Nat) :
    ∀ (k n : Nat) (dev : ObdDevice) (codesRead : Nat) (stores : List (Nat × Nat)),
      codesRead ≤ maxCodes → stores.map Prod.fst = List.range codesRead →
      (∀ w ∈ stores, w.2 ≠ 0 ∧ w.2 < 65536) →
      (readDtcPages maxCodes junk k n dev codesRead stores).2.1 ≤ maxCodes
      ∧ (readDtcPages maxCodes junk k n dev codesRead stores).2.2.map Prod.fst
          = List.range (readDtcPages maxCodes junk k n dev codesRead stores).2.1
      ∧ ∀ w ∈ (readDtcPages maxCodes junk k n dev codesRead stores).2.2,
          w.2 ≠ 0 ∧ w.2 < 65536 := by
  intro k
  induction k with
  | zero =>
    intro n dev c st h1 h2 h3
    exact ⟨h1, h2, h3⟩
  | succ k ih =>
    intro n dev c st h1 h2 h3
    rw [readDtcPages_step]
    split_ifs
    · cases strstr (storeAt (storeAt (junk n) (dtcCommand n ++ [0]))
          (List.take 127 (dev.pending.headD []) ++ [0])) (ascii "43") with
      | none => exact ⟨h1, h2, h3⟩
      | some p =>
        obtain ⟨d1, d2, d3⟩ := dtcDecode_stores (maxCodes - c) c p
        refine ⟨?_, ?_, ?_⟩
        · show c + _ ≤ maxCodes
          omega
        · show List.map Prod.fst (st ++ _) = List.range (c + _)
          rw [List.map_append, h2, d2, List.range_eq_range', List.range_eq_range']
          have := List.range'_append_1 0 c (dtcDecode (maxCodes - c) c p).length
          rw [Nat.zero_add, Nat.add_comm] at this
          exact this
        · intro w hw
          rcases List.mem_append.1 hw with hw | hw
          · exact h3 w hw
          · exact d3 w hw
    · exact ih _ _ _ _ h1 h2 h3

/-- C16. For every sequence of channel answers and every `maxCodes`,
`OBDLib_ReadDTC` returns a count `n ≤ maxCodes`, stores exactly into
`codes[0] .. codes[n-1]`, in this order, and every stored code is non-zero
(and a 16-bit value). -/
theorem OBDLib_ReadDTC_bounds (dev : ObdDevice) (maxCodes : Nat) (junk : Nat → List Nat) :
    (OBDLib_ReadDTC dev maxCodes junk).2.1 ≤ maxCodes
    ∧ (OBDLib_ReadDTC dev maxCodes junk).2.2.map Prod.fst
        = List.range (OBDLib_ReadDTC dev maxCodes junk).2.1
    ∧ ∀ w ∈ (OBDLib_ReadDTC dev maxCodes junk).2.2, w.2 ≠ 0 ∧ w.2 < 65536 :=
  readDtcPages_stores maxCodes junk 6 0 dev 0 [] (Nat.zero_le _) rfl
    (fun w hw => absurd hw (List.not_mem_nil w))

theorem getD_succ_tail (l : List (List Nat)) (i : Nat) :
    l.getD (i + 1) [] = l.tail.getD i [] := by
  cases l <;> simp

theorem getD_zero_headD (l : List (List Nat)) : l.getD 0 [] = l.headD [] := by
  cases l <;> simp

theorem dataPage_succ (k : Nat) (pending : List (List Nat)) :
    dataPage (k + 1) pending =
      if pageHasData (pending.headD []) = true then some 0
      else (dataPage k pending.tail).map (fun i => i + 1) := by
  unfold dataPage
  rw [List.range_succ_eq_map, List.map_cons, List.map_map, List.findIdx?_cons,
    getD_zero_headD, List.findIdx?_succ]
  have : ((fun i => pending.getD i []) ∘ Nat.succ) = fun i => pending.tail.getD i [] := by
    funext i
    exact getD_succ_tail pending i
  rw [this]

/-- The page loop of `OBDLib_ReadDTC` asks page after page until an answer
carries data, and decodes that answer only. -/
theorem readDtcPages_paging (maxCodes : Nat) (junk : Nat → List Nat) :
    ∀ (k n : Nat) (dev : ObdDevice),
      (readDtcPages maxCodes junk k n dev 0 []).1.written
          = dev.written ++ (List.range' n (pagesTried k dev.pending)).map dtcCommand
      ∧ (readDtcPages maxCodes junk k n dev 0 []).1.pending
          = dev.pending.drop (pagesTried k dev.pending)
      ∧ (readDtcPages maxCodes junk k n dev 0 []).2.2
          = match dataPage k dev.pending with
            | some i => pageCodes maxCodes junk (n + i) (dev.pending.getD i [])
            | none => [] := by
  intro k
  induction k with
  | zero =>
    intro n dev
    simp [readDtcPages, pagesTried, dataPage]
  | succ k ih =>
    intro n dev
    rw [readDtcPages_step]
    unfold pagesTried
    rw [dataPage_succ]
    by_cases hd : pageHasData (dev.pending.headD []) = true
    · rw [if_pos hd, if_pos hd]
      simp only [Nat.add_zero, getD_zero_headD, pageCodes, Nat.sub_zero, Nat.zero_add]
      cases strstr (storeAt (storeAt (junk n) (dtcCommand n ++ [0]))
          (List.take 127 (dev.pending.headD []) ++ [0])) (ascii "43") with
      | none => simp
      | some p => simp
    · rw [if_neg hd, if_neg hd]
      obtain ⟨i1, i2, i3⟩ := ih (n + 1)
        { written := dev.written ++ [dtcCommand n], pending := dev.pending.tail }
      unfold pagesTried at i1 i2
      simp only [] at i1 i2 i3
      rw [i1, i2, i3]
      cases hdp : dataPage k dev.pending.tail with
      | none =>
        simp only [Option.map_none']
        refine ⟨?_, ?_, trivial⟩
        · rw [List.range'_succ, List.map_cons]; simp
        · cases dev.pending <;> simp
      | some i =>
        simp only [Option.map_some']
        refine ⟨?_, ?_, ?_⟩
        · simp [List.range'_succ]
        · cases dev.pending <;> simp
        · rw [getD_succ_tail]
          congr 1
          omega

theorem pagesTried_bounds (k : Nat) (pending : List (List Nat)) (hk : 1 ≤ k) :
    1 ≤ pagesTried k pending ∧ pagesTried k pending ≤ k := by
  unfold pagesTried
  cases h : dataPage k pending with
  | none => exact ⟨hk, le_refl k⟩
  | some i =>
    have hlt : i < ((List.range k).map (fun i => pending.getD i [])).length := by
      unfold dataPage at h
      by_contra hge
      have := List.findIdx?_eq_some_iff_getElem.1 h
      obtain ⟨hi, _⟩ := this
      exact hge hi
    simp only [List.length_map, List.length_range] at hlt
    show 1 ≤ i + 1 ∧ i + 1 ≤ k
    exact ⟨by omega, by omega⟩

/-- C15 as stated fails: page 0 answers `"NO DATA"`, yet page 1 is requested
(`"0301\r"`) and its answer decoded. -/
theorem OBDLib_ReadDTC_pages_after_no_data :
    (OBDLib_ReadDTC ⟨[], [ascii "NO DATA\r\r>", ascii "43 02 01 08 01 09\r"]⟩ 5
        (fun _ => List.replicate 128 0)).1.written = [ascii "03\r", ascii "0301\r"]
    ∧ (OBDLib_ReadDTC ⟨[], [ascii "NO DATA\r\r>", ascii "43 02 01 08 01 09\r"]⟩ 5
        (fun _ => List.replicate 128 0)).2 = (2, [(0, 0x0108), (1, 0x0109)]) := by
  constructor <;> decide

/-- C15, amended. `OBDLib_ReadDTC` requests the pages `"03\r"`, `"0301\r"`, ... one
after the other, at most six; a page whose answer is empty or contains
`"NO DATA"` is skipped and the next page is requested; the first page whose
answer carries data is searched for `"43"` and decoded, and no further page
is requested after it. -/
theorem OBDLib_ReadDTC_paging (dev : ObdDevice) (maxCodes : Nat) (junk : Nat → List Nat) :
    (OBDLib_ReadDTC dev maxCodes junk).1.written
        = dev.written ++ (List.range (pagesTried 6 dev.pending)).map dtcCommand
    ∧ (OBDLib_ReadDTC dev maxCodes junk).1.pending
        = dev.pending.drop (pagesTried 6 dev.pending)
    ∧ (OBDLib_ReadDTC dev maxCodes junk).2.2
        = (match dataPage 6 dev.pending with
          | some i => pageCodes maxCodes junk i (dev.pending.getD i [])
          | none => [])
    ∧ 1 ≤ pagesTried 6 dev.pending ∧ pagesTried 6 dev.pending ≤ 6 := by
  obtain ⟨h1, h2, h3⟩ := readDtcPages_paging maxCodes junk 6 0 dev
  refine ⟨?_, h2, ?_, pagesTried_bounds 6 dev.pending (by norm_num)⟩
  · rw [List.range_eq_range']; exact h1
  · rw [OBDLib_ReadDTC, h3]
    cases dataPage 6 dev.pending with
    | none => rfl
    | some i => simp

/-- C14 as stated fails: for the answer `"43 01 08 01 09\r"` the byte behind
`"43"` is skipped as a count, and the words read six characters apart are
`0x0801` and `0x0009`. -/
theorem OBDLib_ReadDTC_without_count_byte :
    (OBDLib_ReadDTC ⟨[], [ascii "43 01 08 01 09\r"]⟩ 2 (fun _ => List.replicate 128 0)).2
      = (2, [(0, 0x0801), (1, 0x0009)]) := by
  decide

/-- C14, amended. When the first DTC page returns `"43 02 01 08 01 09\r"`, the
answer with its count byte, and `maxCodes ≥ 2`, `OBDLib_ReadDTC` returns 2 with
the codes `[0x0108, 0x0109]` after the single request `"03\r"`: decoding stops
at the end of the text, where the word read is zero. -/
theorem OBDLib_ReadDTC_two_codes (dev : ObdDevice) (more : List (List Nat)) (maxCodes : Nat)
    (junk : Nat → List Nat) (hp : dev.pending = ascii "43 02 01 08 01 09\r" :: more)
    (hm : 2 ≤ maxCodes) :
    OBDLib_ReadDTC dev maxCodes junk
      = ({ written := dev.written ++ [ascii "03\r"], pending := more }, 2,
          [(0, 0x0108), (1, 0x0109)]) := by
  obtain ⟨m, rfl⟩ : ∃ m, maxCodes = m + 2 := ⟨maxCodes - 2, by omega⟩
  have hd : pageHasData (ascii "43 02 01 08 01 09\r") = true := by decide
  have ht : List.take 127 (ascii "43 02 01 08 01 09\r") ++ [0]
      = [52, 51, 32, 48, 50, 32, 48, 49, 32, 48, 56, 32, 48, 49, 32, 48, 57, 13, 0] := by
    decide
  have hc : dtcCommand 0 = ascii "03\r" := by decide
  have hs : ∀ t : List Nat,
      strstr ([52, 51, 32, 48, 50, 32, 48, 49, 32, 48, 56, 32, 48, 49, 32, 48, 57, 13, 0] ++ t)
        (ascii "43")
      = some ([52, 51, 32, 48, 50, 32, 48, 49, 32, 48, 56, 32, 48, 49, 32, 48, 57, 13, 0] ++ t) := by
    intro t
    have e : ascii "43" = [52, 51] := by decide
    rw [e]
    simp [strstr, List.isPrefixOf]
  have h1 : ∀ t : List Nat, hex2uint16 (48 :: 49 :: 32 :: 48 :: 56 :: t) = 0x0108 := by
    intro t
    rw [hex2uint16_eq_value]
    simp [hexWordDigits, List.takeWhile_cons, isHexDigit, hexDigitsValue, hexValue]
  have h2 : ∀ t : List Nat, hex2uint16 (48 :: 49 :: 32 :: 48 :: 57 :: 13 :: t) = 0x0109 := by
    intro t
    rw [hex2uint16_eq_value]
    simp [hexWordDigits, List.takeWhile_cons, isHexDigit, hexDigitsValue, hexValue]
  have h3 : ∀ t : List Nat, hex2uint16 (0 :: t) = 0 := by
    intro t
    simp [hex2uint16, hex2uint16Loop]
  have hdec : ∀ t : List Nat,
      dtcDecode (m + 2) 0
        ([52, 51, 32, 48, 50, 32, 48, 49, 32, 48, 56, 32, 48, 49, 32, 48, 57, 13, 0] ++ t)
      = [(0, 0x0108), (1, 0x0109)] := by
    intro t
    cases m with
    | zero => simp [dtcDecode, deref, h1, h2]
    | succ k => simp [dtcDecode, deref, h1, h2, h3]
  rw [OBDLib_ReadDTC, readDtcPages_step, hp, List.headD_cons, if_pos hd, ht, hc, storeAt,
    hs, Nat.sub_zero]
  simp only [hdec]
  rfl

/-- The instance of amended C14 at a fresh channel, room for eight codes and
a buffer that starts full of `0xFF`. -/
theorem OBDLib_ReadDTC_two_codes_witness :
    OBDLib_ReadDTC ⟨[], [ascii "43 02 01 08 01 09\r"]⟩ 8 (fun _ => List.replicate 128 255)
      = ({ written := [] ++ [ascii "03\r"], pending := [] }, 2, [(0, 0x0108), (1, 0x0109)]) :=
  OBDLib_ReadDTC_two_codes ⟨[], [ascii "43 02 01 08 01 09\r"]⟩ [] 8
    (fun _ => List.replicate 128 255) rfl (by decide)

/-! ### `OBDLib_Init` -/

theorem initResetLoop_fail :
    ∀ (m : Nat) (dev : ObdDevice) (buffer : List Nat),
      (∀ i < m, (dev.pending.getD i []).take 63 = []) →
      initResetLoop m dev buffer
        = ({ written := dev.written ++ List.replicate m (ascii "ATZ\r"),
             pending := dev.pending.drop m }, false, buffer) := by
  intro m
  induction m with
  | zero => intro dev buffer _; simp [initResetLoop]
  | succ m ih =>
    intro dev buffer h
    have h0 : dev.response 64 = [] := by
      have := h 0 (Nat.succ_pos m)
      rwa [getD_zero_headD] at this
    rw [initResetLoop, OBDLib_SendCommand_eq dev _ _ 64 (by decide) (by norm_num), h0]
    simp only [List.length_nil, if_true, gt_iff_lt, Nat.lt_irrefl, if_false]
    rw [ih _ _ (fun i hi => by
      have := h (i + 1) (by omega)
      rwa [getD_succ_tail] at this)]
    have e : cstring (ascii "ATZ\r") = ascii "ATZ\r" := by decide
    simp [e, List.replicate_succ]

theorem initResetLoop_ok :
    ∀ (m k : Nat) (dev : ObdDevice) (buffer : List Nat), k < m →
      (∀ i < k, (dev.pending.getD i []).take 63 = []) →
      (dev.pending.getD k []).take 63 ≠ [] →
      initResetLoop m dev buffer
        = ({ written := dev.written ++ List.replicate (k + 1) (ascii "ATZ\r"),
             pending := dev.pending.drop (k + 1) }, true,
           storeAt buffer ((dev.pending.getD k []).take 63 ++ [0])) := by
  intro m
  induction m with
  | zero => intro k dev buffer hk; omega
  | succ m ih =>
    intro k dev buffer hk h hne
    have e : cstring (ascii "ATZ\r") = ascii "ATZ\r" := by decide
    rw [initResetLoop, OBDLib_SendCommand_eq dev _ _ 64 (by decide) (by norm_num), e]
    cases k with
    | zero =>
      have h0 : dev.response 64 ≠ [] := by
        rwa [getD_zero_headD] at hne
      have hl : (dev.response 64).length ≠ 0 := fun hh => h0 (List.length_eq_zero.1 hh)
      simp only [if_neg hl, gt_iff_lt, Nat.pos_of_ne_zero hl, if_true]
      rw [getD_zero_headD, List.drop_one]
      rfl
    | succ k =>
      have h0 : dev.response 64 = [] := by
        have := h 0 (Nat.succ_pos k)
        rwa [getD_zero_headD] at this
      rw [h0]
      simp only [List.length_nil, if_true, gt_iff_lt, Nat.lt_irrefl, if_false]
      rw [ih k _ _ (by omega) (fun i hi => by
        have := h (i + 1) (by omega)
        rwa [getD_succ_tail] at this) (by rwa [getD_succ_tail] at hne)]
      simp only [getD_succ_tail]
      cases dev.pending <;> simp [List.replicate_succ]

theorem initSendLoop_initcmd (dev : ObdDevice) (buffer : List Nat) :
    (initSendLoop initcmd dev buffer).1
      = { written := dev.written ++ [ascii "ATE0\r", ascii "ATH0\r"],
          pending := dev.pending.drop 2 } := by
  have e1 : cstring (ascii "ATE0\r") = ascii "ATE0\r" := by decide
  have e2 : cstring (ascii "ATH0\r") = ascii "ATH0\r" := by decide
  simp only [initcmd, initSendLoop]
  rw [OBDLib_SendCommand_eq dev _ _ 64 (by decide) (by norm_num)]
  simp only []
  rw [OBDLib_SendCommand_eq _ _ _ 64 (by decide) (by norm_num)]
  simp only [e1, e2]
  cases dev.pending with
  | nil => simp
  | cons a t => cases t <;> simp

/-- What a call of `OBDLib_ReadPID` does to the channel, and that its flag
depends on the answer only. -/
theorem OBDLib_ReadPID_channel (K : PidTable) (dev : ObdDevice) (pid : Nat) (pResult : Int) :
    (OBDLib_ReadPID K dev pid pResult).1
        = { written := dev.written ++ [fmt02X dataMode ++ fmt02X pid ++ [13]],
            pending := dev.pending.tail }
    ∧ (OBDLib_ReadPID K dev pid pResult).2.1 = probeOk K pid (dev.pending.headD []) := by
  have hr : (⟨[], [dev.pending.headD []]⟩ : ObdDevice).response 64 = dev.response 64 := rfl
  unfold probeOk
  rw [OBDLib_ReadPID_eq, OBDLib_ReadPID_eq]
  simp only [hr]
  generalize dev.response 64 = resp
  by_cases h0 : resp.length = 0
  · rw [if_pos h0, if_pos h0]
    exact ⟨rfl, rfl⟩
  · rw [if_neg h0, if_neg h0]
    by_cases h1 : checkErrorMessage (resp ++
        0 :: List.drop (resp.length + 1) (fmt02X dataMode ++ fmt02X pid ++ [13] ++ [0])) = 0
    · rw [if_pos h1, if_pos h1]
      cases scanPid pid _ _ with
      | none => exact ⟨rfl, rfl⟩
      | some d => exact ⟨rfl, rfl⟩
    · rw [if_neg h1, if_neg h1]
      exact ⟨rfl, rfl⟩

theorem initProbeLoop_fail (K : PidTable) (pid : Nat) :
    ∀ (m : Nat) (dev : ObdDevice) (value : Int),
      (∀ i < m, probeOk K pid (dev.pending.getD i []) = false) →
      initProbeLoop K pid m dev value
        = ({ written := dev.written
               ++ List.replicate m (fmt02X dataMode ++ fmt02X pid ++ [13]),
             pending := dev.pending.drop m }, false) := by
  intro m
  induction m with
  | zero => intro dev value _; simp [initProbeLoop]
  | succ m ih =>
    intro dev value h
    obtain ⟨c1, c2⟩ := OBDLib_ReadPID_channel K dev pid value
    have h0 : probeOk K pid (dev.pending.headD []) = false := by
      have := h 0 (Nat.succ_pos m)
      rwa [getD_zero_headD] at this
    rw [h0] at c2
    rw [initProbeLoop]
    generalize OBDLib_ReadPID K dev pid value = q at c1 c2 ⊢
    obtain ⟨d, ok, v⟩ := q
    simp only [] at c1 c2 ⊢
    subst c1 c2
    rw [if_neg (by decide), ih _ _ (fun i hi => by
      have := h (i + 1) (by omega)
      rwa [getD_succ_tail] at this)]
    simp only []
    cases dev.pending <;> simp [List.replicate_succ]

theorem initProbeLoop_ok (K : PidTable) (pid : Nat) :
    ∀ (m j : Nat) (dev : ObdDevice) (value : Int), j < m →
      (∀ i < j, probeOk K pid (dev.pending.getD i []) = false) →
      probeOk K pid (dev.pending.getD j []) = true →
      initProbeLoop K pid m dev value
        = ({ written := dev.written
               ++ List.replicate (j + 1) (fmt02X dataMode ++ fmt02X pid ++ [13]),
             pending := dev.pending.drop (j + 1) }, true) := by
  intro m
  induction m with
  | zero => intro j dev value hj; omega
  | succ m ih =>
    intro j dev value hj h hok
    obtain ⟨c1, c2⟩ := OBDLib_ReadPID_channel K dev pid value
    rw [initProbeLoop]
    cases j with
    | zero =>
      rw [getD_zero_headD] at hok
      rw [hok] at c2
      generalize OBDLib_ReadPID K dev pid value = q at c1 c2 ⊢
      obtain ⟨d, ok, v⟩ := q
      simp only [] at c1 c2 ⊢
      subst c1 c2
      rw [if_pos rfl, List.drop_one]
      rfl
    | succ j =>
      have h0 : probeOk K pid (dev.pending.headD []) = false := by
        have := h 0 (Nat.succ_pos j)
        rwa [getD_zero_headD] at this
      rw [h0] at c2
      generalize OBDLib_ReadPID K dev pid value = q at c1 c2 ⊢
      obtain ⟨d, ok, v⟩ := q
      simp only [] at c1 c2 ⊢
      subst c1 c2
      rw [if_neg (by decide), ih j _ _ (by omega) (fun i hi => by
        have := h (i + 1) (by omega)
        rwa [getD_succ_tail] at this) (by rwa [getD_succ_tail] at hok)]
      simp only []
      cases dev.pending <;> simp [List.replicate_succ]

theorem getD_drop_pending (l : List (List Nat)) (n i : Nat) :
    (l.drop n).getD i [] = l.getD (n + i) [] := by
  induction n generalizing l with
  | zero => simp
  | succ n ih =>
    cases l with
    | nil => simp
    | cons a t =>
      rw [List.drop_succ_cons, ih, show n + 1 + i = (n + i) + 1 by omega, List.getD_cons_succ]

theorem cstring_idem (p : List Nat) : cstring (cstring p) = cstring p := by
  induction p with
  | nil => rfl
  | cons c t ih =>
    by_cases h : c = 0
    · simp [cstring_cons, h, cstring]
    · rw [cstring_cons, if_neg h, cstring_cons, if_neg h, ih]

theorem strstr_isSome_cstring (needle hay : List Nat) (h0 : 0 ∉ needle) :
    (strstr hay needle).isSome = (strstr (cstring hay) needle).isSome := by
  have h1 := strstr_isSome_iff needle hay h0
  have h2 := strstr_isSome_iff needle (cstring hay) h0
  rw [cstring_idem] at h2
  cases ha : (strstr hay needle).isSome with
  | true =>
    exact (h2.2 (h1.1 ha)).symm
  | false =>
    cases hb : (strstr (cstring hay) needle).isSome with
    | false => rfl
    | true => rw [h1.2 (h2.1 hb)] at ha; exact absurd ha (by decide)

/-- The classifier looks at the string in the buffer only. -/
theorem checkErrorMessage_cstring (buffer : List Nat) :
    checkErrorMessage buffer = checkErrorMessage (cstring buffer) := by
  simp only [checkErrorMessage, checkErrorLoop, errmsg]
  rw [strstr_isSome_cstring (ascii "UNABLE") buffer (by decide),
    strstr_isSome_cstring (ascii "ERROR") buffer (by decide),
    strstr_isSome_cstring (ascii "TIMEOUT") buffer (by decide),
    strstr_isSome_cstring (ascii "NO DATA") buffer (by decide)]

theorem cstring_bankCommand (mem : List Nat) (i : Nat) :
    cstring (storeAt mem (bankCommand i ++ [0])) = bankCommand i := by
  rw [cstring_storeAt_nul, bankCommand]
  have h := cstring_fmt (i * 32 % 256)
  rw [cstring_append_nul] at h
  exact h

/-- A bank whose query text holds no error token and no `"41 "`. -/
theorem bank_quiet : ∀ i ∈ List.range 8,
    checkErrorMessage (bankCommand i) = 0
    ∧ (strstr (bankCommand i) (ascii "41 ")).isSome = false := by
  decide

/-- The bank loop writes one query per bank, reads nothing and leaves `pidmap`
as it is: the buffer it classifies and scans holds the query itself. -/
theorem initBankLoop_eq :
    ∀ (banks : List Nat) (dev : ObdDevice) (buffer pidmap : List Nat),
      (∀ i ∈ banks, checkErrorMessage (bankCommand i) = 0
        ∧ (strstr (bankCommand i) (ascii "41 ")).isSome = false) →
      (initBankLoop banks dev buffer pidmap).1
          = { written := dev.written ++ banks.map bankCommand, pending := dev.pending }
      ∧ (initBankLoop banks dev buffer pidmap).2.2 = pidmap := by
  intro banks
  induction banks with
  | nil => intro dev buffer pidmap _; simp [initBankLoop]
  | cons i more ih =>
    intro dev buffer pidmap h
    obtain ⟨q1, q2⟩ := h i (by simp)
    have hcs := cstring_bankCommand buffer i
    have hb : storeAt buffer (fmt02X dataMode ++ fmt02X (i * 32 % 256) ++ [13] ++ [0])
        = storeAt buffer (bankCommand i ++ [0]) := rfl
    have hce : checkErrorMessage (storeAt buffer (bankCommand i ++ [0])) = 0 := by
      rw [checkErrorMessage_cstring, hcs]; exact q1
    have hss : strstr (storeAt buffer (bankCommand i ++ [0])) (ascii "41 ") = none := by
      have := strstr_isSome_cstring (ascii "41 ") (storeAt buffer (bankCommand i ++ [0]))
        (by decide)
      rw [hcs, q2] at this
      cases hh : strstr (storeAt buffer (bankCommand i ++ [0])) (ascii "41 ") with
      | none => rfl
      | some q => rw [hh] at this; exact absurd this (by simp)
    rw [initBankLoop]
    simp only [hb, hce, ne_eq, not_true_eq_false, if_false, hcs]
    have hscan : pidmapScan (i * 32 % 256) i
        ((storeAt buffer (bankCommand i ++ [0])).length + 1)
        (storeAt buffer (bankCommand i ++ [0])) pidmap = pidmap := by
      rw [pidmapScan, hss]
    rw [hscan]
    obtain ⟨i1, i2⟩ := ih (FreeRTOS_write dev (bankCommand i))
      (storeAt buffer (bankCommand i ++ [0])) pidmap (fun x hx => h x (by simp [hx]))
    rw [i1, i2]
    simp [FreeRTOS_write]

/-- The codes `OBDLib_Init` can return: the code -2 is not among them. -/
theorem OBDLib_Init_codes (K : PidTable) (PID_SPEED : Nat) (dev : ObdDevice) :
    (OBDLib_Init K PID_SPEED dev).2.1 = -1 ∨ (OBDLib_Init K PID_SPEED dev).2.1 = -3
      ∨ (OBDLib_Init K PID_SPEED dev).2.1 = 0 := by
  unfold OBDLib_Init
  simp only []
  split_ifs
  · exact Or.inr (Or.inr rfl)
  · exact Or.inr (Or.inl rfl)
  · exact Or.inl rfl

/-- The run of `OBDLib_Init` once the soft reset has been answered at attempt
`k`: the two link-configuration commands follow, whatever is answered to them,
and then the probe loop decides between the code -3 and the bank scan. -/
theorem OBDLib_Init_after_reset (K : PidTable) (PID_SPEED : Nat) (dev : ObdDevice) (k : Nat)
    (hk : k < 10) (h1 : ∀ i < k, (dev.pending.getD i []).take 63 = [])
    (h2 : (dev.pending.getD k []).take 63 ≠ []) :
    ∃ buffer,
      OBDLib_Init K PID_SPEED dev =
        if (initProbeLoop K PID_SPEED 5
            { written := dev.written ++ List.replicate (k + 1) (ascii "ATZ\r")
                ++ [ascii "ATE0\r", ascii "ATH0\r"],
              pending := dev.pending.drop (k + 3) } 0).2 = true then
          ((initBankLoop (List.range 8)
            (initProbeLoop K PID_SPEED 5
              { written := dev.written ++ List.replicate (k + 1) (ascii "ATZ\r")
                  ++ [ascii "ATE0\r", ascii "ATH0\r"],
                pending := dev.pending.drop (k + 3) } 0).1 buffer (List.replicate 32 0xff)).1,
           0,
           (initBankLoop (List.range 8)
            (initProbeLoop K PID_SPEED 5
              { written := dev.written ++ List.replicate (k + 1) (ascii "ATZ\r")
                  ++ [ascii "ATE0\r", ascii "ATH0\r"],
                pending := dev.pending.drop (k + 3) } 0).1 buffer
              (List.replicate 32 0xff)).2.2)
        else
          ((initProbeLoop K PID_SPEED 5
            { written := dev.written ++ List.replicate (k + 1) (ascii "ATZ\r")
                ++ [ascii "ATE0\r", ascii "ATH0\r"],
              pending := dev.pending.drop (k + 3) } 0).1, -3, List.replicate 32 0) := by
  unfold OBDLib_Init
  simp only []
  rw [initResetLoop_ok 10 k dev [] hk h1 h2]
  simp only [if_true]
  rw [initSendLoop_initcmd]
  simp only [List.drop_drop, show 2 + (k + 1) = k + 3 by omega]
  exact ⟨_, rfl⟩

/-- The probe loop writes its query once per attempt and takes one answer per
attempt, whatever the outcome. -/
theorem initProbeLoop_channel (K : PidTable) (pid : Nat) :
    ∀ (m : Nat) (dev : ObdDevice) (value : Int),
      ∃ j, j ≤ m ∧ (initProbeLoop K pid m dev value).1
        = { written := dev.written
              ++ List.replicate j (fmt02X dataMode ++ fmt02X pid ++ [13]),
            pending := dev.pending.drop j } := by
  intro m
  induction m with
  | zero => intro dev value; exact ⟨0, le_refl 0, by simp [initProbeLoop]⟩
  | succ m ih =>
    intro dev value
    obtain ⟨c1, -⟩ := OBDLib_ReadPID_channel K dev pid value
    rw [initProbeLoop]
    generalize OBDLib_ReadPID K dev pid value = q at c1 ⊢
    obtain ⟨d, ok, v⟩ := q
    simp only [] at c1 ⊢
    subst c1
    cases ok with
    | true =>
      refine ⟨1, by omega, ?_⟩
      rw [if_pos rfl, List.drop_one]
      rfl
    | false =>
      rw [if_neg (by decide)]
      obtain ⟨j, hj, he⟩ := ih
        { written := dev.written ++ [fmt02X dataMode ++ fmt02X pid ++ [13]],
          pending := dev.pending.tail } v
      refine ⟨j + 1, by omega, ?_⟩
      rw [he]
      cases dev.pending <;> simp [List.replicate_succ]

/-- C17. If the soft-reset command `"ATZ\r"` yields zero bytes on all 10
attempts, `OBDLib_Init` returns -1 after exactly 10 reset commands and sends
nothing else; as soon as one attempt yields bytes, no further reset is sent:
the link-configuration commands follow and the code is not -1. -/
theorem OBDLib_Init_reset (K : PidTable) (PID_SPEED : Nat) (dev : ObdDevice) :
    ((∀ i < 10, (dev.pending.getD i []).take 63 = []) →
        OBDLib_Init K PID_SPEED dev
          = ({ written := dev.written ++ List.replicate 10 (ascii "ATZ\r"),
               pending := dev.pending.drop 10 }, -1, List.replicate 32 0))
    ∧ (∀ k < 10, (∀ i < k, (dev.pending.getD i []).take 63 = []) →
        (dev.pending.getD k []).take 63 ≠ [] →
        ∃ rest, (OBDLib_Init K PID_SPEED dev).1.written
            = dev.written ++ List.replicate (k + 1) (ascii "ATZ\r")
                ++ [ascii "ATE0\r", ascii "ATH0\r"] ++ rest
          ∧ ascii "ATZ\r" ∉ rest
          ∧ (OBDLib_Init K PID_SPEED dev).2.1 ≠ -1) := by
  constructor
  · intro h
    unfold OBDLib_Init
    simp only []
    rw [initResetLoop_fail 10 dev [] h]
    simp
  · intro k hk h1 h2
    obtain ⟨buffer, he⟩ := OBDLib_Init_after_reset K PID_SPEED dev k hk h1 h2
    have hatz : ascii "ATZ\r" = [65, 84, 90, 13] := by decide
    have hcmd : ascii "ATZ\r" ≠ fmt02X dataMode ++ fmt02X PID_SPEED ++ [13] := by
      rw [hatz]
      simp [fmt02X, dataMode, hexDigitUpper]
    have hbank : ascii "ATZ\r" ∉ (List.range 8).map bankCommand := by decide
    obtain ⟨j, -, hp⟩ := initProbeLoop_channel K PID_SPEED 5
      { written := dev.written ++ List.replicate (k + 1) (ascii "ATZ\r")
          ++ [ascii "ATE0\r", ascii "ATH0\r"],
        pending := dev.pending.drop (k + 3) } 0
    rw [he]
    split_ifs
    · obtain ⟨b1, -⟩ := initBankLoop_eq (List.range 8) _ buffer (List.replicate 32 0xff)
        bank_quiet
      refine ⟨List.replicate j (fmt02X dataMode ++ fmt02X PID_SPEED ++ [13])
        ++ (List.range 8).map bankCommand, ?_, ?_, by simp⟩
      · simp only []
        rw [b1, hp]
        simp
      · intro hmem
        rcases List.mem_append.1 hmem with hm | hm
        · exact hcmd (List.eq_of_mem_replicate hm)
        · exact hbank hm
    · refine ⟨List.replicate j (fmt02X dataMode ++ fmt02X PID_SPEED ++ [13]), ?_, ?_,
        by simp⟩
      · simp only []
        rw [hp]
      · intro hm
        exact hcmd (List.eq_of_mem_replicate hm)

/-- The instance of C17 at a channel that never answers and at one that
answers the third reset. -/
theorem OBDLib_Init_reset_witness :
    OBDLib_Init j1979 0x0D ⟨[], []⟩
        = ({ written := [] ++ List.replicate 10 (ascii "ATZ\r"), pending := [] }, -1,
            List.replicate 32 0)
    ∧ ∃ rest, (OBDLib_Init j1979 0x0D ⟨[], [[], [], ascii "ELM327 v1.5\r\r>"]⟩).1.written
          = [] ++ List.replicate 3 (ascii "ATZ\r") ++ [ascii "ATE0\r", ascii "ATH0\r"] ++ rest
        ∧ ascii "ATZ\r" ∉ rest
        ∧ (OBDLib_Init j1979 0x0D ⟨[], [[], [], ascii "ELM327 v1.5\r\r>"]⟩).2.1 ≠ -1 :=
  ⟨(OBDLib_Init_reset j1979 0x0D ⟨[], []⟩).1 (by decide),
   (OBDLib_Init_reset j1979 0x0D ⟨[], [[], [], ascii "ELM327 v1.5\r\r>"]⟩).2 2 (by decide)
     (by decide) (by decide)⟩

/-- C18 as stated fails: the reset is answered, all five probes fail, and the
code returned is -3, not -2. -/
theorem OBDLib_Init_probe_code :
    (OBDLib_Init j1979 0x0D ⟨[], [ascii "ELM327 v1.5\r\r>"]⟩).2.1 = -3
    ∧ (OBDLib_Init j1979 0x0D ⟨[], [ascii "ELM327 v1.5\r\r>"]⟩).1.written
        = [ascii "ATZ\r", ascii "ATE0\r", ascii "ATH0\r", ascii "010D\r", ascii "010D\r",
            ascii "010D\r", ascii "010D\r", ascii "010D\r"] := by
  constructor <;> decide

/-- C18, amended. If the soft reset succeeds (at attempt `k`) and all 5 probe
attempts fail, `OBDLib_Init` makes exactly 5 probe attempts and returns -3, the
code of the test made in front of the bank scan; whatever the channel answers
to `"ATE0\r"` and `"ATH0\r"`, sent before the probe, does not matter.  The code
-2 is never returned. -/
theorem OBDLib_Init_probe_fails (K : PidTable) (PID_SPEED : Nat) (dev : ObdDevice) (k : Nat)
    (hk : k < 10) (h1 : ∀ i < k, (dev.pending.getD i []).take 63 = [])
    (h2 : (dev.pending.getD k []).take 63 ≠ [])
    (h3 : ∀ i < 5, probeOk K PID_SPEED (dev.pending.getD (k + 3 + i) []) = false) :
    OBDLib_Init K PID_SPEED dev
        = ({ written := dev.written ++ List.replicate (k + 1) (ascii "ATZ\r")
               ++ [ascii "ATE0\r", ascii "ATH0\r"]
               ++ List.replicate 5 (fmt02X dataMode ++ fmt02X PID_SPEED ++ [13]),
             pending := dev.pending.drop (k + 8) }, -3, List.replicate 32 0)
    ∧ ∀ dev2, (OBDLib_Init K PID_SPEED dev2).2.1 ≠ -2 := by
  constructor
  · obtain ⟨buffer, he⟩ := OBDLib_Init_after_reset K PID_SPEED dev k hk h1 h2
    rw [he, initProbeLoop_fail K PID_SPEED 5 _ 0 (fun i hi => by
      simp only [getD_drop_pending]
      exact h3 i hi)]
    simp only [List.drop_drop, show 5 + (k + 3) = k + 8 by omega]
    rfl
  · intro dev2
    rcases OBDLib_Init_codes K PID_SPEED dev2 with h | h | h <;> rw [h] <;> decide

/-- The instance of amended C18 at a channel that answers the second reset,
then `"OK"` twice, then `"NO DATA"` to every probe. -/
theorem OBDLib_Init_probe_fails_witness :
    OBDLib_Init j1979 0x0D
        ⟨[], [[], ascii "ELM327\r\r>", ascii "OK\r\r>", ascii "OK\r\r>", ascii "NO DATA\r\r>",
          ascii "NO DATA\r\r>", ascii "NO DATA\r\r>", ascii "NO DATA\r\r>",
          ascii "NO DATA\r\r>"]⟩
      = ({ written := [] ++ List.replicate 2 (ascii "ATZ\r")
             ++ [ascii "ATE0\r", ascii "ATH0\r"]
             ++ List.replicate 5 (fmt02X dataMode ++ fmt02X 0x0D ++ [13]),
           pending := [] }, -3, List.replicate 32 0) :=
  (OBDLib_Init_probe_fails j1979 0x0D
    ⟨[], [[], ascii "ELM327\r\r>", ascii "OK\r\r>", ascii "OK\r\r>", ascii "NO DATA\r\r>",
      ascii "NO DATA\r\r>", ascii "NO DATA\r\r>", ascii "NO DATA\r\r>",
      ascii "NO DATA\r\r>"]⟩ 1 (by decide) (by decide) (by decide) (by decide)).1

/-- C19. Once the soft reset (at attempt `k`) and the speed probe (at attempt
`j`) have succeeded, `OBDLib_Init` writes the bank queries `"0100\r"`, `"0120\r"`,
`"0140\r"`, `"0160\r"`, `"0180\r"`, `"01A0\r"`, `"01C0\r"`, `"01E0\r"` in this
order and returns 0, whatever answers the channel holds for them: they are left
unread and the bank map stays at `0xFF`. -/
theorem OBDLib_Init_ready (K : PidTable) (PID_SPEED : Nat) (dev : ObdDevice) (k j : Nat)
    (hk : k < 10) (h1 : ∀ i < k, (dev.pending.getD i []).take 63 = [])
    (h2 : (dev.pending.getD k []).take 63 ≠ []) (hj : j < 5)
    (h3 : ∀ i < j, probeOk K PID_SPEED (dev.pending.getD (k + 3 + i) []) = false)
    (h4 : probeOk K PID_SPEED (dev.pending.getD (k + 3 + j) []) = true) :
    OBDLib_Init K PID_SPEED dev
      = ({ written := dev.written ++ List.replicate (k + 1) (ascii "ATZ\r")
             ++ [ascii "ATE0\r", ascii "ATH0\r"]
             ++ List.replicate (j + 1) (fmt02X dataMode ++ fmt02X PID_SPEED ++ [13])
             ++ [ascii "0100\r", ascii "0120\r", ascii "0140\r", ascii "0160\r",
                 ascii "0180\r", ascii "01A0\r", ascii "01C0\r", ascii "01E0\r"],
           pending := dev.pending.drop (k + 3 + (j + 1)) }, 0, List.replicate 32 0xff) := by
  obtain ⟨buffer, he⟩ := OBDLib_Init_after_reset K PID_SPEED dev k hk h1 h2
  have hb : (List.range 8).map bankCommand
      = [ascii "0100\r", ascii "0120\r", ascii "0140\r", ascii "0160\r",
         ascii "0180\r", ascii "01A0\r", ascii "01C0\r", ascii "01E0\r"] := by decide
  rw [he, initProbeLoop_ok K PID_SPEED 5 j _ 0 hj
    (fun i hi => by
      simp only [getD_drop_pending]
      exact h3 i hi)
    (by
      simp only [getD_drop_pending]
      exact h4)]
  obtain ⟨b1, b2⟩ := initBankLoop_eq (List.range 8)
    { written := dev.written ++ List.replicate (k + 1) (ascii "ATZ\r")
        ++ [ascii "ATE0\r", ascii "ATH0\r"]
        ++ List.replicate (j + 1) (fmt02X dataMode ++ fmt02X PID_SPEED ++ [13]),
      pending := List.drop (j + 1) (List.drop (k + 3) dev.pending) }
    buffer (List.replicate 32 0xff) bank_quiet
  simp only [if_true]
  rw [b1, b2, hb]
  simp only [List.drop_drop, show j + 1 + (k + 3) = k + 3 + (j + 1) by omega]

/-- The instance of C19 at a channel that answers the first reset and the
second probe, and holds an error answer for the first bank. -/
theorem OBDLib_Init_ready_witness :
    OBDLib_Init j1979 0x0D
        ⟨[], [ascii "ELM327\r\r>", [], [], ascii "SEARCHING...", ascii "41 0D 32\r\r>",
          ascii "UNABLE TO CONNECT\r\r>"]⟩
      = ({ written := [] ++ List.replicate 1 (ascii "ATZ\r")
             ++ [ascii "ATE0\r", ascii "ATH0\r"]
             ++ List.replicate 2 (fmt02X dataMode ++ fmt02X 0x0D ++ [13])
             ++ [ascii "0100\r", ascii "0120\r", ascii "0140\r", ascii "0160\r",
                 ascii "0180\r", ascii "01A0\r", ascii "01C0\r", ascii "01E0\r"],
           pending := [ascii "UNABLE TO CONNECT\r\r>"] }, 0, List.replicate 32 0xff) :=
  OBDLib_Init_ready j1979 0x0D
    ⟨[], [ascii "ELM327\r\r>", [], [], ascii "SEARCHING...", ascii "41 0D 32\r\r>",
      ascii "UNABLE TO CONNECT\r\r>"]⟩ 0 1 (by decide) (by decide) (by decide) (by decide)
    (by decide) (by decide)

/-! ### `uart_receive` -/

theorem cstring_take_prefix (b : List Nat) : ∀ k, cstring (b.take k) <+: cstring b := by
  induction b with
  | nil => intro k; simp
  | cons c t ih =>
    intro k
    cases k with
    | zero => simp [cstring]
    | succ k =>
      rw [List.take_succ_cons, cstring_cons, cstring_cons]
      split_ifs
      · exact List.prefix_refl _
      · exact (List.prefix_cons_inj c).2 (ih k)

/-- Loop invariant of `uart_receive`: at the top of every round the text
gathered so far holds no busy marker, so it holds none at any exit other than
the one taken when the terminator has come in. -/
theorem uartReceiveLoop_clean (bufsize startTime : Nat) :
    ∀ (ticks : List UartTick) (s : RecvState),
      ¬ ascii "..." <:+: s.text →
      (uartReceiveLoop bufsize startTime ticks s).exit ≠ RecvExit.terminator →
      ¬ ascii "..." <:+: (uartReceiveLoop bufsize startTime ticks s).text := by
  intro ticks
  induction ticks with
  | nil => intro s hs _; exact hs
  | cons t rest ih =>
    intro s hs
    rw [uartReceiveLoop]
    simp only []
    split_ifs with c1 c2
    · intro _; exact hs
    · intro _; exact hs
    · cases hread : t.read with
      | error => intro _; exact hs
      | bytes data =>
        simp only []
        split_ifs with c3 c4 c5
        · exact ih s hs
        · intro hx; exact absurd rfl hx
        · refine ih _ ?_
          intro hin
          have h0 : ascii "..." <:+: ([] : List Nat) := by
            simpa [RecvState.text, cstring] using hin
          exact absurd h0 (by decide)
        · refine ih _ ?_
          intro hin
          have hpre := cstring_take_prefix
            (storeFrom s.buffer s.n (List.take (bufsize - s.n - 1) data ++ [0]))
            ((s.n + (List.take (bufsize - s.n - 1) data).length) % 256)
          have := strstr_isSome_of_infix (ascii "...") _ (hin.trans hpre.isInfix)
          exact c5 this

/-- C20 as stated fails: delivered in a single read, `"BUS INIT: ...OK\r\r>"`
brings the terminator along, the loop ends before the marker test, and the
buffer is returned whole, marker included, with the budget as it was. -/
theorem uart_receive_marker_with_terminator :
    (uart_receive (List.replicate 64 0) 64 1000 0
        [⟨0, UartRead.bytes (ascii "BUS INIT: ...OK\r\r>")⟩]).text
      = ascii "BUS INIT: ...OK\r\r>"
    ∧ (uart_receive (List.replicate 64 0) 64 1000 0
        [⟨0, UartRead.bytes (ascii "BUS INIT: ...OK\r\r>")⟩]).timeout = 1000
    ∧ ascii "..." <:+: (uart_receive (List.replicate 64 0) 64 1000 0
        [⟨0, UartRead.bytes (ascii "BUS INIT: ...OK\r\r>")⟩]).text := by
  refine ⟨by decide, by decide, by decide⟩

/-- C20, amended. When a read that does not bring the terminator `"\r>"` leaves
the busy marker `"..."` in the buffer, everything gathered so far is dropped;
so the text `uart_receive` returns holds no `"..."` unless the loop was left on
the terminator (the read that brings the terminator ends the loop before the
marker test).  For `"BUS INIT: ...OK\r\r>"` delivered as the two reads
`"BUS INIT: ..."` and `"OK\r\r>"` the buffer is cleared, the budget grows by
10000, and the text returned is `"OK\r\r>"`. -/
theorem uart_receive_clean (buffer : List Nat) (bufsize timeout startTime : Nat)
    (ticks : List UartTick) :
    ((uart_receive buffer bufsize timeout startTime ticks).exit ≠ RecvExit.terminator →
        ¬ ascii "..." <:+: (uart_receive buffer bufsize timeout startTime ticks).text)
    ∧ (uart_receive (List.replicate 64 0) 64 1000 0
          [⟨0, UartRead.bytes (ascii "BUS INIT: ...")⟩,
           ⟨3, UartRead.bytes (ascii "OK\r\r>")⟩]).text = ascii "OK\r\r>"
    ∧ (uart_receive (List.replicate 64 0) 64 1000 0
          [⟨0, UartRead.bytes (ascii "BUS INIT: ...")⟩,
           ⟨3, UartRead.bytes (ascii "OK\r\r>")⟩]).n = 5
    ∧ (uart_receive (List.replicate 64 0) 64 1000 0
          [⟨0, UartRead.bytes (ascii "BUS INIT: ...")⟩,
           ⟨3, UartRead.bytes (ascii "OK\r\r>")⟩]).timeout = 1000 + 10000 := by
  refine ⟨?_, by decide, by decide, by decide⟩
  refine uartReceiveLoop_clean bufsize startTime ticks _ ?_
  intro hin
  have h0 : ascii "..." <:+: ([] : List Nat) := by
    simpa [RecvState.text, cstring] using hin
  exact absurd h0 (by decide)

/-- The instance of amended C20 at a run that gathers `"SEARCHING..."` in two
reads and then times out. -/
theorem uart_receive_clean_witness :
    ¬ ascii "..." <:+: (uart_receive (List.replicate 64 0) 64 1000 7
        [⟨7, UartRead.bytes (ascii "SEARCHING.")⟩, ⟨9, UartRead.bytes (ascii "..")⟩,
         ⟨20000, UartRead.bytes (ascii "41 0D 32\r\r>")⟩]).text :=
  (uart_receive_clean (List.replicate 64 0) 64 1000 7
    [⟨7, UartRead.bytes (ascii "SEARCHING.")⟩, ⟨9, UartRead.bytes (ascii "..")⟩,
     ⟨20000, UartRead.bytes (ascii "41 0D 32\r\r>")⟩]).1 (by decide)

/-! ### `ODBLib_GetVIN` -/

theorem skip_lt_or_nul (p : List Nat) :
    (skipSpaces (skipToSpace p)).length < p.length
      ∨ deref (skipSpaces (skipToSpace p)) = 0 := by
  cases p with
  | nil => right; rfl
  | cons c t =>
    by_cases h0 : c = 0
    · right
      subst h0
      simp [skipToSpace, skipSpaces, deref]
    · by_cases h1 : c = 32
      · left
        subst h1
        have := skipSpaces_length t
        simp only [skipToSpace, skipSpaces, ne_eq, not_true_eq_false, and_false, if_false,
          if_true, List.length_cons]
        omega
      · left
        have h2 := skipToSpace_length t
        have h3 := skipSpaces_length (skipToSpace t)
        rw [skipToSpace, if_pos ⟨h0, h1⟩, List.length_cons]
        omega

theorem vinLine_snd_length :
    ∀ (fuel : Nat) (p : List Nat), (vinLine fuel p).2.length ≤ p.length := by
  intro fuel
  induction fuel with
  | zero => intro p; exact le_refl _
  | succ n ih =>
    intro p
    have h1 := skipToSpace_length p
    have h2 := skipSpaces_length (skipToSpace p)
    rw [vinLine]
    simp only []
    split_ifs
    · simp only []; omega
    · have := ih (skipSpaces (skipToSpace p))
      simp only []; omega

/-- The fuel of `vinLine` is never used up. -/
theorem vinLine_fuel :
    ∀ (f1 f2 : Nat) (p : List Nat), p.length < f1 → p.length < f2 →
      vinLine f1 p = vinLine f2 p := by
  intro f1
  induction f1 with
  | zero => intro f2 p h; omega
  | succ n ih =>
    intro f2 p h1 h2
    cases f2 with
    | zero => omega
    | succ m =>
      rw [vinLine, vinLine]
      simp only []
      split_ifs with hb
      · rfl
      · rcases skip_lt_or_nul p with hl | hz
        · rw [ih m _ (by omega) (by omega)]
        · exact absurd (Or.inl hz) hb

theorem vinLineRun_eq (p : List Nat) :
    vinLineRun p =
      if deref (skipSpaces (skipToSpace p)) = 0 ∨ deref (skipSpaces (skipToSpace p)) = 13 then
        ([hex2uint8 p], skipSpaces (skipToSpace p))
      else
        (hex2uint8 p :: (vinLineRun (skipSpaces (skipToSpace p))).1,
          (vinLineRun (skipSpaces (skipToSpace p))).2) := by
  unfold vinLineRun
  rw [vinLine]
  simp only []
  split_ifs with hb
  · rfl
  · rcases skip_lt_or_nul p with hl | hz
    · rw [vinLine_fuel p.length ((skipSpaces (skipToSpace p)).length + 1) _ hl (by omega)]
    · exact absurd (Or.inl hz) hb

theorem strchr_length (c : Nat) :
    ∀ (p q : List Nat), strchr p c = some q → q.length ≤ p.length ∧ q ≠ [] := by
  intro p
  induction p with
  | nil => intro q h; simp [strchr] at h
  | cons x t ih =>
    intro q h
    rw [strchr] at h
    split_ifs at h
    · cases h
      exact ⟨le_refl _, by simp⟩
    · obtain ⟨h1, h2⟩ := ih q h
      exact ⟨by simp only [List.length_cons]; omega, h2⟩

/-- The fuel of `vinFrames` is never used up. -/
theorem vinFrames_fuel :
    ∀ (f1 f2 : Nat) (p : List Nat), p.length < f1 → p.length < f2 →
      vinFrames f1 p = vinFrames f2 p := by
  intro f1
  induction f1 with
  | zero => intro f2 p h; omega
  | succ n ih =>
    intro f2 p h1 h2
    cases f2 with
    | zero => omega
    | succ m =>
      rw [vinFrames, vinFrames]
      cases hs : strchr (vinLine ((skipSpaces (List.drop 1 p)).length + 1)
          (skipSpaces (List.drop 1 p))).2 58 with
      | none => rfl
      | some q =>
        simp only []
        obtain ⟨l1, l2⟩ := strchr_length 58 _ q hs
        have l3 := vinLine_snd_length ((skipSpaces (List.drop 1 p)).length + 1)
          (skipSpaces (List.drop 1 p))
        have l4 := skipSpaces_length (List.drop 1 p)
        have l5 : (List.drop 1 p).length = p.length - 1 := List.length_drop 1 p
        have l6 : 0 < q.length := List.length_pos.2 l2
        rw [ih m q (by omega) (by omega)]

theorem vinFramesRun_eq (p : List Nat) : vinFramesRun p = vinRest (skipSpaces (p.drop 1)) := by
  unfold vinFramesRun vinRest vinLineRun
  rw [vinFrames]
  cases hs : strchr (vinLine ((skipSpaces (List.drop 1 p)).length + 1)
      (skipSpaces (List.drop 1 p))).2 58 with
  | none => simp
  | some q =>
    simp only []
    obtain ⟨l1, l2⟩ := strchr_length 58 _ q hs
    have l3 := vinLine_snd_length ((skipSpaces (List.drop 1 p)).length + 1)
      (skipSpaces (List.drop 1 p))
    have l4 := skipSpaces_length (List.drop 1 p)
    have l5 : (List.drop 1 p).length = p.length - 1 := List.length_drop 1 p
    have l6 : 0 < q.length := List.length_pos.2 l2
    unfold vinFramesRun
    rw [vinFrames_fuel p.length (q.length + 1) q (by omega) (by omega)]

theorem skipToSpace_append (a t : List Nat) (h : ∀ c ∈ a, c ≠ 0 ∧ c ≠ 32) :
    skipToSpace (a ++ t) = skipToSpace t := by
  induction a with
  | nil => rfl
  | cons c r ih =>
    rw [List.cons_append, skipToSpace, if_pos (h c (by simp))]
    exact ih (fun x hx => h x (by simp [hx]))

theorem skipToSpace_stop (t : List Nat) (h : deref t = 0 ∨ deref t = 32) :
    skipToSpace t = t := by
  cases t with
  | nil => rfl
  | cons c r =>
    simp only [deref, List.headD_cons] at h
    rw [skipToSpace, if_neg (by omega)]

theorem skipSpaces_replicate (k : Nat) (t : List Nat) :
    skipSpaces (List.replicate k 32 ++ t) = skipSpaces t := by
  induction k with
  | zero => rfl
  | succ k ih => rw [List.replicate_succ, List.cons_append, skipSpaces, if_pos rfl, ih]

theorem skipSpaces_stop (t : List Nat) (h : deref t ≠ 32) : skipSpaces t = t := by
  cases t with
  | nil => rfl
  | cons c r =>
    simp only [deref, List.headD_cons] at h
    rw [skipSpaces, if_neg h]

theorem strchr_append_found (a t : List Nat) (h : ∀ c ∈ a, c ≠ 0 ∧ c ≠ 58) :
    strchr (a ++ 58 :: t) 58 = some (58 :: t) := by
  induction a with
  | nil => simp [strchr]
  | cons c r ih =>
    obtain ⟨h0, h1⟩ := h c (by simp)
    rw [List.cons_append, strchr, if_neg h1, if_neg h0]
    exact ih (fun x hx => h x (by simp [hx]))

theorem strchr_append_nul (a t : List Nat) (h : ∀ c ∈ a, c ≠ 58) :
    strchr (a ++ 0 :: t) 58 = none := by
  induction a with
  | nil => simp [strchr]
  | cons c r ih =>
    have h1 := h c (by simp)
    rw [List.cons_append, strchr, if_neg h1]
    split_ifs
    · rfl
    · exact ih (fun x hx => h x (by simp [hx]))

theorem hexDigitUpper_plain (d : Nat) (hd : d < 16) :
    isHexDigit (hexDigitUpper d) = true ∧ hexValue (hexDigitUpper d) = d := by
  unfold hexDigitUpper
  split_ifs with h
  · constructor
    · rw [isHexDigit_iff]; omega
    · unfold hexValue; rw [if_pos (by omega)]; omega
  · constructor
    · rw [isHexDigit_iff]; omega
    · unfold hexValue; rw [if_neg (by omega), if_pos (by omega)]; omega

theorem hexDigit_not_special (c : Nat) (h : isHexDigit c = true) :
    c ≠ 0 ∧ c ≠ 13 ∧ c ≠ 32 ∧ c ≠ 58 := by
  rw [isHexDigit_iff] at h
  omega

/-- The byte `sprintf( "%02X" )` printed is the byte `hex2uint8` reads back. -/
theorem hex2uint8_fmt02X (b : Nat) (t : List Nat) (hb : b < 256) :
    hex2uint8 (fmt02X b ++ t) = b := by
  obtain ⟨x1, v1⟩ := hexDigitUpper_plain (b / 16 % 16) (Nat.mod_lt _ (by norm_num))
  obtain ⟨x2, v2⟩ := hexDigitUpper_plain (b % 16) (Nat.mod_lt _ (by norm_num))
  obtain ⟨a1, ha1, hv1, -⟩ := hexAdjust_of_hex _ x1
  obtain ⟨a2, ha2, hv2, -⟩ := hexAdjust_of_hex _ x2
  have hne := (hexDigit_not_special _ x2).1
  simp only [fmt02X, List.cons_append, List.nil_append, hex2uint8, deref, List.headD_cons,
    List.drop_succ_cons, List.drop_zero, ha1, ha2, if_neg hne, shl4_or_and15]
  omega

theorem fmt02X_chars (b : Nat) :
    ∃ h l, fmt02X b = [h, l] ∧ isHexDigit h = true ∧ isHexDigit l = true :=
  ⟨_, _, rfl, (hexDigitUpper_plain (b / 16 % 16) (Nat.mod_lt _ (by norm_num))).1,
    (hexDigitUpper_plain (b % 16) (Nat.mod_lt _ (by norm_num))).1⟩

/-- The inner loop on the bytes of one line: it stores them all and then
stands at what follows the line, blanks skipped. -/
theorem vinLineRun_bytes :
    ∀ (bs : List Nat) (b : Nat) (rest : List Nat), b < 256 → (∀ x ∈ bs, x < 256) →
      vinLineRun (fmt02X b ++ (vinBytesText bs ++ rest)) =
        if deref (skipSpaces (skipToSpace rest)) = 0
            ∨ deref (skipSpaces (skipToSpace rest)) = 13 then
          (b :: bs, skipSpaces (skipToSpace rest))
        else
          (b :: bs ++ (vinLineRun (skipSpaces (skipToSpace rest))).1,
            (vinLineRun (skipSpaces (skipToSpace rest))).2) := by
  intro bs
  induction bs with
  | nil =>
    intro b rest hb _
    obtain ⟨h, l, hf, xh, xl⟩ := fmt02X_chars b
    have hskip : skipToSpace (fmt02X b ++ rest) = skipToSpace rest := by
      apply skipToSpace_append
      intro c hc
      rw [hf] at hc
      simp only [List.mem_cons, List.mem_singleton, List.not_mem_nil, or_false] at hc
      rcases hc with rfl | rfl
      · exact ⟨(hexDigit_not_special _ xh).1, (hexDigit_not_special _ xh).2.2.1⟩
      · exact ⟨(hexDigit_not_special _ xl).1, (hexDigit_not_special _ xl).2.2.1⟩
    simp only [vinBytesText, List.nil_append]
    rw [vinLineRun_eq, hex2uint8_fmt02X b rest hb, hskip]
    simp
  | cons b2 bs ih =>
    intro b rest hb hbs
    obtain ⟨h, l, hf, xh, xl⟩ := fmt02X_chars b
    obtain ⟨h2, l2, hf2, xh2, xl2⟩ := fmt02X_chars b2
    have hb2 : b2 < 256 := hbs b2 (by simp)
    have hbs2 : ∀ x ∈ bs, x < 256 := fun x hx => hbs x (by simp [hx])
    have htxt : vinBytesText (b2 :: bs) ++ rest
        = 32 :: (fmt02X b2 ++ (vinBytesText bs ++ rest)) := by
      simp [vinBytesText]
    have hskip : skipToSpace (fmt02X b ++ 32 :: (fmt02X b2 ++ (vinBytesText bs ++ rest)))
        = 32 :: (fmt02X b2 ++ (vinBytesText bs ++ rest)) := by
      rw [skipToSpace_append]
      · exact skipToSpace_stop _ (Or.inr rfl)
      · intro c hc
        rw [hf] at hc
        simp only [List.mem_cons, List.mem_singleton, List.not_mem_nil, or_false] at hc
        rcases hc with rfl | rfl
        · exact ⟨(hexDigit_not_special _ xh).1, (hexDigit_not_special _ xh).2.2.1⟩
        · exact ⟨(hexDigit_not_special _ xl).1, (hexDigit_not_special _ xl).2.2.1⟩
    have hd : deref (fmt02X b2 ++ (vinBytesText bs ++ rest)) = h2 := by
      rw [hf2]; rfl
    have hsp : skipSpaces (32 :: (fmt02X b2 ++ (vinBytesText bs ++ rest)))
        = fmt02X b2 ++ (vinBytesText bs ++ rest) := by
      rw [skipSpaces, if_pos rfl]
      exact skipSpaces_stop _ (by rw [hd]; exact (hexDigit_not_special _ xh2).2.2.1)
    rw [htxt, vinLineRun_eq, hex2uint8_fmt02X b _ hb, hskip, hsp, hd,
      if_neg (by
        have := hexDigit_not_special _ xh2
        omega),
      ih b2 rest hb2 hbs2]
    split_ifs <;> simp

/-- The last line of a well-formed answer: its bytes are stored and the loops
end, whether the boundary has blanks in front of the carriage return or not. -/
theorem vinRest_last_line (k : Nat) (nl post tail : List Nat) (b : Nat) (bs : List Nat)
    (hnl : ∀ c ∈ nl, plainChar c) (hpost : ∀ c ∈ post, plainChar c)
    (hb : b < 256) (hbs : ∀ x ∈ bs, x < 256) :
    vinRest (fmt02X b ++ (vinBytesText bs
      ++ ((List.replicate k 32 ++ 13 :: nl) ++ (post ++ 0 :: tail)))) = b :: bs := by
  have hplain : ∀ c ∈ 13 :: (nl ++ post), c ≠ 0 ∧ c ≠ 32 ∧ c ≠ 58 := by
    intro c hc
    simp only [List.mem_cons, List.mem_append] at hc
    rcases hc with rfl | hc | hc
    · decide
    · exact hnl c hc
    · exact hpost c hc
  have hshape : (List.replicate k 32 ++ 13 :: nl) ++ (post ++ 0 :: tail)
      = List.replicate k 32 ++ ((13 :: (nl ++ post)) ++ 0 :: tail) := by simp
  unfold vinRest
  rw [vinLineRun_bytes bs b _ hb hbs, hshape]
  cases k with
  | zero =>
    have hE : skipSpaces (skipToSpace (List.replicate 0 32 ++ ((13 :: (nl ++ post)) ++ 0 :: tail)))
        = 0 :: tail := by
      rw [List.replicate_zero, List.nil_append,
        skipToSpace_append _ _ (fun c hc => ⟨(hplain c hc).1, (hplain c hc).2.1⟩),
        skipToSpace_stop _ (Or.inl (by simp [deref]))]
      exact skipSpaces_stop _ (by simp [deref])
    rw [hE, if_pos (Or.inl (by simp [deref]))]
    simp [strchr]
  | succ k =>
    have hE : skipSpaces (skipToSpace
        (List.replicate (k + 1) 32 ++ ((13 :: (nl ++ post)) ++ 0 :: tail)))
        = (13 :: (nl ++ post)) ++ 0 :: tail := by
      rw [skipToSpace_stop _ (Or.inr (by simp [deref, List.replicate_succ])),
        skipSpaces_replicate]
      exact skipSpaces_stop _ (by simp [deref])
    rw [hE, if_pos (Or.inr (by simp [deref]))]
    simp only []
    rw [strchr_append_nul _ _ (fun c hc => (hplain c hc).2.2)]
    simp

/-- A line followed by another one: its bytes are stored and the loops go on
at the first byte of the next line, whether the boundary has blanks in front
of the carriage return (the outer loop looks for the colon) or not (the inner
loop runs over the boundary, the index and the colon). -/
theorem vinRest_next_line (k : Nat) (nl idx : List Nat) (b : Nat) (bs : List Nat) (b2 : Nat)
    (Y : List Nat) (hnl : ∀ c ∈ nl, plainChar c) (hidx : ∀ c ∈ idx, plainChar c)
    (hb : b < 256) (hbs : ∀ x ∈ bs, x < 256) :
    vinRest (fmt02X b ++ (vinBytesText bs
      ++ ((List.replicate k 32 ++ 13 :: nl) ++ (idx ++ 58 :: 32 :: (fmt02X b2 ++ Y)))))
      = b :: bs ++ vinRest (fmt02X b2 ++ Y) := by
  obtain ⟨h2, l2, hf2, xh2, xl2⟩ := fmt02X_chars b2
  have hsp2 := hexDigit_not_special _ xh2
  have hd : deref (fmt02X b2 ++ Y) = h2 := by rw [hf2]; rfl
  have hplain : ∀ c ∈ 13 :: (nl ++ idx), c ≠ 0 ∧ c ≠ 32 ∧ c ≠ 58 := by
    intro c hc
    simp only [List.mem_cons, List.mem_append] at hc
    rcases hc with rfl | hc | hc
    · decide
    · exact hnl c hc
    · exact hidx c hc
  have hshape : (List.replicate k 32 ++ 13 :: nl) ++ (idx ++ 58 :: 32 :: (fmt02X b2 ++ Y))
      = List.replicate k 32 ++ ((13 :: (nl ++ idx)) ++ 58 :: 32 :: (fmt02X b2 ++ Y)) := by
    simp
  have hs32 : skipSpaces (32 :: (fmt02X b2 ++ Y)) = fmt02X b2 ++ Y := by
    rw [skipSpaces, if_pos rfl]
    exact skipSpaces_stop _ (by rw [hd]; exact hsp2.2.2.1)
  unfold vinRest
  rw [vinLineRun_bytes bs b _ hb hbs, hshape]
  cases k with
  | zero =>
    have hE : skipSpaces (skipToSpace (List.replicate 0 32
        ++ ((13 :: (nl ++ idx)) ++ 58 :: 32 :: (fmt02X b2 ++ Y)))) = fmt02X b2 ++ Y := by
      have hall : ∀ c ∈ (13 :: (nl ++ idx)) ++ [58], c ≠ 0 ∧ c ≠ 32 := by
        intro c hc
        rcases List.mem_append.1 hc with hc | hc
        · exact ⟨(hplain c hc).1, (hplain c hc).2.1⟩
        · simp only [List.mem_singleton] at hc
          subst hc
          decide
      have e : (13 :: (nl ++ idx)) ++ 58 :: 32 :: (fmt02X b2 ++ Y)
          = ((13 :: (nl ++ idx)) ++ [58]) ++ 32 :: (fmt02X b2 ++ Y) := by simp
      rw [List.replicate_zero, List.nil_append, e, skipToSpace_append _ _ hall,
        skipToSpace_stop _ (Or.inr (by simp [deref])), hs32]
    rw [hE, hd, if_neg (by omega)]
    simp
  | succ k =>
    have hE : skipSpaces (skipToSpace (List.replicate (k + 1) 32
        ++ ((13 :: (nl ++ idx)) ++ 58 :: 32 :: (fmt02X b2 ++ Y))))
        = (13 :: (nl ++ idx)) ++ 58 :: 32 :: (fmt02X b2 ++ Y) := by
      rw [skipToSpace_stop _ (Or.inr (by simp [deref, List.replicate_succ])),
        skipSpaces_replicate]
      exact skipSpaces_stop _ (by simp [deref])
    rw [hE, if_pos (Or.inr (by simp [deref]))]
    simp only []
    rw [strchr_append_found _ _ (fun c hc => ⟨(hplain c hc).1, (hplain c hc).2.2⟩)]
    simp only []
    rw [vinFramesRun_eq, List.drop_succ_cons, List.drop_zero, hs32]
    rfl

/-- All the lines of a well-formed answer from the first byte of a line on:
the bytes of this line and of every further line, in order. -/
theorem vinRest_lines (k : Nat) (nl post tail : List Nat)
    (hnl : ∀ c ∈ nl, plainChar c) (hpost : ∀ c ∈ post, plainChar c) :
    ∀ (more : List (List Nat × List Nat)),
      (∀ l ∈ more, l.2 ≠ [] ∧ (∀ b ∈ l.2, b < 256) ∧ ∀ c ∈ l.1, plainChar c) →
      ∀ (b : Nat) (bs : List Nat), b < 256 → (∀ x ∈ bs, x < 256) →
        vinRest (fmt02X b ++ (vinBytesText bs ++ ((List.replicate k 32 ++ 13 :: nl)
          ++ (vinLinesText (List.replicate k 32 ++ 13 :: nl) more ++ (post ++ 0 :: tail)))))
          = b :: bs ++ (more.map Prod.snd).flatten := by
  intro more
  induction more with
  | nil =>
    intro _ b bs hb hbs
    rw [vinLinesText, List.nil_append, vinRest_last_line k nl post tail b bs hnl hpost hb hbs]
    simp
  | cons l more ih =>
    intro hmore b bs hb hbs
    obtain ⟨idx, l2⟩ := l
    obtain ⟨hne, hl2, hidx⟩ := hmore (idx, l2) (by simp)
    cases l2 with
    | nil => exact absurd rfl hne
    | cons b2 bs2 =>
      have hb2 : b2 < 256 := hl2 b2 (by simp)
      have hbs2 : ∀ x ∈ bs2, x < 256 := fun x hx => hl2 x (by simp [hx])
      have hshape : vinLinesText (List.replicate k 32 ++ 13 :: nl) ((idx, b2 :: bs2) :: more)
            ++ (post ++ 0 :: tail)
          = idx ++ 58 :: 32 :: (fmt02X b2 ++ (vinBytesText bs2
            ++ ((List.replicate k 32 ++ 13 :: nl)
              ++ (vinLinesText (List.replicate k 32 ++ 13 :: nl) more
                ++ (post ++ 0 :: tail))))) := by
        simp [vinLinesText, vinBytesText, List.append_assoc]
      rw [hshape, vinRest_next_line k nl idx b bs b2 _ hnl hidx hb hbs,
        ih (fun x hx => hmore x (by simp [hx])) b2 bs2 hb2 hbs2]
      simp

theorem vinHeader_eq : vinHeader = [48, 58, 32, 52, 57, 32, 48, 50, 32, 48, 49] := by decide

theorem strstr_of_prefix (needle t : List Nat) (h : needle <+: t) :
    strstr t needle = some t := by
  have hp : needle.isPrefixOf t = true := List.isPrefixOf_iff_prefix.2 h
  cases t with
  | nil => rw [strstr, if_pos hp]
  | cons c r => rw [strstr, if_pos hp]

/-- The search for the VIN header runs over text without NUL and colon and
stops at the header behind it. -/
theorem strstr_vinHeader (X : List Nat) :
    ∀ d : List Nat, (∀ c ∈ d, c ≠ 0 ∧ c ≠ 58) →
      strstr (d ++ (vinHeader ++ X)) vinHeader = some (vinHeader ++ X) := by
  intro d
  induction d with
  | nil =>
    intro _
    exact strstr_of_prefix _ _ (List.prefix_append _ _)
  | cons c d ih =>
    intro h
    obtain ⟨h0, _⟩ := h c (by simp)
    have hnp : ¬ (vinHeader.isPrefixOf (c :: (d ++ (vinHeader ++ X))) = true) := by
      rw [vinHeader_eq]
      cases d with
      | nil => simp [List.isPrefixOf]
      | cons e d2 =>
        have he := (h e (by simp)).2
        simp only [List.cons_append, List.isPrefixOf, Bool.and_eq_true, beq_iff_eq]
        intro hh
        exact he hh.2.1.symm
    rw [List.cons_append, strstr, if_neg hnp, if_neg h0]
    exact ih (fun x hx => h x (by simp [hx]))

/-- The parse of a well-formed answer stores exactly its payload bytes. -/
theorem vinParse_wellFormed (a : VinAnswer) (tail : List Nat) (h : a.WellFormed) :
    vinParse (a.text ++ 0 :: tail) = some (a.payload,
      decide ((a.payload.length : Int) = (hex2uint16 (a.text ++ 0 :: tail) : Int) - 3)) := by
  obtain ⟨hpre, hpre0, hpre58, hfirst, hfb, hmore, hnl, hpost⟩ := h
  obtain ⟨pre, first, more, k, nl, post⟩ := a
  simp only at hpre hpre0 hpre58 hfirst hfb hmore hnl hpost
  cases first with
  | nil => exact absurd rfl hfirst
  | cons b bs =>
    have hb : b < 256 := hfb b (by simp)
    have hbs : ∀ x ∈ bs, x < 256 := fun x hx => hfb x (by simp [hx])
    obtain ⟨hh, hl, hf, xh, _⟩ := fmt02X_chars b
    have hsp := hexDigit_not_special _ xh
    have hshape : VinAnswer.text ⟨pre, b :: bs, more, k, nl, post⟩ ++ 0 :: tail
        = pre ++ (vinHeader ++ (32 :: (fmt02X b ++ (vinBytesText bs
          ++ ((List.replicate k 32 ++ 13 :: nl)
            ++ (vinLinesText (List.replicate k 32 ++ 13 :: nl) more
              ++ (post ++ 0 :: tail))))))) := by
      simp [VinAnswer.text, VinAnswer.eol, vinBytesText, List.append_assoc]
    have hd0 : ∀ c ∈ pre.drop 4, c ≠ 0 ∧ c ≠ 58 :=
      fun c hc => ⟨hpre0 c (List.mem_of_mem_drop hc), hpre58 c hc⟩
    have hskip : ∀ Y : List Nat, skipSpaces (fmt02X b ++ Y) = fmt02X b ++ Y := by
      intro Y
      exact skipSpaces_stop _ (by rw [hf]; simpa [deref] using hsp.2.2.1)
    have hfr := vinFramesRun_eq (32 :: (fmt02X b ++ (vinBytesText bs
          ++ ((List.replicate k 32 ++ 13 :: nl)
            ++ (vinLinesText (List.replicate k 32 ++ 13 :: nl) more
              ++ (post ++ 0 :: tail))))))
    rw [List.drop_succ_cons, List.drop_zero, hskip,
      vinRest_lines k nl post tail hnl hpost more hmore b bs hb hbs] at hfr
    unfold vinParse
    simp only []
    generalize hex2uint16 (VinAnswer.text ⟨pre, b :: bs, more, k, nl, post⟩ ++ 0 :: tail) = len
    rw [hshape, List.drop_append_of_le_length hpre, strstr_vinHeader _ _ hd0]
    simp only []
    have hdrop : ∀ Y : List Nat, List.drop 11 (vinHeader ++ Y) = Y := by
      intro Y
      rw [vinHeader_eq]
      rfl
    rw [hdrop]
    unfold vinFramesRun at hfr
    rw [hfr]
    rfl

/-- The function `ODBLib_GetVIN` on a channel that holds one well-formed answer:
one parse, and a second command when the length test fails. -/
theorem ODBLib_GetVIN_wellFormed (a : VinAnswer) (dev : ObdDevice) (buffer : List Nat)
    (bufsize : Nat) (h : a.WellFormed) (hlen : a.text.length ≤ 127)
    (hp : dev.pending = [a.text]) :
    (ODBLib_GetVIN dev buffer bufsize).2.2 = storeAt buffer (a.payload ++ [0]) := by
  have hpos : 0 < a.text.length := by
    have h4 := h.1
    simp only [VinAnswer.text, List.length_append]
    omega
  have hcmd : cstring (ascii "0902\r") ≠ [] := by decide
  have hresp : dev.response 128 = a.text := by
    unfold ObdDevice.response
    rw [hp]
    exact List.take_of_length_le (by simpa using hlen)
  unfold ODBLib_GetVIN
  rw [getVinLoop, OBDLib_SendCommand_eq dev _ _ 128 hcmd (by decide), hresp]
  simp only []
  have hne : a.text.length ≠ 0 := by omega
  rw [if_neg hne, if_pos hne, storeAt_nul, vinParse_wellFormed a _ h]
  simp only []
  split_ifs with hok
  · rfl
  · rw [getVinLoop, OBDLib_SendCommand_eq _ _ _ 128 hcmd (by decide)]
    have hresp2 : ObdDevice.response
        ({ written := dev.written ++ [cstring (ascii "0902\r")], pending := dev.pending.tail } :
          ObdDevice) 128 = [] := by
      unfold ObdDevice.response
      rw [hp]
      rfl
    rw [hresp2]
    simp only [List.length_nil, if_true, ne_eq, not_true_eq_false, if_false]
    rfl

/-- C12: VIN reassembly keeps the payload bytes only.  For every well-formed
multi-line answer (header, then blank-separated two-digit bytes, every further
line an index text, a colon and its bytes behind a line boundary) that fits
the 128-cell buffer and is the one answer on the channel, the cells
`ODBLib_GetVIN` writes at `buffer` are the payload bytes behind the header, in
order, followed by a NUL; the caller's memory behind them is left as it was. -/
theorem ODBLib_GetVIN_payload (a : VinAnswer) (dev : ObdDevice) (buffer : List Nat)
    (bufsize : Nat) (h : a.WellFormed) (hlen : a.text.length ≤ 127)
    (hp : dev.pending = [a.text]) :
    (ODBLib_GetVIN dev buffer bufsize).2.2
      = a.payload ++ 0 :: buffer.drop (a.payload.length + 1) := by
  rw [ODBLib_GetVIN_wellFormed a dev buffer bufsize h hlen hp, storeAt_nul]

/-- The instance of C12 at the answer of the specification: the lines
`0: 49 02 01 31 32 33` and `1: 34 35 36 37 38 39 30` behind the declared
length `0017` give the string `1234567890`. -/
theorem ODBLib_GetVIN_payload_witness :
    (ODBLib_GetVIN
        ⟨[], [ascii "0017\r\n0: 49 02 01 31 32 33\r\n1: 34 35 36 37 38 39 30\r\n"]⟩ [] 20).2.2
      = ascii "1234567890" ++ [0] :=
  ODBLib_GetVIN_payload
    ⟨ascii "0017\r\n", [0x31, 0x32, 0x33], [(ascii "1", [0x34, 0x35, 0x36, 0x37, 0x38, 0x39, 0x30])],
      0, [10], []⟩
    ⟨[], [ascii "0017\r\n0: 49 02 01 31 32 33\r\n1: 34 35 36 37 38 39 30\r\n"]⟩ [] 20
    (by decide) (by decide) (by decide)

/-- C13, the divergence: the first answer declares the length `0x0099` and
carries 23 payload bytes, so its length test fails; the second answer is the
two characters `1A` without any header.  The search `strstr(
vinProcessBuffer + 4, ... )` starts behind the second answer and its NUL and
finds the header the first answer left in the buffer, the 23 bytes are stored
again, and `23 == 0x1A - 3` makes `ODBLib_GetVIN` return `true`. -/
theorem ODBLib_GetVIN_stale_header :
    ODBLib_GetVIN
        ⟨[], [ascii "0099\r\n0: 49 02 01" ++ (List.replicate 23 (ascii " 41")).flatten,
              ascii "1A"]⟩ [] 24
      = (⟨[ascii "0902\r", ascii "0902\r"], []⟩, true, List.replicate 23 0x41 ++ [0])
    ∧ strstr (ascii "1A") vinHeader = none := by
  decide

/-! ### `normalizeData`: the remaining rows of the decode table -/

/-- A label of a `switch` whose labels are pairwise different does not occur
among the labels in front of the place where it occurs. -/
theorem not_mem_take_of_nodup (l : List Nat) (h : l.Nodup) (a x : Nat) (hx : x ∈ l.drop a) :
    x ∉ l.take a := by
  rw [← List.take_append_drop a l, List.nodup_append] at h
  exact fun h1 => h.2.2 h1 hx

theorem getPercentageValue_eq (data : List Nat) :
    getPercentageValue data = hex2uint8 data * 100 / 255 := by
  have h := hex2uint8_lt data
  unfold getPercentageValue
  rw [Nat.mod_eq_of_lt (by omega : hex2uint8 data < 65536)]
  exact Nat.mod_eq_of_lt (by omega)

/-- The percentage group of the `switch`: a PID that is one of its labels and
none of the labels in front of the group decodes to the percentage. -/
theorem normalizeData_percentage_group (K : PidTable) (pid : Nat) (data : List Nat)
    (h1 : pid ∉ K.caseLabels.take 7)
    (h2 : pid ∈ [K.PID_THROTTLE, K.PID_COMMANDED_EGR, K.PID_COMMANDED_EVAPORATIVE_PURGE,
      K.PID_FUEL_LEVEL, K.PID_RELATIVE_THROTTLE_POS, K.PID_ABSOLUTE_THROTTLE_POS_B,
      K.PID_ABSOLUTE_THROTTLE_POS_C, K.PID_ACC_PEDAL_POS_D, K.PID_ACC_PEDAL_POS_E,
      K.PID_ACC_PEDAL_POS_F, K.PID_COMMANDED_THROTTLE_ACTUATOR, K.PID_ENGINE_LOAD,
      K.PID_ABSOLUTE_ENGINE_LOAD, K.PID_ETHANOL_FUEL, K.PID_HYBRID_BATTERY_PERCENTAGE]) :
    normalizeData K pid data = ((hex2uint8 data * 100 / 255 : Nat) : Int) := by
  simp only [PidTable.caseLabels, List.take_succ_cons, List.take_zero, List.mem_cons,
    List.not_mem_nil, or_false, not_or] at h1
  simp only [List.mem_cons, List.not_mem_nil, or_false] at h2
  simp only [normalizeData, h1, or_self, if_false]
  rw [if_pos h2, getPercentageValue_eq]

/-- C25. For every PID of the percentage group (throttle, load, EGR, fuel
level and the other labels of that `case` group) and every payload,
`normalizeData` returns the byte times 100 divided by 255, rounded down; the
wraps to 16 and to 8 bits in `getPercentageValue` never take effect.  The
result lies in `0..100`, grows with the byte, and is 100 for the byte `0xFF`
only. -/
theorem normalizeData_percentage (K : PidTable) (hK : K.caseLabels.Nodup) (pid : Nat)
    (hp : pid ∈ [K.PID_THROTTLE, K.PID_COMMANDED_EGR, K.PID_COMMANDED_EVAPORATIVE_PURGE,
      K.PID_FUEL_LEVEL, K.PID_RELATIVE_THROTTLE_POS, K.PID_ABSOLUTE_THROTTLE_POS_B,
      K.PID_ABSOLUTE_THROTTLE_POS_C, K.PID_ACC_PEDAL_POS_D, K.PID_ACC_PEDAL_POS_E,
      K.PID_ACC_PEDAL_POS_F, K.PID_COMMANDED_THROTTLE_ACTUATOR, K.PID_ENGINE_LOAD,
      K.PID_ABSOLUTE_ENGINE_LOAD, K.PID_ETHANOL_FUEL, K.PID_HYBRID_BATTERY_PERCENTAGE])
    (data data2 : List Nat) :
    normalizeData K pid data = ((hex2uint8 data * 100 / 255 : Nat) : Int)
    ∧ hex2uint8 data * 100 ≤ 25500
    ∧ 0 ≤ normalizeData K pid data ∧ normalizeData K pid data ≤ 100
    ∧ (hex2uint8 data ≤ hex2uint8 data2 →
        normalizeData K pid data ≤ normalizeData K pid data2)
    ∧ (normalizeData K pid data = 100 ↔ hex2uint8 data = 0xFF)
    ∧ normalizeData K pid (ascii "FF") = 100
    ∧ normalizeData K pid (ascii "FE") = 99
    ∧ normalizeData K pid (ascii "00") = 0 := by
  have hd : pid ∈ K.caseLabels.drop 7 :=
    List.mem_append_left (K.caseLabels.drop 22) hp
  have h1 := not_mem_take_of_nodup _ hK 7 pid hd
  have key : ∀ d, normalizeData K pid d = ((hex2uint8 d * 100 / 255 : Nat) : Int) :=
    fun d => normalizeData_percentage_group K pid d h1 hp
  have hlt := hex2uint8_lt data
  have hlt2 := hex2uint8_lt data2
  refine ⟨key data, by omega, ?_, ?_, ?_, ?_, ?_, ?_, ?_⟩
  · rw [key]; omega
  · rw [key]; omega
  · intro hle
    rw [key, key]
    have : hex2uint8 data * 100 / 255 ≤ hex2uint8 data2 * 100 / 255 :=
      Nat.div_le_div_right (by omega)
    omega
  · rw [key]
    constructor
    · intro h; omega
    · intro h; rw [h]; rfl
  · rw [key]; decide
  · rw [key]; decide
  · rw [key]; decide

/-- The instance of C25 at the SAE J1979 numbering and the fuel level. -/
theorem normalizeData_percentage_witness :
    normalizeData j1979 0x2F (ascii "80\r") = ((hex2uint8 (ascii "80\r") * 100 / 255 : Nat) : Int) :=
  (normalizeData_percentage j1979 (by decide) 0x2F (by decide) (ascii "80\r") (ascii "FF")).1

/-- The `case` group of `normalizeData` that starts at label 2 of the `switch`:
a PID that is one of its labels and none of the labels in front of it takes
this branch. -/
theorem normalizeData_fuel_pressure_group (K : PidTable) (pid : Nat) (data : List Nat)
    (h1 : pid ∉ K.caseLabels.take 2)
    (h2 : pid ∈ [K.PID_FUEL_PRESSURE]) :
    normalizeData K pid data = (hex2uint8 data : Int) * 3 := by
  simp only [PidTable.caseLabels, List.take_succ_cons, List.take_zero, List.mem_cons,
    List.not_mem_nil, or_false, not_or] at h1
  simp only [List.mem_cons, List.not_mem_nil, or_false, List.mem_singleton] at h2
  simp only [normalizeData, h1, or_self, if_false]
  rw [if_pos h2, getSmallValue]

/-- The `case` group of `normalizeData` that starts at label 22 of the `switch`:
a PID that is one of its labels and none of the labels in front of it takes
this branch. -/
theorem normalizeData_maf_flow_group (K : PidTable) (pid : Nat) (data : List Nat)
    (h1 : pid ∉ K.caseLabels.take 22)
    (h2 : pid ∈ [K.PID_MAF_FLOW]) :
    normalizeData K pid data = Int.tdiv (hex2uint16 data : Int) 100 := by
  simp only [PidTable.caseLabels, List.take_succ_cons, List.take_zero, List.mem_cons,
    List.not_mem_nil, or_false, not_or] at h1
  simp only [List.mem_cons, List.not_mem_nil, or_false, List.mem_singleton] at h2
  simp only [normalizeData, h1, or_self, if_false]
  rw [if_pos h2, getLargeValue]

/-- The `case` group of `normalizeData` that starts at label 23 of the `switch`:
a PID that is one of its labels and none of the labels in front of it takes
this branch. -/
theorem normalizeData_timing_advance_group (K : PidTable) (pid : Nat) (data : List Nat)
    (h1 : pid ∉ K.caseLabels.take 23)
    (h2 : pid ∈ [K.PID_TIMING_ADVANCE]) :
    normalizeData K pid data = Int.tdiv (hex2uint8 data : Int) 2 - 64 := by
  simp only [PidTable.caseLabels, List.take_succ_cons, List.take_zero, List.mem_cons,
    List.not_mem_nil, or_false, not_or] at h1
  simp only [List.mem_cons, List.not_mem_nil, or_false, List.mem_singleton] at h2
  simp only [normalizeData, h1, or_self, if_false]
  rw [if_pos h2, getSmallValue]

/-- The `case` group of `normalizeData` that starts at label 24 of the `switch`:
a PID that is one of its labels and none of the labels in front of it takes
this branch. -/
theorem normalizeData_word_group (K : PidTable) (pid : Nat) (data : List Nat)
    (h1 : pid ∉ K.caseLabels.take 24)
    (h2 : pid ∈ [K.PID_DISTANCE,K.PID_DISTANCE_WITH_MIL,K.PID_TIME_WITH_MIL,K.PID_TIME_SINCE_CODES_CLEARED,K.PID_RUNTIME,K.PID_FUEL_RAIL_PRESSURE,K.PID_ENGINE_REF_TORQUE]) :
    normalizeData K pid data = (hex2uint16 data : Int) := by
  simp only [PidTable.caseLabels, List.take_succ_cons, List.take_zero, List.mem_cons,
    List.not_mem_nil, or_false, not_or] at h1
  simp only [List.mem_cons, List.not_mem_nil, or_false, List.mem_singleton] at h2
  simp only [normalizeData, h1, or_self, if_false]
  rw [if_pos h2, getLargeValue]

/-- The `case` group of `normalizeData` that starts at label 31 of the `switch`:
a PID that is one of its labels and none of the labels in front of it takes
this branch. -/
theorem normalizeData_voltage_group (K : PidTable) (pid : Nat) (data : List Nat)
    (h1 : pid ∉ K.caseLabels.take 31)
    (h2 : pid ∈ [K.PID_CONTROL_MODULE_VOLTAGE]) :
    normalizeData K pid data = Int.tdiv (hex2uint16 data : Int) 1000 := by
  simp only [PidTable.caseLabels, List.take_succ_cons, List.take_zero, List.mem_cons,
    List.not_mem_nil, or_false, not_or] at h1
  simp only [List.mem_cons, List.not_mem_nil, or_false, List.mem_singleton] at h2
  simp only [normalizeData, h1, or_self, if_false]
  rw [if_pos h2, getLargeValue]

/-- The `case` group of `normalizeData` that starts at label 32 of the `switch`:
a PID that is one of its labels and none of the labels in front of it takes
this branch. -/
theorem normalizeData_fuel_rate_group (K : PidTable) (pid : Nat) (data : List Nat)
    (h1 : pid ∉ K.caseLabels.take 32)
    (h2 : pid ∈ [K.PID_ENGINE_FUEL_RATE]) :
    normalizeData K pid data = Int.tdiv (hex2uint16 data : Int) 20 := by
  simp only [PidTable.caseLabels, List.take_succ_cons, List.take_zero, List.mem_cons,
    List.not_mem_nil, or_false, not_or] at h1
  simp only [List.mem_cons, List.not_mem_nil, or_false, List.mem_singleton] at h2
  simp only [normalizeData, h1, or_self, if_false]
  rw [if_pos h2, getLargeValue]

/-- The `case` group of `normalizeData` that starts at label 33 of the `switch`:
a PID that is one of its labels and none of the labels in front of it takes
this branch. -/
theorem normalizeData_torque_group (K : PidTable) (pid : Nat) (data : List Nat)
    (h1 : pid ∉ K.caseLabels.take 33)
    (h2 : pid ∈ [K.PID_ENGINE_TORQUE_DEMANDED,K.PID_ENGINE_TORQUE_PERCENTAGE]) :
    normalizeData K pid data = (hex2uint8 data : Int) - 125 := by
  simp only [PidTable.caseLabels, List.take_succ_cons, List.take_zero, List.mem_cons,
    List.not_mem_nil, or_false, not_or] at h1
  simp only [List.mem_cons, List.not_mem_nil, or_false, List.mem_singleton] at h2
  simp only [normalizeData, h1, or_self, if_false]
  rw [if_pos h2, getSmallValue]

/-- The `case` group of `normalizeData` that starts at label 35 of the `switch`:
a PID that is one of its labels and none of the labels in front of it takes
this branch. -/
theorem normalizeData_fuel_trim_group (K : PidTable) (pid : Nat) (data : List Nat)
    (h1 : pid ∉ K.caseLabels.take 35)
    (h2 : pid ∈ [K.PID_SHORT_TERM_FUEL_TRIM_1,K.PID_LONG_TERM_FUEL_TRIM_1,K.PID_SHORT_TERM_FUEL_TRIM_2,K.PID_LONG_TERM_FUEL_TRIM_2,K.PID_EGR_ERROR]) :
    normalizeData K pid data = Int.tdiv (((hex2uint8 data : Int) - 128) * 100) 128 := by
  simp only [PidTable.caseLabels, List.take_succ_cons, List.take_zero, List.mem_cons,
    List.not_mem_nil, or_false, not_or] at h1
  simp only [List.mem_cons, List.not_mem_nil, or_false, List.mem_singleton] at h2
  simp only [normalizeData, h1, or_self, if_false]
  rw [if_pos h2, getSmallValue]

/-- The `case` group of `normalizeData` that starts at label 40 of the `switch`:
a PID that is one of its labels and none of the labels in front of it takes
this branch. -/
theorem normalizeData_injection_timing_group (K : PidTable) (pid : Nat) (data : List Nat)
    (h1 : pid ∉ K.caseLabels.take 40)
    (h2 : pid ∈ [K.PID_FUEL_INJECTION_TIMING]) :
    normalizeData K pid data = Int.tdiv ((hex2uint16 data : Int) - 26880) 128 := by
  simp only [PidTable.caseLabels, List.take_succ_cons, List.take_zero, List.mem_cons,
    List.not_mem_nil, or_false, not_or] at h1
  simp only [List.mem_cons, List.not_mem_nil, or_false, List.mem_singleton] at h2
  simp only [normalizeData, h1, or_self, if_false]
  rw [if_pos h2, getLargeValue]

/-- The `case` group of `normalizeData` that starts at label 41 of the `switch`:
a PID that is one of its labels and none of the labels in front of it takes
this branch. -/
theorem normalizeData_catalyst_group (K : PidTable) (pid : Nat) (data : List Nat)
    (h1 : pid ∉ K.caseLabels.take 41)
    (h2 : pid ∈ [K.PID_CATALYST_TEMP_B1S1,K.PID_CATALYST_TEMP_B2S1,K.PID_CATALYST_TEMP_B1S2,K.PID_CATALYST_TEMP_B2S2]) :
    normalizeData K pid data = Int.tdiv (hex2uint16 data : Int) 10 - 40 := by
  simp only [PidTable.caseLabels, List.take_succ_cons, List.take_zero, List.mem_cons,
    List.not_mem_nil, or_false, not_or] at h1
  simp only [List.mem_cons, List.not_mem_nil, or_false, List.mem_singleton] at h2
  simp only [normalizeData, h1, or_self, if_false]
  rw [if_pos h2, getLargeValue]

/-- The `case` group of `normalizeData` that starts at label 45 of the `switch`:
a PID that is one of its labels and none of the labels in front of it takes
this branch. -/
theorem normalizeData_air_fuel_group (K : PidTable) (pid : Nat) (data : List Nat)
    (h1 : pid ∉ K.caseLabels.take 45)
    (h2 : pid ∈ [ PidTable.PID_AIR_FUEL_EQUIV_RATIO K]) :
    normalizeData K pid data = Int.tdiv ((hex2uint16 data : Int) * 200) 65536 := by
  simp only [PidTable.caseLabels, List.take_succ_cons, List.take_zero, List.mem_cons,
    List.not_mem_nil, or_false, not_or] at h1
  simp only [List.mem_cons, List.not_mem_nil, or_false, List.mem_singleton] at h2
  simp only [normalizeData, h1, or_self, if_false]
  rw [if_pos h2, getLargeValue]

/-- The division of C on `int`, which truncates toward zero, in terms of the
division that rounds down. -/
theorem tdiv_eq_ite (a b : Int) (hb : 0 ≤ b) :
    Int.tdiv a b = if 0 ≤ a then a / b else -((-a) / b) := by
  split_ifs with h
  · exact Int.tdiv_eq_ediv h hb
  · have h2 : (0 : Int) ≤ -a := by omega
    have e := Int.neg_tdiv (-a) b
    rw [neg_neg] at e
    rw [e, Int.tdiv_eq_ediv h2 hb]

/-- C26. For every PID of the fuel-trim group (short and long term fuel trim
1 and 2, EGR error) and every payload, `normalizeData` returns the byte minus
128, times 100, divided by 128 in signed integers with truncation toward
zero.  The result lies in `-100..99`; the bytes `0x00`, `0x80` and `0x7F`
give -100, 0 and 0, where rounding down would give -1 for `0x7F`. -/
theorem normalizeData_fuel_trim (K : PidTable) (hK : K.caseLabels.Nodup) (pid : Nat)
    (hp : pid ∈ [K.PID_SHORT_TERM_FUEL_TRIM_1, K.PID_LONG_TERM_FUEL_TRIM_1,
      K.PID_SHORT_TERM_FUEL_TRIM_2, K.PID_LONG_TERM_FUEL_TRIM_2, K.PID_EGR_ERROR])
    (data : List Nat) :
    normalizeData K pid data = Int.tdiv (((hex2uint8 data : Int) - 128) * 100) 128
    ∧ -100 ≤ normalizeData K pid data ∧ normalizeData K pid data ≤ 99
    ∧ normalizeData K pid (ascii "00") = -100
    ∧ normalizeData K pid (ascii "80") = 0
    ∧ normalizeData K pid (ascii "7F") = 0
    ∧ Int.fdiv (((hex2uint8 (ascii "7F") : Int) - 128) * 100) 128 = -1
    ∧ normalizeData K pid (ascii "FF") = 99 := by
  have hd : pid ∈ K.caseLabels.drop 35 :=
    List.mem_append_left (K.caseLabels.drop 40) hp
  have h1 := not_mem_take_of_nodup _ hK 35 pid hd
  have key : ∀ d, normalizeData K pid d
      = Int.tdiv (((hex2uint8 d : Int) - 128) * 100) 128 :=
    fun d => normalizeData_fuel_trim_group K pid d h1 hp
  have hlt := hex2uint8_lt data
  have hv := tdiv_eq_ite (((hex2uint8 data : Int) - 128) * 100) 128 (by norm_num)
  refine ⟨key data, ?_, ?_, ?_, ?_, ?_, ?_, ?_⟩
  · rw [key, hv]; split_ifs <;> omega
  · rw [key, hv]; split_ifs <;> omega
  · rw [key]; decide
  · rw [key]; decide
  · rw [key]; decide
  · decide
  · rw [key]; decide

/-- The instance of C26 at the SAE J1979 numbering and the long term fuel trim
of bank 1. -/
theorem normalizeData_fuel_trim_witness :
    normalizeData j1979 0x07 (ascii "7F\r") = 0 :=
  (normalizeData_fuel_trim j1979 (by decide) 0x07 (by decide) (ascii "7F\r")).1.trans
    (by decide)

/-- C27. The remaining rows of the decode table, for every payload, with the
byte `hex2uint8 data` and the word `hex2uint16 data`: fuel pressure, MAF
flow, timing advance, the group that returns the word as it is, control
module voltage, fuel rate, the torque percentages, injection timing (C
division, truncating toward zero), catalyst temperature, and the air-fuel
equivalence ratio, whose product stays far below 32 bits and whose value lies
in `0..199`; a PID that is no label of the `switch` decodes to the byte. -/
theorem normalizeData_table (K : PidTable) (hK : K.caseLabels.Nodup) (data : List Nat) :
    normalizeData K K.PID_FUEL_PRESSURE data = ((hex2uint8 data * 3 : Nat) : Int)
    ∧ normalizeData K K.PID_MAF_FLOW data = ((hex2uint16 data / 100 : Nat) : Int)
    ∧ normalizeData K K.PID_TIMING_ADVANCE data = ((hex2uint8 data / 2 : Nat) : Int) - 64
    ∧ (∀ pid ∈ [K.PID_DISTANCE, K.PID_DISTANCE_WITH_MIL, K.PID_TIME_WITH_MIL,
          K.PID_TIME_SINCE_CODES_CLEARED, K.PID_RUNTIME, K.PID_FUEL_RAIL_PRESSURE,
          K.PID_ENGINE_REF_TORQUE],
        normalizeData K pid data = (hex2uint16 data : Int))
    ∧ normalizeData K K.PID_CONTROL_MODULE_VOLTAGE data = ((hex2uint16 data / 1000 : Nat) : Int)
    ∧ normalizeData K K.PID_ENGINE_FUEL_RATE data = ((hex2uint16 data / 20 : Nat) : Int)
    ∧ (∀ pid ∈ [K.PID_ENGINE_TORQUE_DEMANDED, K.PID_ENGINE_TORQUE_PERCENTAGE],
        normalizeData K pid data = (hex2uint8 data : Int) - 125)
    ∧ normalizeData K K.PID_FUEL_INJECTION_TIMING data
        = Int.tdiv ((hex2uint16 data : Int) - 26880) 128
    ∧ normalizeData K K.PID_FUEL_INJECTION_TIMING data
        = (if 26880 ≤ hex2uint16 data then (((hex2uint16 data - 26880) / 128 : Nat) : Int)
           else -(((26880 - hex2uint16 data) / 128 : Nat) : Int))
    ∧ normalizeData K K.PID_FUEL_INJECTION_TIMING (ascii "68FF") = 0
    ∧ normalizeData K K.PID_FUEL_INJECTION_TIMING (ascii "0000") = -210
    ∧ (∀ pid ∈ [K.PID_CATALYST_TEMP_B1S1, K.PID_CATALYST_TEMP_B2S1,
          K.PID_CATALYST_TEMP_B1S2, K.PID_CATALYST_TEMP_B2S2],
        normalizeData K pid data = ((hex2uint16 data / 10 : Nat) : Int) - 40)
    ∧ normalizeData K ( PidTable.PID_AIR_FUEL_EQUIV_RATIO K) data
        = ((hex2uint16 data * 200 / 65536 : Nat) : Int)
    ∧ hex2uint16 data * 200 < 2147483648
    ∧ 0 ≤ normalizeData K ( PidTable.PID_AIR_FUEL_EQUIV_RATIO K) data
    ∧ normalizeData K ( PidTable.PID_AIR_FUEL_EQUIV_RATIO K) data ≤ 199
    ∧ (∀ pid, pid ∉ K.caseLabels → normalizeData K pid data = (hex2uint8 data : Int)) := by
  have hb := hex2uint8_lt data
  have hw := hex2uint16_lt data
  have nt : ∀ a pid, pid ∈ K.caseLabels.drop a → pid ∉ K.caseLabels.take a :=
    fun a pid h => not_mem_take_of_nodup _ hK a pid h
  have e2 := normalizeData_fuel_pressure_group K _ data
    (nt 2 K.PID_FUEL_PRESSURE (List.mem_cons_self _ _)) (List.mem_cons_self _ _)
  have e22 := normalizeData_maf_flow_group K _ data
    (nt 22 K.PID_MAF_FLOW (List.mem_cons_self _ _)) (List.mem_cons_self _ _)
  have e23 := normalizeData_timing_advance_group K _ data
    (nt 23 K.PID_TIMING_ADVANCE (List.mem_cons_self _ _)) (List.mem_cons_self _ _)
  have e31 := normalizeData_voltage_group K _ data
    (nt 31 K.PID_CONTROL_MODULE_VOLTAGE (List.mem_cons_self _ _)) (List.mem_cons_self _ _)
  have e32 := normalizeData_fuel_rate_group K _ data
    (nt 32 K.PID_ENGINE_FUEL_RATE (List.mem_cons_self _ _)) (List.mem_cons_self _ _)
  have e40 : ∀ d, normalizeData K K.PID_FUEL_INJECTION_TIMING d
      = Int.tdiv ((hex2uint16 d : Int) - 26880) 128 :=
    fun d => normalizeData_injection_timing_group K _ d
      (nt 40 K.PID_FUEL_INJECTION_TIMING (List.mem_cons_self _ _)) (List.mem_cons_self _ _)
  have e45 := normalizeData_air_fuel_group K _ data
    (nt 45 ( PidTable.PID_AIR_FUEL_EQUIV_RATIO K) (List.mem_cons_self _ _))
    (List.mem_cons_self _ _)
  have t100 := tdiv_eq_ite (hex2uint16 data : Int) 100 (by norm_num)
  have t2 := tdiv_eq_ite (hex2uint8 data : Int) 2 (by norm_num)
  have t1000 := tdiv_eq_ite (hex2uint16 data : Int) 1000 (by norm_num)
  have t20 := tdiv_eq_ite (hex2uint16 data : Int) 20 (by norm_num)
  have t10 := tdiv_eq_ite (hex2uint16 data : Int) 10 (by norm_num)
  have t128 := tdiv_eq_ite ((hex2uint16 data : Int) - 26880) 128 (by norm_num)
  have t65536 := tdiv_eq_ite ((hex2uint16 data : Int) * 200) 65536 (by norm_num)
  rw [if_pos (by omega)] at t100 t2 t1000 t20 t10 t65536
  refine ⟨?_, ?_, ?_, ?_, ?_, ?_, ?_, e40 data, ?_, ?_, ?_, ?_, ?_, by omega, ?_, ?_, ?_⟩
  · rw [e2]; omega
  · rw [e22, t100]; omega
  · rw [e23, t2]; omega
  · intro pid hp
    exact normalizeData_word_group K pid data
      (nt 24 pid (List.mem_append_left (K.caseLabels.drop 31) hp)) hp
  · rw [e31, t1000]; omega
  · rw [e32, t20]; omega
  · intro pid hp
    exact normalizeData_torque_group K pid data
      (nt 33 pid (List.mem_append_left (K.caseLabels.drop 35) hp)) hp
  · rw [e40, t128]
    split_ifs <;> omega
  · rw [e40]; decide
  · rw [e40]; decide
  · intro pid hp
    rw [normalizeData_catalyst_group K pid data
      (nt 41 pid (List.mem_append_left (K.caseLabels.drop 45) hp)) hp, t10]
    omega
  · rw [e45, t65536]; omega
  · rw [e45, t65536]; omega
  · rw [e45, t65536]; omega
  · exact fun pid h => normalizeData_default K pid data h

/-- The instance of C27 at the SAE J1979 numbering: the injection timing for
the word `0x68FF`, one below the offset 26880, is 0. -/
theorem normalizeData_table_witness :
    normalizeData j1979 0x5D (ascii "68 FF\r")
      = Int.tdiv ((hex2uint16 (ascii "68 FF\r") : Int) - 26880) 128 :=
  (normalizeData_table j1979 (by decide) (ascii "68 FF\r")).2.2.2.2.2.2.2.1

/-- C28 as stated fails: for the two lines of the comment in the source joined
by a bare carriage return, the step of six characters behind `"01 09"` lands
behind the carriage return, on the index of the second line; the words read
from there on are `0x0001`, `0x1101` and `0x1500`. -/
theorem OBDLib_ReadDTC_bare_line_boundary :
    (OBDLib_ReadDTC ⟨[], [ascii "0: 43 04 01 08 01 09\r1: 01 11 01 15 00 00 00\r"]⟩ 4
        (fun _ => List.replicate 128 0)).2
      = (4, [(0, 0x0108), (1, 0x0109), (2, 0x0001), (3, 0x1101)])
    ∧ (OBDLib_ReadDTC ⟨[], [ascii "0: 43 04 01 08 01 09\r1: 01 11 01 15 00 00 00\r"]⟩ 8
        (fun _ => List.replicate 128 0)).2
      = (5, [(0, 0x0108), (1, 0x0109), (2, 0x0001), (3, 0x1101), (4, 0x1500)]) := by
  decide

/-- C28, amended. When every byte of the answer is followed by a blank, as in
`"0: 43 04 01 08 01 09 \r1: 01 11 01 15 00 00 00 \r"`, and `maxCodes ≥ 4`,
`OBDLib_ReadDTC` returns 4 with the codes `[0x0108, 0x0109, 0x0111, 0x0115]`
after the single request `"03\r"`: the step behind `"01 09 "` lands on the
carriage return, decoding resumes two characters behind the next colon, and
it stops at the first zero word. -/
theorem OBDLib_ReadDTC_two_lines (dev : ObdDevice) (more : List (List Nat)) (maxCodes : Nat)
    (junk : Nat → List Nat)
    (hp : dev.pending = ascii "0: 43 04 01 08 01 09 \r1: 01 11 01 15 00 00 00 \r" :: more)
    (hm : 4 ≤ maxCodes) :
    OBDLib_ReadDTC dev maxCodes junk
      = ({ written := dev.written ++ [ascii "03\r"], pending := more }, 4,
          [(0, 0x0108), (1, 0x0109), (2, 0x0111), (3, 0x0115)]) := by
  obtain ⟨m, rfl⟩ : ∃ m, maxCodes = m + 4 := ⟨maxCodes - 4, by omega⟩
  have hd : pageHasData (ascii "0: 43 04 01 08 01 09 \r1: 01 11 01 15 00 00 00 \r") = true := by
    decide
  have ht : List.take 127 (ascii "0: 43 04 01 08 01 09 \r1: 01 11 01 15 00 00 00 \r") ++ [0]
      = [48, 58, 32, 52, 51, 32, 48, 52, 32, 48, 49, 32, 48, 56, 32, 48, 49, 32, 48, 57, 32,
          13, 49, 58, 32, 48, 49, 32, 49, 49, 32, 48, 49, 32, 49, 53, 32, 48, 48, 32, 48, 48,
          32, 48, 48, 32, 13, 0] := by
    decide
  have hc : dtcCommand 0 = ascii "03\r" := by decide
  have hs : ∀ t : List Nat,
      strstr ([48, 58, 32, 52, 51, 32, 48, 52, 32, 48, 49, 32, 48, 56, 32, 48, 49, 32, 48, 57,
          32, 13, 49, 58, 32, 48, 49, 32, 49, 49, 32, 48, 49, 32, 49, 53, 32, 48, 48, 32, 48,
          48, 32, 48, 48, 32, 13, 0] ++ t) (ascii "43")
      = some ([52, 51, 32, 48, 52, 32, 48, 49, 32, 48, 56, 32, 48, 49, 32, 48, 57,
          32, 13, 49, 58, 32, 48, 49, 32, 49, 49, 32, 48, 49, 32, 49, 53, 32, 48, 48, 32, 48,
          48, 32, 48, 48, 32, 13, 0] ++ t) := by
    intro t
    have e : ascii "43" = [52, 51] := by decide
    rw [e]
    simp [strstr, List.isPrefixOf]
  have h1 : ∀ t : List Nat, hex2uint16 (48 :: 49 :: 32 :: 48 :: 56 :: t) = 0x0108 := by
    intro t
    rw [hex2uint16_eq_value]
    simp [hexWordDigits, List.takeWhile_cons, isHexDigit, hexDigitsValue, hexValue]
  have h2 : ∀ t : List Nat, hex2uint16 (48 :: 49 :: 32 :: 48 :: 57 :: 32 :: t) = 0x0109 := by
    intro t
    rw [hex2uint16_eq_value]
    simp [hexWordDigits, List.takeWhile_cons, isHexDigit, hexDigitsValue, hexValue]
  have h3 : ∀ t : List Nat, hex2uint16 (48 :: 49 :: 32 :: 49 :: 49 :: t) = 0x0111 := by
    intro t
    rw [hex2uint16_eq_value]
    simp [hexWordDigits, List.takeWhile_cons, isHexDigit, hexDigitsValue, hexValue]
  have h4 : ∀ t : List Nat, hex2uint16 (48 :: 49 :: 32 :: 49 :: 53 :: t) = 0x0115 := by
    intro t
    rw [hex2uint16_eq_value]
    simp [hexWordDigits, List.takeWhile_cons, isHexDigit, hexDigitsValue, hexValue]
  have h5 : ∀ t : List Nat, hex2uint16 (48 :: 48 :: 32 :: 48 :: 48 :: t) = 0 := by
    intro t
    rw [hex2uint16_eq_value]
    simp [hexWordDigits, List.takeWhile_cons, isHexDigit, hexDigitsValue, hexValue]
  have hdec : ∀ t : List Nat,
      dtcDecode (m + 4) 0
        ([52, 51, 32, 48, 52, 32, 48, 49, 32, 48, 56, 32, 48, 49, 32, 48, 57,
          32, 13, 49, 58, 32, 48, 49, 32, 49, 49, 32, 48, 49, 32, 49, 53, 32, 48, 48, 32, 48,
          48, 32, 48, 48, 32, 13, 0] ++ t)
      = [(0, 0x0108), (1, 0x0109), (2, 0x0111), (3, 0x0115)] := by
    intro t
    cases m with
    | zero => simp [dtcDecode, deref, strchr, h1, h2, h3, h4]
    | succ k => simp [dtcDecode, deref, strchr, h1, h2, h3, h4, h5]
  rw [OBDLib_ReadDTC, readDtcPages_step, hp, List.headD_cons, if_pos hd, ht, hc, storeAt,
    hs, Nat.sub_zero]
  simp only [hdec]
  rfl

/-- The instance of amended C28 at a fresh channel, room for eight codes and
a buffer that starts full of `0xFF`. -/
theorem OBDLib_ReadDTC_two_lines_witness :
    OBDLib_ReadDTC ⟨[], [ascii "0: 43 04 01 08 01 09 \r1: 01 11 01 15 00 00 00 \r"]⟩ 8
        (fun _ => List.replicate 128 255)
      = ({ written := [] ++ [ascii "03\r"], pending := [] }, 4,
          [(0, 0x0108), (1, 0x0109), (2, 0x0111), (3, 0x0115)]) :=
  OBDLib_ReadDTC_two_lines ⟨[], [ascii "0: 43 04 01 08 01 09 \r1: 01 11 01 15 00 00 00 \r"]⟩ [] 8
    (fun _ => List.replicate 128 255) rfl (by decide)

/-- C30, the divergence: the caller hands over eight cells and says so, the
channel answers with a VIN of 17 characters, and `ODBLib_GetVIN` stores the 17
characters and the NUL, 18 cells, ten of them behind the end of the caller's
buffer, and returns `true`; `bufsize` occurs nowhere in the body of the
function. -/
theorem ODBLib_GetVIN_ignores_bufsize :
    ODBLib_GetVIN
        ⟨[], [ascii ("014\r0: 49 02 01 31 44 34 \r1: 47 50 30 30 52 35 35 \r"
                ++ "2: 42 31 32 33 34 35 36 \r\r>")]⟩
        (List.replicate 8 0x55) 8
      = (⟨[ascii "0902\r"], []⟩, true, ascii "1D4GP00R55B123456" ++ [0])
    ∧ (ODBLib_GetVIN
        ⟨[], [ascii ("014\r0: 49 02 01 31 44 34 \r1: 47 50 30 30 52 35 35 \r"
                ++ "2: 42 31 32 33 34 35 36 \r\r>")]⟩
        (List.replicate 8 0x55) 8).2.2.length = 18 := by
  decide

/-! ### `OBDLib_ReadPID`: the frame that is decoded -/

theorem firstFrame_strstr_none (pid : Nat) :
    ∀ p : List Nat, strstr p (ascii "41 ") = none → firstFrame pid p = none := by
  intro p
  induction p with
  | nil => intro _; rfl
  | cons c rest ih =>
    intro h
    rw [strstr] at h
    split_ifs at h with hp h0
    · rw [firstFrame, if_pos h0]
    · rw [firstFrame, if_neg h0, if_neg (fun hc => hp hc.1)]
      exact ih h

theorem firstFrame_strstr_some (pid : Nat) :
    ∀ p q : List Nat, strstr p (ascii "41 ") = some q → firstFrame pid p = firstFrame pid q := by
  intro p
  induction p with
  | nil =>
    intro q h
    rw [strstr] at h
    split_ifs at h with hp
    · cases h; rfl
  | cons c rest ih =>
    intro q h
    rw [strstr] at h
    split_ifs at h with hp h0
    · cases h; rfl
    · rw [firstFrame, if_neg h0, if_neg (fun hc => hp hc.1)]
      exact ih q h

/-- Blanks up to the end of the string are left as they are by the skip of a
token. -/
theorem skipToSpace_of_blank_rest (t : List Nat) (h : deref (skipSpaces t) = 0) :
    skipToSpace t = t := by
  cases t with
  | nil => rfl
  | cons c r =>
    by_cases hc : c = 32
    · subst hc
      exact skipToSpace_stop _ (Or.inr (by simp [deref]))
    · rw [skipSpaces, if_neg hc] at h
      exact skipToSpace_stop _ (Or.inl h)

/-- Behind a PID token that is followed by blanks only there is no frame. -/
theorem firstFrame_blank_rest (pid : Nat) :
    ∀ x : List Nat, deref (skipSpaces (skipToSpace x)) = 0 → firstFrame pid x = none := by
  intro x
  induction x with
  | nil => intro _; rfl
  | cons c r ih =>
    intro h
    rw [firstFrame]
    by_cases h0 : c = 0
    · rw [if_pos h0]
    · rw [if_neg h0]
      have hr : deref (skipSpaces (skipToSpace r)) = 0 := by
        by_cases h32 : c = 32
        · subst h32
          rw [skipToSpace_stop _ (Or.inr (by simp [deref])), skipSpaces, if_pos rfl] at h
          rw [skipToSpace_of_blank_rest r h]
          exact h
        · rw [skipToSpace, if_pos ⟨h0, h32⟩] at h
          exact h
      rw [if_neg, ih hr]
      rintro ⟨hp, -, hne⟩
      apply hne
      obtain ⟨t, ht⟩ := List.isPrefixOf_iff_prefix.1 hp
      have e : ascii "41 " = [52, 49, 32] := by decide
      rw [e] at ht
      simp only [List.cons_append, List.nil_append, List.cons.injEq] at ht
      obtain ⟨rfl, rfl⟩ := ht
      simp only [List.drop_succ_cons, List.drop_zero]
      have h1 : deref (skipSpaces t) = 0 := by
        rw [skipToSpace, if_pos (by decide), skipToSpace, if_pos (by decide),
          skipToSpace_stop _ (Or.inr (by simp [deref])), skipSpaces, if_pos rfl] at h
        exact h
      rw [skipToSpace_of_blank_rest t h1]
      exact h1

/-- At a token `"41 "` the position-by-position search either stops or goes on
behind the token. -/
theorem firstFrame_token (pid : Nat) (t : List Nat) :
    firstFrame pid (52 :: 49 :: 32 :: t)
      = if hex2uint8 t = pid ∧ deref (skipSpaces (skipToSpace t)) ≠ 0 then
          some (skipSpaces (skipToSpace t))
        else firstFrame pid t := by
  have e : ascii "41 " = [52, 49, 32] := by decide
  have hp : (ascii "41 ").isPrefixOf (52 :: 49 :: 32 :: t) = true := by
    rw [e]; simp [List.isPrefixOf]
  have hn1 : ¬ (ascii "41 ").isPrefixOf (49 :: 32 :: t) = true := by
    rw [e]; simp [List.isPrefixOf]
  have hn2 : ¬ (ascii "41 ").isPrefixOf (32 :: t) = true := by
    rw [e]; simp [List.isPrefixOf]
  rw [firstFrame, if_neg (by decide)]
  simp only [List.drop_succ_cons, List.drop_zero, hp, true_and]
  split_ifs with h
  · rfl
  · rw [firstFrame, if_neg (by decide), if_neg (fun hc => hn1 hc.1),
      firstFrame, if_neg (by decide), if_neg (fun hc => hn2 hc.1)]

/-- The scan of `OBDLib_ReadPID`, which jumps from token to token with
`strstr`, finds what the search position by position finds. -/
theorem scanPid_eq_firstFrame (pid : Nat) :
    ∀ (fuel : Nat) (p : List Nat), p.length < fuel → scanPid pid fuel p = firstFrame pid p := by
  intro fuel
  induction fuel with
  | zero => intro p h; omega
  | succ n ih =>
    intro p hlen
    rw [scanPid]
    cases hs : strstr p (ascii "41 ") with
    | none => exact (firstFrame_strstr_none pid p hs).symm
    | some q =>
      obtain ⟨hpre, -⟩ := strstr_some _ p q hs
      have hql := strstr_length _ p q hs
      obtain ⟨hq, -⟩ := token_split q hpre
      have e : ascii "41 " = [52, 49, 32] := by decide
      rw [e] at hq
      have hq3 : q.length = (q.drop 3).length + 3 := by
        conv_lhs => rw [hq]
        simp
      rw [firstFrame_strstr_some pid p q hs]
      simp only []
      generalize q.drop 3 = t at hq hq3 ⊢
      rw [hq, List.cons_append, List.cons_append, List.cons_append, List.nil_append,
        firstFrame_token]
      by_cases hc : hex2uint8 t = pid
      · rw [if_pos hc]
        by_cases hd : deref (skipSpaces (skipToSpace t)) ≠ 0
        · rw [if_pos hd, if_pos ⟨hc, hd⟩]
        · rw [if_neg hd, if_neg (fun h => hd h.2)]
          have hd0 : deref (skipSpaces (skipToSpace t)) = 0 := not_not.1 hd
          rw [firstFrame_blank_rest pid t hd0]
          have hnone : strstr (skipSpaces (skipToSpace t)) (ascii "41 ") = none := by
            cases hx : skipSpaces (skipToSpace t) with
            | nil => rw [e]; simp [strstr, List.isPrefixOf]
            | cons c r =>
              rw [hx] at hd0
              simp only [deref, List.headD_cons] at hd0
              subst hd0
              rw [e]; simp [strstr, List.isPrefixOf]
          cases n with
          | zero => rfl
          | succ k => rw [scanPid, hnone]
      · rw [if_neg hc, if_neg (fun h => hc h.1)]
        exact ih t (by omega)

/-- C29. For every answer that is not empty and holds no error token,
`OBDLib_ReadPID` decodes the payload behind the first token `"41 "` that is
followed by a hex byte equal to `pid` and a non-empty payload, whatever
frames for other PIDs stand in front of it, and fails when there is no such
token; for PID `0x0D` the answer `"41 0C 1A F8\r41 0D 32\r\r>"` gives 50. -/
theorem OBDLib_ReadPID_first_frame (K : PidTable) (dev : ObdDevice) (pid : Nat) (pResult : Int)
    (h1 : dev.response 64 ≠ []) (h2 : checkErrorMessage (dev.response 64) = 0) :
    OBDLib_ReadPID K dev pid pResult
      = (match firstFrame pid (dev.response 64 ++ 0 ::
            (fmt02X dataMode ++ fmt02X pid ++ [13] ++ [0]).drop ((dev.response 64).length + 1))
          with
         | some payload =>
           ({ written := dev.written ++ [fmt02X dataMode ++ fmt02X pid ++ [13]],
              pending := dev.pending.tail }, true, normalizeData K pid payload)
         | none =>
           ({ written := dev.written ++ [fmt02X dataMode ++ fmt02X pid ++ [13]],
              pending := dev.pending.tail }, false, pResult))
    ∧ firstFrame 0x0D (ascii "41 0C 1A F8\r41 0D 32\r\r>" ++ [0]) = some (ascii "32\r\r>" ++ [0])
    ∧ (OBDLib_ReadPID j1979 ⟨[], [ascii "41 0C 1A F8\r41 0D 32\r\r>"]⟩ 0x0D 0).2 = (true, 50) := by
  refine ⟨?_, by decide, by decide⟩
  have hlen : ¬ (dev.response 64).length = 0 := fun h => h1 (List.length_eq_zero.1 h)
  have herr : checkErrorMessage (dev.response 64 ++ 0 ::
      (fmt02X dataMode ++ fmt02X pid ++ [13] ++ [0]).drop ((dev.response 64).length + 1)) = 0 := by
    rw [checkErrorMessage_cstring, cstring_append_nul, ← checkErrorMessage_cstring]
    exact h2
  rw [OBDLib_ReadPID_eq]
  simp only []
  rw [if_neg hlen, if_pos herr, scanPid_eq_firstFrame pid _ _ (Nat.lt_succ_self _)]
  cases firstFrame pid (dev.response 64 ++ 0 ::
      (fmt02X dataMode ++ fmt02X pid ++ [13] ++ [0]).drop ((dev.response 64).length + 1)) <;> rfl

/-- The instance of C29 at the answer of the specification, where the frame
for the engine speed stands in front of the frame for the vehicle speed. -/
theorem OBDLib_ReadPID_first_frame_witness :
    OBDLib_ReadPID j1979 ⟨[], [ascii "41 0C 1A F8\r41 0D 32\r\r>"]⟩ 0x0D 0
      = (⟨[ascii "010D\r"], []⟩, true, 50) :=
  (OBDLib_ReadPID_first_frame j1979 ⟨[], [ascii "41 0C 1A F8\r41 0D 32\r\r>"]⟩ 0x0D 0
    (by decide) (by decide)).1.trans (by decide)

/-! ### `uart_receive`: the rounds of the loop -/

/-- The loop of `uart_receive` is its body, round after round. -/
theorem uartReceiveLoop_cons (bufsize startTime : Nat) (t : UartTick) (rest : List UartTick)
    (s : RecvState) :
    uartReceiveLoop bufsize startTime (t :: rest) s
      = if (uartRound bufsize startTime t s).goesOn = true then
          uartReceiveLoop bufsize startTime rest (uartRound bufsize startTime t s).after
        else (uartRound bufsize startTime t s).after := by
  rw [uartReceiveLoop]
  unfold uartRound
  simp only []
  by_cases h1 : (t.now + 4294967296 - startTime % 4294967296) % 4294967296 > s.timeout
  · rw [if_pos h1, if_pos h1]
    rfl
  · rw [if_neg h1, if_neg h1]
    by_cases h2 : (s.n : Int) ≥ (bufsize : Int) - 1
    · rw [if_pos h2, if_pos h2]
      rfl
    · rw [if_neg h2, if_neg h2]
      cases t.read with
      | error => rfl
      | bytes data =>
        simp only []
        by_cases h3 : (List.take (bufsize - s.n - 1) data).length = 0
        · rw [if_pos h3, if_pos h3]
          rfl
        · rw [if_neg h3, if_neg h3]
          by_cases h4 : (strstr (List.drop s.n
              (storeFrom s.buffer s.n (List.take (bufsize - s.n - 1) data ++ [0])))
              (ascii "\r>")).isSome = true
          · rw [if_pos h4, if_pos h4]
            rfl
          · rw [if_neg h4, if_neg h4]
            by_cases h5 : (strstr
                (storeFrom s.buffer s.n (List.take (bufsize - s.n - 1) data ++ [0]))
                (ascii "...")).isSome = true
            · rw [if_pos h5, if_pos h5]
              rfl
            · rw [if_neg h5, if_neg h5]
              rfl

theorem storeFrom_length (mem : List Nat) (offset : Nat) (bytes : List Nat)
    (h : offset + bytes.length ≤ mem.length) :
    (storeFrom mem offset bytes).length = mem.length := by
  simp only [storeFrom, List.length_append, List.length_take, List.length_drop]
  omega

/-- A store that ends at or before cell `k` leaves the memory from cell `k` on
as it was. -/
theorem storeFrom_drop (mem : List Nat) (offset : Nat) (bytes : List Nat) (k : Nat)
    (h : offset + bytes.length ≤ k) (hk : k ≤ mem.length) :
    (storeFrom mem offset bytes).drop k = mem.drop k := by
  have hl : (mem.take offset ++ bytes).length = offset + bytes.length := by
    simp only [List.length_append, List.length_take]
    omega
  have e : k = (mem.take offset ++ bytes).length + (k - (offset + bytes.length)) := by omega
  unfold storeFrom
  conv_lhs => rw [e]
  rw [List.drop_append, List.drop_drop]
  congr 1
  omega

/-- What one round keeps of the capacity of the buffer: the size it asks for,
the cells it stores to, the count it leaves, and the memory from cell
`bufsize` on. -/
theorem uartRound_capacity (bufsize startTime : Nat) (t : UartTick) (s : RecvState)
    (hb : 1 ≤ bufsize) (hn : s.n ≤ bufsize - 1) :
    (∀ q, (uartRound bufsize startTime t s).request = some q →
        q = bufsize - s.n - 1 ∧ 1 ≤ q ∧ s.n + q ≤ bufsize - 1)
    ∧ (∀ i ∈ (uartRound bufsize startTime t s).stores, i < bufsize)
    ∧ (uartRound bufsize startTime t s).after.n ≤ bufsize - 1
    ∧ (bufsize ≤ s.buffer.length →
        (uartRound bufsize startTime t s).after.buffer.length = s.buffer.length
        ∧ (uartRound bufsize startTime t s).after.buffer.drop bufsize
            = s.buffer.drop bufsize) := by
  unfold uartRound
  simp only []
  by_cases h1 : (t.now + 4294967296 - startTime % 4294967296) % 4294967296 > s.timeout
  · rw [if_pos h1]
    exact ⟨fun q h => (by cases h), fun i h => absurd h (List.not_mem_nil i), hn, fun _ => ⟨rfl, rfl⟩⟩
  · rw [if_neg h1]
    by_cases h2 : (s.n : Int) ≥ (bufsize : Int) - 1
    · rw [if_pos h2]
      exact ⟨fun q h => (by cases h), fun i h => absurd h (List.not_mem_nil i), hn, fun _ => ⟨rfl, rfl⟩⟩
    · rw [if_neg h2]
      have hroom : s.n + 1 < bufsize := by omega
      have hreq : ∀ q, some (bufsize - s.n - 1) = some q →
          q = bufsize - s.n - 1 ∧ 1 ≤ q ∧ s.n + q ≤ bufsize - 1 := by
        intro q h
        cases h
        omega
      cases t.read with
      | error => exact ⟨hreq, fun i h => absurd h (List.not_mem_nil i), hn, fun _ => ⟨rfl, rfl⟩⟩
      | bytes data =>
        simp only []
        have hlen : (List.take (bufsize - s.n - 1) data).length ≤ bufsize - s.n - 1 := by
          rw [List.length_take]
          exact Nat.min_le_left _ _
        generalize List.take (bufsize - s.n - 1) data = chunk at hlen ⊢
        have hcells : ∀ i ∈ (List.range chunk.length).map (fun i => s.n + i)
            ++ [s.n + chunk.length], i < bufsize := by
          intro i hi
          rcases List.mem_append.1 hi with hi | hi
          · obtain ⟨j, hj, rfl⟩ := List.mem_map.1 hi
            have := List.mem_range.1 hj
            omega
          · rw [List.mem_singleton] at hi
            omega
        have hmod : (s.n + chunk.length) % 256 ≤ bufsize - 1 :=
          le_trans (Nat.mod_le _ _) (by omega)
        have hst : ∀ L, bufsize ≤ L → s.buffer.length = L →
            (storeFrom s.buffer s.n (chunk ++ [0])).length = s.buffer.length
            ∧ (storeFrom s.buffer s.n (chunk ++ [0])).drop bufsize = s.buffer.drop bufsize := by
          intro L hL hs
          have h3 : s.n + (chunk ++ [0]).length ≤ bufsize := by
            rw [List.length_append, List.length_singleton]
            omega
          exact ⟨storeFrom_length _ _ _ (by omega), storeFrom_drop _ _ _ _ h3 (by omega)⟩
        by_cases h3 : chunk.length = 0
        · rw [if_pos h3]
          exact ⟨hreq, fun i h => absurd h (List.not_mem_nil i), hn, fun _ => ⟨rfl, rfl⟩⟩
        · rw [if_neg h3]
          by_cases h4 : (strstr (List.drop s.n (storeFrom s.buffer s.n (chunk ++ [0])))
              (ascii "\r>")).isSome = true
          · rw [if_pos h4]
            exact ⟨hreq, hcells, hmod, fun h => hst _ h rfl⟩
          · rw [if_neg h4]
            by_cases h5 : (strstr (storeFrom s.buffer s.n (chunk ++ [0]))
                (ascii "...")).isSome = true
            · rw [if_pos h5]
              refine ⟨hreq, ?_, Nat.zero_le _, ?_⟩
              · intro i hi
                rcases List.mem_append.1 hi with hi | hi
                · exact hcells i hi
                · rw [List.mem_singleton] at hi
                  omega
              · intro h
                obtain ⟨e1, e2⟩ := hst _ h rfl
                have e3 : 0 + ([0] : List Nat).length
                    ≤ (storeFrom s.buffer s.n (chunk ++ [0])).length := by
                  rw [e1, List.length_singleton]
                  omega
                constructor
                · show (storeFrom (storeFrom s.buffer s.n (chunk ++ [0])) 0 [0]).length = _
                  rw [storeFrom_length _ _ _ e3, e1]
                · show (storeFrom (storeFrom s.buffer s.n (chunk ++ [0])) 0 [0]).drop bufsize = _
                  rw [storeFrom_drop _ _ _ bufsize (by simpa using hb) (by omega), e2]
            · rw [if_neg h5]
              exact ⟨hreq, hcells, hmod, fun h => hst _ h rfl⟩

theorem uartRound_state (bufsize startTime : Nat) (t : UartTick) (s : RecvState) :
    (uartRound bufsize startTime t s).state = s := by
  unfold uartRound
  simp only []
  split_ifs
  · rfl
  · rfl
  · cases t.read with
    | error => rfl
    | bytes data =>
      simp only []
      split_ifs <;> rfl

/-- The capacity of the buffer is kept by every round of a run and by its
result. -/
theorem uartReceiveLoop_capacity (bufsize startTime : Nat) (hb : 1 ≤ bufsize) :
    ∀ (ticks : List UartTick) (s : RecvState), s.n ≤ bufsize - 1 →
      (∀ r ∈ uartReceiveRounds bufsize startTime ticks s,
          (∀ q, r.request = some q →
            q = bufsize - r.state.n - 1 ∧ 1 ≤ q ∧ r.state.n + q ≤ bufsize - 1)
          ∧ ∀ i ∈ r.stores, i < bufsize)
      ∧ (uartReceiveLoop bufsize startTime ticks s).n ≤ bufsize - 1
      ∧ (bufsize ≤ s.buffer.length →
          (uartReceiveLoop bufsize startTime ticks s).buffer.length = s.buffer.length
          ∧ (uartReceiveLoop bufsize startTime ticks s).buffer.drop bufsize
              = s.buffer.drop bufsize) := by
  intro ticks
  induction ticks with
  | nil =>
    intro s hn
    exact ⟨fun r hr => absurd hr (List.not_mem_nil r), hn, fun _ => ⟨rfl, rfl⟩⟩
  | cons t rest ih =>
    intro s hn
    obtain ⟨c1, c2, c3, c4⟩ := uartRound_capacity bufsize startTime t s hb hn
    have hst := uartRound_state bufsize startTime t s
    have hr0 : (∀ q, (uartRound bufsize startTime t s).request = some q →
          q = bufsize - (uartRound bufsize startTime t s).state.n - 1 ∧ 1 ≤ q
            ∧ (uartRound bufsize startTime t s).state.n + q ≤ bufsize - 1)
        ∧ ∀ i ∈ (uartRound bufsize startTime t s).stores, i < bufsize := by
      rw [hst]
      exact ⟨c1, c2⟩
    rw [uartReceiveRounds, uartReceiveLoop_cons]
    by_cases hg : (uartRound bufsize startTime t s).goesOn = true
    · rw [if_pos hg, if_pos hg]
      obtain ⟨i1, i2, i3⟩ := ih (uartRound bufsize startTime t s).after c3
      refine ⟨?_, i2, ?_⟩
      · intro r hr
        rcases List.mem_cons.1 hr with rfl | hr
        · exact hr0
        · exact i1 r hr
      · intro hl
        obtain ⟨d1, d2⟩ := c4 hl
        obtain ⟨e1, e2⟩ := i3 (by rw [d1]; exact hl)
        exact ⟨e1.trans d1, e2.trans d2⟩
    · rw [if_neg hg, if_neg hg]
      refine ⟨?_, c3, c4⟩
      intro r hr
      rw [List.mem_singleton] at hr
      subst hr
      exact hr0

/-- C21. For every `bufsize ≥ 1` (the sizes `1..256` among them) and every
sequence of rounds, whose reads bring at most the bytes asked for, every call
of `uart_read_bytes` asks for `bufsize - n - 1` bytes, at least one and no
more than fit in front of the last cell; every cell `uart_receive` stores
to, data, NUL or the reset of cell 0, has an index below `bufsize`; the count
returned is at most `bufsize - 1`; and the memory from cell `bufsize` on is
left as it was. -/
theorem uart_receive_within_capacity (buffer : List Nat) (bufsize timeout startTime : Nat)
    (ticks : List UartTick) (hb : 1 ≤ bufsize) :
    (∀ r ∈ uartReceiveRounds bufsize startTime ticks
          { buffer := buffer, n := 0, timeout := timeout, exit := RecvExit.timedOut },
        (∀ q, r.request = some q →
          q = bufsize - r.state.n - 1 ∧ 1 ≤ q ∧ r.state.n + q ≤ bufsize - 1)
        ∧ ∀ i ∈ r.stores, i < bufsize)
    ∧ (uart_receive buffer bufsize timeout startTime ticks).n ≤ bufsize - 1
    ∧ (bufsize ≤ buffer.length →
        (uart_receive buffer bufsize timeout startTime ticks).buffer.length = buffer.length
        ∧ (uart_receive buffer bufsize timeout startTime ticks).buffer.drop bufsize
            = buffer.drop bufsize) :=
  uartReceiveLoop_capacity bufsize startTime hb ticks
    { buffer := buffer, n := 0, timeout := timeout, exit := RecvExit.timedOut } (Nat.zero_le _)

/-- The instance of C21 at a buffer of eight cells with two cells of other
memory behind it and a read that offers ten bytes. -/
theorem uart_receive_within_capacity_witness :
    (uart_receive (List.replicate 8 0 ++ [170, 187]) 8 1000 0
        [⟨0, UartRead.bytes (ascii "0123456789")⟩]).n ≤ 8 - 1
    ∧ (uart_receive (List.replicate 8 0 ++ [170, 187]) 8 1000 0
        [⟨0, UartRead.bytes (ascii "0123456789")⟩]).buffer.drop 8
        = (List.replicate 8 0 ++ [170, 187]).drop 8 :=
  ⟨(uart_receive_within_capacity (List.replicate 8 0 ++ [170, 187]) 8 1000 0
      [⟨0, UartRead.bytes (ascii "0123456789")⟩] (by decide)).2.1,
   ((uart_receive_within_capacity (List.replicate 8 0 ++ [170, 187]) 8 1000 0
      [⟨0, UartRead.bytes (ascii "0123456789")⟩] (by decide)).2.2 (by decide)).2⟩

/-- C22, the divergence: the answer `"41 0D 32\r\r>"` arrives in two reads,
the `'>'` alone in the second.  After the second read the buffer holds the
terminator and one millisecond of the budget of 1000 is gone, but the search
`strstr( buffer + n, "\r>" )` looks at the bytes of the second read only: the
loop asks for more bytes in a third round and ends when the budget is used
up.  The same bytes in one read end the loop at once. -/
theorem uart_receive_split_terminator :
    (uart_receive (List.replicate 16 0) 16 1000 0
        [⟨0, UartRead.bytes (ascii "41 0D 32\r\r")⟩, ⟨1, UartRead.bytes (ascii ">")⟩,
         ⟨2, UartRead.bytes []⟩, ⟨1001, UartRead.bytes []⟩]).exit = RecvExit.timedOut
    ∧ (uart_receive (List.replicate 16 0) 16 1000 0
        [⟨0, UartRead.bytes (ascii "41 0D 32\r\r")⟩, ⟨1, UartRead.bytes (ascii ">")⟩,
         ⟨2, UartRead.bytes []⟩, ⟨1001, UartRead.bytes []⟩]).text = ascii "41 0D 32\r\r>"
    ∧ (uartReceiveRounds 16 0
        [⟨0, UartRead.bytes (ascii "41 0D 32\r\r")⟩, ⟨1, UartRead.bytes (ascii ">")⟩,
         ⟨2, UartRead.bytes []⟩, ⟨1001, UartRead.bytes []⟩]
        ⟨List.replicate 16 0, 0, 1000, RecvExit.timedOut⟩).map
          (fun r => (r.elapsed, cstring r.state.buffer, r.request))
        = [(0, [], some 15), (1, ascii "41 0D 32\r\r", some 5),
           (2, ascii "41 0D 32\r\r>", some 4), (1001, ascii "41 0D 32\r\r>", none)]
    ∧ (uart_receive (List.replicate 16 0) 16 1000 0
        [⟨0, UartRead.bytes (ascii "41 0D 32\r\r>")⟩, ⟨2, UartRead.bytes []⟩,
         ⟨1001, UartRead.bytes []⟩]).exit = RecvExit.terminator := by
  decide

/-- What one round does with the budget: the time check, and the
resynchronisation when it fires. -/
theorem uartRound_budget (bufsize startTime : Nat) (t : UartTick) (s : RecvState) :
    (uartRound bufsize startTime t s).elapsed
        = (t.now + 4294967296 - startTime % 4294967296) % 4294967296
    ∧ ((uartRound bufsize startTime t s).elapsed > s.timeout →
        (uartRound bufsize startTime t s).goesOn = false
        ∧ (uartRound bufsize startTime t s).after = { s with exit := RecvExit.timedOut })
    ∧ ((uartRound bufsize startTime t s).resync = true →
        (uartRound bufsize startTime t s).goesOn = true
        ∧ (uartRound bufsize startTime t s).after.n = 0
        ∧ cstring (uartRound bufsize startTime t s).after.buffer = []
        ∧ (uartRound bufsize startTime t s).after.timeout
            = (s.timeout + 10000) % 4294967296)
    ∧ ((uartRound bufsize startTime t s).resync = false →
        (uartRound bufsize startTime t s).after.timeout = s.timeout) := by
  have hz : ∀ b : List Nat, cstring (storeFrom b 0 [0]) = [] := by
    intro b
    simp [storeFrom, cstring]
  unfold uartRound
  simp only []
  by_cases h1 : (t.now + 4294967296 - startTime % 4294967296) % 4294967296 > s.timeout
  · rw [if_pos h1]
    exact ⟨rfl, fun _ => ⟨rfl, rfl⟩, fun h => (by cases h), fun _ => rfl⟩
  · rw [if_neg h1]
    by_cases h2 : (s.n : Int) ≥ (bufsize : Int) - 1
    · rw [if_pos h2]
      exact ⟨rfl, fun h => absurd h h1, fun h => (by cases h), fun _ => rfl⟩
    · rw [if_neg h2]
      cases t.read with
      | error => exact ⟨rfl, fun h => absurd h h1, fun h => (by cases h), fun _ => rfl⟩
      | bytes data =>
        simp only []
        by_cases h3 : (List.take (bufsize - s.n - 1) data).length = 0
        · rw [if_pos h3]
          exact ⟨rfl, fun h => absurd h h1, fun h => (by cases h), fun _ => rfl⟩
        · rw [if_neg h3]
          by_cases h4 : (strstr (List.drop s.n
              (storeFrom s.buffer s.n (List.take (bufsize - s.n - 1) data ++ [0])))
              (ascii "\r>")).isSome = true
          · rw [if_pos h4]
            exact ⟨rfl, fun h => absurd h h1, fun h => (by cases h), fun _ => rfl⟩
          · rw [if_neg h4]
            by_cases h5 : (strstr
                (storeFrom s.buffer s.n (List.take (bufsize - s.n - 1) data ++ [0]))
                (ascii "...")).isSome = true
            · rw [if_pos h5]
              exact ⟨rfl, fun h => absurd h h1, fun _ => ⟨rfl, rfl, hz _, rfl⟩,
                fun h => (by cases h)⟩
            · rw [if_neg h5]
              exact ⟨rfl, fun h => absurd h h1, fun h => (by cases h), fun _ => rfl⟩

/-- The rounds of a run, taken apart at one of them: the budget the round
starts with counts the resynchronisations before it, the round is the body
of the loop run on one of the ticks, a round that leaves the loop is the
last, and a round that goes on hands its variables to the rest of the run. -/
theorem uartReceiveRounds_split (bufsize startTime : Nat) :
    ∀ (ticks : List UartTick) (s : RecvState) (pre : List RecvRound) (r : RecvRound)
      (post : List RecvRound), s.timeout < 4294967296 →
      uartReceiveRounds bufsize startTime ticks s = pre ++ r :: post →
      r.state.timeout
          = (s.timeout + 10000 * (pre.filter (fun x => x.resync)).length) % 4294967296
      ∧ (∃ t ∈ ticks, r = uartRound bufsize startTime t r.state)
      ∧ (r.goesOn = false →
          post = [] ∧ uartReceiveLoop bufsize startTime ticks s = r.after)
      ∧ (r.goesOn = true → ∃ rest,
          post = uartReceiveRounds bufsize startTime rest r.after
          ∧ uartReceiveLoop bufsize startTime ticks s
              = uartReceiveLoop bufsize startTime rest r.after) := by
  intro ticks
  induction ticks with
  | nil =>
    intro s pre r post _ h
    rw [uartReceiveRounds] at h
    exact absurd h (by simp)
  | cons t rest ih =>
    intro s pre r post hs h
    have hst := uartRound_state bufsize startTime t s
    obtain ⟨-, -, b3, b4⟩ := uartRound_budget bufsize startTime t s
    rw [uartReceiveRounds] at h
    cases pre with
    | nil =>
      rw [List.nil_append] at h
      have hr : r = uartRound bufsize startTime t s := by
        split_ifs at h with hg
        · exact (List.cons.inj h).1.symm
        · exact (List.cons.inj h).1.symm
      have hrs : r.state = s := by rw [hr, hst]
      refine ⟨?_, ⟨t, List.mem_cons_self _ _, ?_⟩, ?_, ?_⟩
      · rw [hrs]
        simp only [List.filter_nil, List.length_nil, Nat.mul_zero, Nat.add_zero]
        exact (Nat.mod_eq_of_lt hs).symm
      · rw [hrs]; exact hr
      · intro hg
        rw [hr] at hg
        rw [if_neg (by rw [hg]; decide)] at h
        rw [uartReceiveLoop_cons, if_neg (by rw [hg]; decide), hr]
        exact ⟨((List.cons.inj h).2).symm, rfl⟩
      · intro hg
        rw [hr] at hg
        rw [if_pos hg] at h
        refine ⟨rest, ?_, ?_⟩
        · rw [hr]; exact ((List.cons.inj h).2).symm
        · rw [uartReceiveLoop_cons, if_pos hg, hr]
    | cons r0 pre2 =>
      rw [List.cons_append] at h
      by_cases hg : (uartRound bufsize startTime t s).goesOn = true
      · rw [if_pos hg] at h
        obtain ⟨h0, h1⟩ := List.cons.inj h
        have hlt : (uartRound bufsize startTime t s).after.timeout < 4294967296 := by
          cases hrs : (uartRound bufsize startTime t s).resync with
          | true => rw [(b3 hrs).2.2.2]; exact Nat.mod_lt _ (by norm_num)
          | false => rw [b4 hrs]; exact hs
        obtain ⟨i1, ⟨t2, ht2, i2⟩, i3, i4⟩ := ih _ pre2 r post hlt h1
        refine ⟨?_, ⟨t2, List.mem_cons_of_mem _ ht2, i2⟩, ?_, ?_⟩
        · rw [i1, ← h0]
          cases hrs : (uartRound bufsize startTime t s).resync with
          | true =>
            rw [(b3 hrs).2.2.2, List.filter_cons_of_pos (by simpa using hrs),
              List.length_cons]
            omega
          | false =>
            rw [b4 hrs, List.filter_cons_of_neg (by simp [hrs])]
        · intro hgr
          obtain ⟨e1, e2⟩ := i3 hgr
          exact ⟨e1, by rw [uartReceiveLoop_cons, if_pos hg]; exact e2⟩
        · intro hgr
          obtain ⟨rest2, e1, e2⟩ := i4 hgr
          exact ⟨rest2, e1, by rw [uartReceiveLoop_cons, if_pos hg]; exact e2⟩
      · rw [if_neg hg] at h
        have := (List.cons.inj h).2
        exact absurd this.symm (by simp)

/-- C23 as stated fails: the budget is an `unsigned int`, and with the budget
`4294967295` the resynchronisation leaves `9999`, not the budget plus
10000. -/
theorem uart_receive_budget_wraps :
    (uartReceiveRounds 64 0 [⟨0, UartRead.bytes (ascii "...")⟩]
        ⟨List.replicate 64 0, 0, 4294967295, RecvExit.timedOut⟩).map
          (fun r => (r.resync, r.state.timeout, r.after.timeout))
      = [(true, 4294967295, 9999)]
    ∧ (uart_receive (List.replicate 64 0) 64 4294967295 0
        [⟨0, UartRead.bytes (ascii "...")⟩]).timeout = 9999
    ∧ 9999 ≠ 4294967295 + 10000 := by
  decide

/-- C23, amended. In every run of `uart_receive` with a budget that fits an
`unsigned int`, a round that follows `k` resynchronisations starts with the
budget `timeout + 10000 * k` reduced modulo `2 ^ 32` (so with exactly that
sum as long as it stays below `2 ^ 32`), and measures the elapsed time from
the start time of the call.  A round in which the resynchronisation fires
leaves the count 0, an empty string in the buffer and the budget raised by
10000 modulo `2 ^ 32`, and the loop goes on with these.  A round whose
elapsed time exceeds `timeout + 10000 * k` is the last: the loop ends there
with the variables as they were. -/
theorem uart_receive_budget (buffer : List Nat) (bufsize timeout startTime : Nat)
    (ticks : List UartTick) (pre : List RecvRound) (r : RecvRound) (post : List RecvRound)
    (ht : timeout < 4294967296)
    (hr : uartReceiveRounds bufsize startTime ticks
        { buffer := buffer, n := 0, timeout := timeout, exit := RecvExit.timedOut }
      = pre ++ r :: post) :
    r.state.timeout
        = (timeout + 10000 * (pre.filter (fun x => x.resync)).length) % 4294967296
    ∧ (timeout + 10000 * (pre.filter (fun x => x.resync)).length < 4294967296 →
        r.state.timeout = timeout + 10000 * (pre.filter (fun x => x.resync)).length)
    ∧ (∃ t ∈ ticks, r.elapsed = (t.now + 4294967296 - startTime % 4294967296) % 4294967296)
    ∧ (r.resync = true →
        r.after.n = 0 ∧ cstring r.after.buffer = []
        ∧ r.after.timeout = (r.state.timeout + 10000) % 4294967296
        ∧ ∃ rest, post = uartReceiveRounds bufsize startTime rest r.after
            ∧ uart_receive buffer bufsize timeout startTime ticks
                = uartReceiveLoop bufsize startTime rest r.after)
    ∧ (r.elapsed > timeout + 10000 * (pre.filter (fun x => x.resync)).length →
        post = []
        ∧ uart_receive buffer bufsize timeout startTime ticks
            = { r.state with exit := RecvExit.timedOut }) := by
  obtain ⟨s1, ⟨t, htm, s2⟩, s3, s4⟩ := uartReceiveRounds_split bufsize startTime ticks
    { buffer := buffer, n := 0, timeout := timeout, exit := RecvExit.timedOut } pre r post ht hr
  obtain ⟨b1, b2, b3, b4⟩ := uartRound_budget bufsize startTime t r.state
  rw [← s2] at b1 b2 b3 b4
  refine ⟨s1, ?_, ⟨t, htm, b1⟩, ?_, ?_⟩
  · intro hlt
    rw [s1, Nat.mod_eq_of_lt hlt]
  · intro hrs
    obtain ⟨c1, c2, c3, c4⟩ := b3 hrs
    exact ⟨c2, c3, c4, s4 c1⟩
  · intro he
    have hle : r.state.timeout
        ≤ timeout + 10000 * (pre.filter (fun x => x.resync)).length := by
      rw [s1]
      exact Nat.mod_le _ _
    obtain ⟨c1, c2⟩ := b2 (by omega)
    obtain ⟨d1, d2⟩ := s3 c1
    refine ⟨d1, ?_⟩
    unfold uart_receive
    rw [d2, c2]

/-- The instance of amended C23 at a run of three rounds: the marker arrives
in the first, the answer has not come when the second finds the raised
budget of 11000 ms used up at 11001 ms. -/
theorem uart_receive_budget_witness :
    uart_receive (List.replicate 16 0) 16 1000 0
        [⟨0, UartRead.bytes (ascii "...")⟩, ⟨11001, UartRead.bytes (ascii "41")⟩]
      = { buffer := 0 :: 46 :: 46 :: List.replicate 13 0, n := 0, timeout := 11000,
          exit := RecvExit.timedOut } :=
  ((uart_receive_budget (List.replicate 16 0) 16 1000 0
      [⟨0, UartRead.bytes (ascii "...")⟩, ⟨11001, UartRead.bytes (ascii "41")⟩]
      [uartRound 16 0 ⟨0, UartRead.bytes (ascii "...")⟩
        ⟨List.replicate 16 0, 0, 1000, RecvExit.timedOut⟩]
      (uartRound 16 0 ⟨11001, UartRead.bytes (ascii "41")⟩
        ⟨0 :: 46 :: 46 :: List.replicate 13 0, 0, 11000, RecvExit.timedOut⟩)
      [] (by decide) (by decide)).2.2.2.2 (by decide)).2

/-- C24. In a round of `uart_receive` that passes the time check and finds
room in the buffer, a read of zero bytes stores nothing and leaves buffer,
count and budget as they were, and the loop goes on with the next round, its
time check and its read; a negative result of the read ends the loop in this
round, whatever rounds the environment has left, with the count as it was. -/
theorem uart_receive_zero_and_error (bufsize startTime : Nat) (t : UartTick)
    (rest : List UartTick) (s : RecvState)
    (h1 : (t.now + 4294967296 - startTime % 4294967296) % 4294967296 ≤ s.timeout)
    (h2 : (s.n : Int) < (bufsize : Int) - 1) :
    (t.read = UartRead.bytes [] →
      uartReceiveLoop bufsize startTime (t :: rest) s = uartReceiveLoop bufsize startTime rest s
      ∧ uartReceiveRounds bufsize startTime (t :: rest) s
          = { state := s,
              elapsed := (t.now + 4294967296 - startTime % 4294967296) % 4294967296,
              request := some (bufsize - s.n - 1), stores := [], resync := false,
              after := s, goesOn := true }
            :: uartReceiveRounds bufsize startTime rest s)
    ∧ (t.read = UartRead.error →
      uartReceiveLoop bufsize startTime (t :: rest) s = { s with exit := RecvExit.readError }
      ∧ (uartReceiveLoop bufsize startTime (t :: rest) s).n = s.n
      ∧ uartReceiveRounds bufsize startTime (t :: rest) s
          = [{ state := s,
               elapsed := (t.now + 4294967296 - startTime % 4294967296) % 4294967296,
               request := some (bufsize - s.n - 1), stores := [], resync := false,
               after := { s with exit := RecvExit.readError }, goesOn := false }]) := by
  have n1 : ¬ (t.now + 4294967296 - startTime % 4294967296) % 4294967296 > s.timeout := by
    omega
  have n2 : ¬ (s.n : Int) ≥ (bufsize : Int) - 1 := by omega
  constructor
  · intro hr
    have e : uartRound bufsize startTime t s
        = { state := s,
            elapsed := (t.now + 4294967296 - startTime % 4294967296) % 4294967296,
            request := some (bufsize - s.n - 1), stores := [], resync := false,
            after := s, goesOn := true } := by
      unfold uartRound
      simp only []
      rw [if_neg n1, if_neg n2, hr]
      simp only [List.take_nil, List.length_nil, if_true]
    rw [uartReceiveLoop_cons, uartReceiveRounds, e]
    exact ⟨rfl, rfl⟩
  · intro hr
    have e : uartRound bufsize startTime t s
        = { state := s,
            elapsed := (t.now + 4294967296 - startTime % 4294967296) % 4294967296,
            request := some (bufsize - s.n - 1), stores := [], resync := false,
            after := { s with exit := RecvExit.readError }, goesOn := false } := by
      unfold uartRound
      simp only []
      rw [if_neg n1, if_neg n2, hr]
    rw [uartReceiveLoop_cons, uartReceiveRounds, e]
    exact ⟨rfl, rfl, rfl⟩

/-- The instance of C24 at a round with a read error after eight bytes, with
an answer the environment still holds. -/
theorem uart_receive_zero_and_error_witness :
    uartReceiveLoop 16 0
        [⟨5, UartRead.error⟩, ⟨6, UartRead.bytes (ascii "41 0D 32\r\r>")⟩]
        ⟨ascii "41 0D 32" ++ List.replicate 8 0, 8, 1000, RecvExit.timedOut⟩
      = ⟨ascii "41 0D 32" ++ List.replicate 8 0, 8, 1000, RecvExit.readError⟩ :=
  ((uart_receive_zero_and_error 16 0 ⟨5, UartRead.error⟩
      [⟨6, UartRead.bytes (ascii "41 0D 32\r\r>")⟩]
      ⟨ascii "41 0D 32" ++ List.replicate 8 0, 8, 1000, RecvExit.timedOut⟩
      (by decide) (by decide)).2 rfl).1

end Obd
